import Mathlib

/-!
# k0s controller bootstrap: the etcd join path

A shallow embedding of `pkg/component/controller/etcd.go` (`Etcd.Run`,
`Etcd.setupCerts`), of `cmd/controller/main.go` (`needToJoin`,
`startController`, the `RunE` of the controller command), of the configuration
code in `pkg/apis/v1beta1/cluster.go`, `pkg/config/yaml.go` and
`cmd/helpers.go`, of `kubebuilder/api/v1beta1/api.go`, of
`internal/util/yaml.go`, of `cmd/root.go` (`init`, `getPersistentFlagSet`), of
`cmd/validate/main.go`, of `pkg/component/server/configCR.go` and of
`pkg/token/kubeconfig.go` (`CreateKubeletBootstrapConfig`).

Effects are made explicit.  The file system is a map from paths to files (bytes
and permission bits), every call that leaves the process (the join endpoint,
`time.Sleep`, `ioutil.WriteFile`, `os.Chown`, the certificate manager, the
supervisor) is appended to a trace of events, and the answers of the outside
world, the choices of the goroutine scheduler included, are read from an
environment record.
-/

namespace K0s

/-! ## Go values -/

/-- Contents of a file or of a byte slice. -/
abbrev Bytes := List Nat

/-- Go `error` value that is not nil; only its message is observable. -/
structure GoError where
  msg : String
deriving DecidableEq, Repr

/-- The functions `errors.Wrap` and `errors.Wrapf` of `github.com/pkg/errors`
(used here without format verbs): the message is put in front of the cause. -/
def errors.Wrap (err : GoError) (message : String) : GoError :=
  ⟨message ++ ": " ++ err.msg⟩

/-- How a Go call ends: it returns its `error` result (nil is `none`), or it
panics. -/
inductive Outcome where
  | returned (err : Option GoError)
  | panicked
deriving DecidableEq, Repr

/-! ## `path/filepath` on a Unix host -/

/-- Pieces of a path between its slashes (`"a//b"` gives `a`, the empty piece
and `b`). -/
def splitSlash : List Char → List (List Char)
  | [] => [[]]
  | c :: cs =>
    if c = '/' then [] :: splitSlash cs
    else
      match splitSlash cs with
      | [] => [[c]]
      | x :: xs => (c :: x) :: xs

/-- One element of the path seen by `filepath.Clean`; `acc` holds the elements
kept so far, the last one first. -/
def cleanStep (rooted : Bool) (acc : List (List Char)) (comp : List Char) :
    List (List Char) :=
  if comp = [] ∨ comp = ['.'] then acc
  else if comp = ['.', '.'] then
    match acc with
    | [] => if rooted then [] else [comp]
    | top :: rest => if top = ['.', '.'] then comp :: acc else rest
  else comp :: acc

/-- Path elements put together again with single slashes. -/
def joinSlash : List (List Char) → List Char
  | [] => []
  | [x] => x
  | x :: y :: rest => x ++ '/' :: joinSlash (y :: rest)

/-- Go `filepath.Clean`: the shortest equivalent path, by purely lexical
processing. -/
def filepath.Clean (path : String) : String :=
  let rooted : Bool := path.data.head? = some '/'
  let kept := ((splitSlash path.data).foldl (cleanStep rooted) []).reverse
  let out := if rooted then '/' :: joinSlash kept else joinSlash kept
  if out = [] then "." else String.mk out

/-- Go `strings.Join`. -/
def strings.Join (elems : List String) (sep : String) : String :=
  sep.intercalate elems

/-- Go `filepath.Join`: the elements from the first non-empty one on, joined
with slashes and cleaned; the empty string when every element is empty. -/
def filepath.Join (elem : List String) : String :=
  match elem.dropWhile (fun s => s = "") with
  | [] => ""
  | rest => filepath.Clean (strings.Join rest "/")

/-- Go `filepath.Dir`: everything up to the last slash, cleaned. -/
def filepath.Dir (path : String) : String :=
  filepath.Clean (String.mk (path.data.reverse.dropWhile (fun c => c ≠ '/')).reverse)

/-! ## The world outside the process -/

/-- A regular file: its bytes and its permission bits. -/
structure File where
  data : Bytes
  mode : Nat
deriving DecidableEq, Repr

/-- Regular files by path. -/
abbrev FS := String → Option File

/-- The permission bits of a file created with `perm` by a process with the given file
mode creation mask: the bits of the mask are cleared. -/
def syscall.createMode (perm umask : Nat) : Nat :=
  perm - (perm &&& umask)

/-- The file system after `filename` has been opened with `O_WRONLY|O_CREATE|O_TRUNC` and
`data` has been written to it: a file that was there keeps its permission bits, a file
that was not there is created with the bits `mode`. -/
def FS.write (fs : FS) (filename : String) (data : Bytes) (mode : Nat) : FS :=
  fun p =>
    if p = filename then
      some ⟨data, match fs filename with
                  | some f => f.mode
                  | none => mode⟩
    else fs p

/-- Modelled from the spec: `util.FileExists` is declared in a file of `internal/util` that is
not among these sources; it tells whether a file is present at the path ("an existing
database file", "CA material already exists"). -/
def util.FileExists (fs : FS) (fileName : String) : Bool :=
  (fs fileName).isSome

/-- The type `config.CAResponse`: the CA material handed out by the join API. -/
structure CAResponse where
  Key : Bytes
  Cert : Bytes
deriving DecidableEq, Repr

/-- The type `config.EtcdResponse`. -/
structure EtcdResponse where
  CA : CAResponse
  InitialCluster : List String
deriving DecidableEq, Repr

/-- Zero value of `config.EtcdResponse`. -/
def EtcdResponse.zero : EtcdResponse := ⟨⟨[], []⟩, []⟩

/-- The type `certificate.Request`. -/
structure certificate.Request where
  Name : String
  CN : String
  O : String
  CACert : String
  CAKey : String
  Hostnames : List String
deriving DecidableEq, Repr

/-- The type `supervisor.Supervisor`, the fields set by its callers. -/
structure Supervisor where
  Name : String
  BinPath : String
  RunDir : String
  DataDir : String
  Args : List String
  UID : Int
  GID : Int
deriving DecidableEq, Repr

/-- Zero value of `supervisor.Supervisor`. -/
def Supervisor.zero : Supervisor := ⟨"", "", "", "", [], 0, 0⟩

/-- Calls of `Etcd.Run` that leave the process, in the order they are made. -/
inductive Event where
  | joinEtcd (peerAddress : String)
  | sleep (milliseconds : Nat)
  | writeFile (filename : String) (data : Bytes) (perm : Nat)
  | chown (name : String) (uid gid : Int)
  | ensureCA (name commonName : String)
  | ensureCertificate (req : certificate.Request) (ownerName : String)
  | supervise (s : Supervisor)
deriving DecidableEq, Repr

/-- File system and the events so far.  `fs` holds the files as the code embedded here
reads and writes them; what the certificate manager and the supervised process do to
files is outside these sources and is not recorded in it. -/
structure World where
  fs : FS
  trace : List Event

/-- Append one event. -/
def World.log (w : World) (ev : Event) : World :=
  { w with trace := w.trace ++ [ev] }

/-- Answers of the operating system and of the packages that are not part of
these sources, with the constants of `pkg/constant` that the code names. -/
structure Env where
  /-- Result of `os.Hostname`. -/
  hostname : String × Option GoError
  /-- Result of `os.Geteuid`. -/
  geteuid : Int
  /-- Error of `ioutil.WriteFile` on a path, if it fails there. -/
  writeFileErr : String → Option GoError
  /-- Of a failing `ioutil.WriteFile` on a path: `none` when `OpenFile` failed and the file
  is untouched, `some n` when the file was opened and `n` bytes reached it before the
  error. -/
  written : String → Option Nat
  /-- The file mode creation mask of the process. -/
  umask : Nat
  /-- Error of `os.Chown` on a path, if it fails there. -/
  chownErr : String → Option GoError
  /-- Result of `certificate.Manager.EnsureCA`. -/
  ensureCA : String → String → Option GoError
  /-- Error result of `certificate.Manager.EnsureCertificate`. -/
  ensureCertificate : certificate.Request → String → Option GoError
  /-- Choice of the scheduler among the goroutines of an `errgroup`: the place, among the
  goroutines started after it, at which goroutine number `i` gets to make its call. -/
  goStart : Nat → Nat
  /-- Choice of the scheduler among the goroutines of an `errgroup`: the place, among the
  goroutines started after it, at which goroutine number `i` returns. -/
  goFinish : Nat → Nat
  /-- Result of `supervisor.Supervisor.Supervise`. -/
  supervise : Supervisor → Option GoError
  /-- The function `assets.BinPath`. -/
  binPath : String → String → String
  /-- The constant `constant.CertSecureMode`. -/
  CertSecureMode : Nat
  /-- The constant `constant.ApiserverUser`. -/
  ApiserverUser : String
  /-- The constant `constant.EtcdUser`. -/
  EtcdUser : String

/-- The type `constant.CfgVars`, the directories and files used here. -/
structure CfgVars where
  DataDir : String
  CertRootDir : String
  EtcdCertDir : String
  EtcdDataDir : String
  BinDir : String
  RunDir : String
  AdminKubeConfigPath : String := ""
deriving DecidableEq, Repr

/-- The type `config.EtcdConfig`. -/
structure EtcdConfig where
  PeerAddress : String
deriving DecidableEq, Repr

/-- The type `token.JoinClient`.  Its method `JoinEtcd` talks to the join API
of a running controller and its body is not part of these sources:
`JoinEtcd n peerAddress` is what the call number `n` (counted from 0) made
through this client returns, the response together with the error. -/
structure token.JoinClient where
  JoinEtcd : Nat → String → EtcdResponse × Option GoError

/-- The type `certificate.Manager`. -/
structure certificate.Manager where
  K0sVars : CfgVars
deriving DecidableEq, Repr

/-- The component `controller.Etcd`.  The pointers `Config` and `JoinClient`
may be nil. -/
structure Etcd where
  CertManager : certificate.Manager
  Config : Option EtcdConfig
  Join : Bool
  JoinClient : Option token.JoinClient
  K0sVars : CfgVars
  LogLevel : String
  supervisor : Supervisor
  uid : Int
  gid : Int

/-! ## `Etcd.Run` -/

/-- Path of the etcd CA certificate, `etcdCaCert` in `Etcd.Run` and `Etcd.setupCerts`. -/
def Etcd.etcdCaCert (e : Etcd) : String := filepath.Join [e.K0sVars.EtcdCertDir, "ca.crt"]

/-- Path of the etcd CA key, `etcdCaCertKey` in `Etcd.Run` and `Etcd.setupCerts`. -/
def Etcd.etcdCaCertKey (e : Etcd) : String := filepath.Join [e.K0sVars.EtcdCertDir, "ca.key"]

/-- Path of the etcd data base file whose presence switches the join off. -/
def Etcd.dbFile (e : Etcd) : String :=
  filepath.Join [e.K0sVars.EtcdDataDir, "member", "snap", "db"]

/-- The value of `peerURL` in `Etcd.Run` (source line 105). -/
def EtcdConfig.peerURL (cfg : EtcdConfig) : String :=
  "https://" ++ cfg.PeerAddress ++ ":2380"

/-- The `args` slice of `Etcd.Run` as first built (source lines 106 to 123). -/
def Etcd.baseArgs (e : Etcd) (name peerURL : String) : List String :=
  [ "--data-dir=" ++ e.K0sVars.EtcdDataDir,
    "--listen-client-urls=https://127.0.0.1:2379",
    "--advertise-client-urls=https://127.0.0.1:2379",
    "--client-cert-auth=true",
    "--listen-peer-urls=" ++ peerURL,
    "--initial-advertise-peer-urls=" ++ peerURL,
    "--name=" ++ name,
    "--trusted-ca-file=" ++ e.etcdCaCert,
    "--cert-file=" ++ filepath.Join [e.K0sVars.EtcdCertDir, "server.crt"],
    "--key-file=" ++ filepath.Join [e.K0sVars.EtcdCertDir, "server.key"],
    "--peer-trusted-ca-file=" ++ e.etcdCaCert,
    "--peer-key-file=" ++ filepath.Join [e.K0sVars.EtcdCertDir, "peer.key"],
    "--peer-cert-file=" ++ filepath.Join [e.K0sVars.EtcdCertDir, "peer.crt"],
    "--log-level=" ++ e.LogLevel,
    "--peer-client-cert-auth=true",
    "--enable-pprof=false" ]

/-- The retry loop `for i := 0; i < 20; i++` of `Etcd.Run` (source lines 133 to
140) with `remaining` iterations left, `i` the number of calls made so far, and
`etcdResponse`, `err` the two variables the loop assigns. -/
def Etcd.joinLoop (jc : token.JoinClient) (peerURL : String) :
    (remaining i : Nat) → (etcdResponse : EtcdResponse) → (err : Option GoError) →
    World → World × EtcdResponse × Option GoError
  | 0, _, etcdResponse, err, w => (w, etcdResponse, err)
  | remaining + 1, i, _, _, w =>
    let w := w.log (.joinEtcd peerURL)
    match jc.JoinEtcd i peerURL with
    | (etcdResponse, none) => (w, etcdResponse, none)
    | (etcdResponse, some err) =>
      Etcd.joinLoop jc peerURL remaining (i + 1) etcdResponse (some err) (w.log (.sleep 500))

/-- Go `ioutil.WriteFile`: `OpenFile` with `O_WRONLY|O_CREATE|O_TRUNC` and `perm`, then
`Write` and `Close`.  On success the file holds exactly `data`.  A call that fails in
`OpenFile` leaves the file system as it was; a call that fails later leaves the file with
the bytes that were written before the error.  The permission bits `perm`, less the bits of
the umask, are given to a file that is created; a file that is there keeps its own. -/
def ioutil.WriteFile (env : Env) (filename : String) (data : Bytes) (perm : Nat)
    (w : World) : World × Option GoError :=
  let w := w.log (.writeFile filename data perm)
  match env.writeFileErr filename with
  | some err =>
    match env.written filename with
    | none => (w, some err)
    | some n =>
      ({ w with fs := FS.write w.fs filename (data.take n)
                        (syscall.createMode perm env.umask) }, some err)
  | none =>
    ({ w with fs := FS.write w.fs filename data (syscall.createMode perm env.umask) }, none)

/-- The loop `for _, f := range ... { if err := os.Chown(f, uid, gid); err != nil
&& os.Geteuid() == 0 { return err } }` (source lines 159 to 163). -/
def Etcd.chownLoop (env : Env) (uid gid : Int) : List String → World → World × Option GoError
  | [], w => (w, none)
  | f :: rest, w =>
    let w := w.log (.chown f uid gid)
    match env.chownErr f with
    | some err => if env.geteuid = 0 then (w, some err) else Etcd.chownLoop env uid gid rest w
    | none => Etcd.chownLoop env uid gid rest w

/-- The block "Write etcd ca cert&key" of `Etcd.Run` (source lines 147 to 164). -/
def Etcd.writeCA (env : Env) (e : Etcd) (etcdResponse : EtcdResponse) (w : World) :
    World × Option GoError :=
  if util.FileExists w.fs e.etcdCaCert && util.FileExists w.fs e.etcdCaCertKey then
    (w, none)
  else
    match ioutil.WriteFile env e.etcdCaCertKey etcdResponse.CA.Key env.CertSecureMode w with
    | (w, some err) => (w, some err)
    | (w, none) =>
      match ioutil.WriteFile env e.etcdCaCert etcdResponse.CA.Cert env.CertSecureMode w with
      | (w, some err) => (w, some err)
      | (w, none) =>
        Etcd.chownLoop env e.uid e.gid
          [filepath.Dir e.etcdCaCertKey, e.etcdCaCertKey, e.etcdCaCert] w

/-- The three leaf requests of `Etcd.setupCerts` with the user each is issued
for, in the order of the `eg.Go` calls. -/
def Etcd.leafRequests (env : Env) (e : Etcd) (peerAddress : String) :
    List (certificate.Request × String) :=
  [ (⟨"apiserver-etcd-client", "apiserver-etcd-client", "apiserver-etcd-client",
      e.etcdCaCert, e.etcdCaCertKey, ["127.0.0.1", "localhost"]⟩, env.ApiserverUser),
    (⟨filepath.Join ["etcd", "server"], "etcd-server", "etcd-server",
      e.etcdCaCert, e.etcdCaCertKey, ["127.0.0.1", "localhost"]⟩, env.EtcdUser),
    (⟨filepath.Join ["etcd", "peer"], peerAddress, "etcd-peer",
      e.etcdCaCert, e.etcdCaCertKey, [peerAddress]⟩, env.EtcdUser) ]

/-- Put `a` at place `n` of the list, at its end when the list is shorter. -/
def errgroup.insertAt {α : Type} (a : α) : Nat → List α → List α
  | 0, l => a :: l
  | _ + 1, [] => [a]
  | n + 1, b :: l => b :: errgroup.insertAt a n l

/-- An order in which the goroutines started by `eg.Go` may run: goroutine number `i` is
put at the place `pick i` among those started after it.  Every order of the goroutines is
the result of some `pick`, and `pick i = 0` for every `i` is the order of the `eg.Go`
calls. -/
def errgroup.order {α : Type} (pick : Nat → Nat) : Nat → List α → List α
  | _, [] => []
  | i, a :: rest => errgroup.insertAt a (pick i) (errgroup.order pick (i + 1) rest)

/-- The `errgroup` of `Etcd.setupCerts` (source lines 202 to 253): the goroutines run
concurrently, each makes its call of `EnsureCertificate`, and `Wait` returns the first
error to occur, nil when there is none.  The calls are recorded in the order in which they
are made, `env.goStart`; the error is that of the first failing call in the order in which
the calls return, `env.goFinish`. -/
def Etcd.issueAll (env : Env) (reqs : List (certificate.Request × String)) (w : World) :
    World × Option GoError :=
  let started := errgroup.order env.goStart 0 reqs
  let finished := errgroup.order env.goFinish 0 reqs
  (⟨w.fs, w.trace ++ started.map (fun r => Event.ensureCertificate r.1 r.2)⟩,
    finished.findSome? (fun r => env.ensureCertificate r.1 r.2))

/-- The method `Etcd.setupCerts`. -/
def Etcd.setupCerts (env : Env) (e : Etcd) (w : World) : World × Outcome :=
  let w := w.log (.ensureCA "etcd/ca" "etcd-ca")
  match env.ensureCA "etcd/ca" "etcd-ca" with
  | some err => (w, .returned (some (errors.Wrap err "failed to create etcd ca")))
  | none =>
    match e.Config with
    | none => (w, .panicked)
    | some cfg =>
      match Etcd.issueAll env (e.leafRequests env cfg.PeerAddress) w with
      | (w, err) => (w, .returned err)

/-- The value assigned to `e.supervisor` (source lines 176 to 184). -/
def Etcd.newSupervisor (env : Env) (e : Etcd) (args : List String) : Supervisor :=
  { Name := "etcd", BinPath := env.binPath "etcd" e.K0sVars.BinDir,
    RunDir := e.K0sVars.RunDir, DataDir := e.K0sVars.DataDir,
    Args := args, UID := e.uid, GID := e.gid }

/-- The end of `Etcd.Run` (source lines 170 to 186): certificates, then the
supervisor with the arguments built so far. -/
def Etcd.start (env : Env) (e : Etcd) (args : List String) (w : World) :
    World × Etcd × Outcome :=
  match e.setupCerts env w with
  | (w, .panicked) => (w, e, .panicked)
  | (w, .returned (some err)) =>
    (w, e, .returned (some (errors.Wrap err "failed to create etcd certs")))
  | (w, .returned none) =>
    let s := e.newSupervisor env args
    (w.log (.supervise s), { e with supervisor := s }, .returned (env.supervise s))

/-- The two arguments appended after a join (source lines 166 and 167). -/
def Etcd.clusterArgs (etcdResponse : EtcdResponse) : List String :=
  [ "--initial-cluster=" ++ strings.Join etcdResponse.InitialCluster ",",
    "--initial-cluster-state=existing" ]

/-- What `Etcd.Run` does once the retry loop has ended without error (source
lines 145 to 186). -/
def Etcd.afterJoin (env : Env) (e : Etcd) (args : List String)
    (etcdResponse : EtcdResponse) (w : World) : World × Etcd × Outcome :=
  match e.writeCA env etcdResponse w with
  | (w, some err) => (w, e, .returned (some err))
  | (w, none) => e.start env (args ++ Etcd.clusterArgs etcdResponse) w

/-- The component after the check of source lines 125 to 128: an existing etcd
data base file sets `e.Join = false`. -/
def Etcd.afterDbCheck (e : Etcd) (w : World) : Etcd :=
  if util.FileExists w.fs e.dbFile then { e with Join := false } else e

/-- The method `Etcd.Run`: the world and the component after the call, and how
the call ended.  Reading `e.Config.PeerAddress` through a nil `Config` panics,
and so does the call of `JoinEtcd` through a nil `JoinClient`, which has no
endpoint and no credentials to make a request with. -/
def Etcd.Run (env : Env) (e : Etcd) (w : World) : World × Etcd × Outcome :=
  match env.hostname with
  | (_, some err) => (w, e, .returned (some err))
  | (name, none) =>
    match e.Config with
    | none => (w, e, .panicked)
    | some cfg =>
      let peerURL := cfg.peerURL
      let args := e.baseArgs name peerURL
      let e := e.afterDbCheck w
      if e.Join then
        match e.JoinClient with
        | none => (w, e, .panicked)
        | some jc =>
          match Etcd.joinLoop jc peerURL 20 0 EtcdResponse.zero none w with
          | (w, _, some err) => (w, e, .returned (some err))
          | (w, etcdResponse, none) => e.afterJoin env args etcdResponse w
      else e.start env args w

/-! ## `startController` -/

/-- The type `v1beta1.APISpec`. -/
structure APISpec where
  Address : String
  ExternalAddress : String
  SANs : List String
  ExtraArgs : List (String × String)
deriving DecidableEq, Repr

/-- The type `v1beta1.KineConfig`. -/
structure KineConfig where
  DataSource : String
deriving DecidableEq, Repr

/-- The type `v1beta1.StorageSpec`; `Type_` is its field `Type`. -/
structure StorageSpec where
  Type_ : String
  Kine : Option KineConfig
  Etcd : Option EtcdConfig
deriving DecidableEq, Repr

/-- The type `v1beta1.Network`, declared outside these sources; `Provider` is
the field the validation tests of `cluster_test.go` set. -/
structure Network where
  Provider : String
deriving DecidableEq, Repr

/-- One entry of `v1beta1.WorkerProfiles`, a type declared outside these
sources. -/
structure WorkerProfile where
  Name : String
deriving DecidableEq, Repr

/-- The type `v1beta1.SystemUser`. -/
structure SystemUser where
  Etcd : String
  Kine : String
  Konnectivity : String
  KubeAPIServer : String
  KubeScheduler : String
deriving DecidableEq, Repr

/-- The type `v1beta1.InstallSpec`. -/
structure InstallSpec where
  SystemUsers : Option SystemUser
deriving DecidableEq, Repr

/-- The type `v1beta1.ClusterImages`, declared outside these sources: the image
references it holds. -/
structure ClusterImages where
  references : List String
deriving DecidableEq, Repr

/-- The type `v1beta1.ClusterSpec`: the parts read by `startController`, by
`ClusterConfig.Validate` (`Network`, `WorkerProfiles`) and by
`config.ValidateYaml` (`Install`).  The pointers `API` and `Storage` are taken
to be set. -/
structure ClusterSpec where
  API : APISpec
  Storage : StorageSpec
  Network : Option Network := none
  WorkerProfiles : List WorkerProfile := []
  Install : Option InstallSpec := none
deriving DecidableEq, Repr

/-- The type `v1beta1.ClusterTelemetry`. -/
structure ClusterTelemetry where
  Enabled : Bool
deriving DecidableEq, Repr

/-- The type `v1beta1.ClusterConfig`.  `Kind` is `TypeMeta.Kind` and `Name` is
`ObjectMeta.Name`; the pointers `Spec` and `Telemetry` are taken to be set. -/
structure ClusterConfig where
  Spec : ClusterSpec
  Telemetry : ClusterTelemetry
  APIVersion : String := ""
  Kind : String := ""
  Name : String := ""
  Images : Option ClusterImages := none
  Install : Option InstallSpec := none
deriving DecidableEq, Repr

/-- The type `CmdOpts` (`config.CLIOptions`).  `Logging` is the map of log
levels, a missing key reading as the empty string. -/
structure CmdOpts where
  CfgFile : String
  ClusterConfig : ClusterConfig
  K0sVars : CfgVars
  Logging : String → String

/-- The storage backends `startController` chooses from. -/
inductive StorageBackend where
  | Kine (Config : Option KineConfig) (K0sVars : CfgVars)
  | Etcd (e : K0s.Etcd)

/-- The values handed to `componentManager.AddSync` and `componentManager.Add`. -/
inductive Component where
  | CASyncer (JoinClient : Option token.JoinClient) (K0sVars : CfgVars)
  | Certificates (ClusterSpec : ClusterSpec) (CertManager : certificate.Manager)
      (K0sVars : CfgVars)
  | Storage (backend : StorageBackend)
  | APIServer (ClusterConfig : ClusterConfig) (K0sVars : CfgVars) (LogLevel : String)
      (Storage : StorageBackend)
  | K0sLease (ClusterConfig : ClusterConfig)
  | Konnectivity (ClusterConfig : ClusterConfig) (LogLevel : String) (K0sVars : CfgVars)
  | Scheduler (ClusterConfig : ClusterConfig) (LogLevel : String) (K0sVars : CfgVars)
  | Manager (ClusterConfig : ClusterConfig) (LogLevel : String) (K0sVars : CfgVars)
  | LeaderElector (ClusterConfig : ClusterConfig)
  | DummyLeaderElector (Leader : Bool)
  | ApplierManager (K0sVars : CfgVars)
  | K0SControlAPI (ConfigPath : String) (K0sVars : CfgVars)
  | Telemetry (ClusterConfig : ClusterConfig) (K0sVars : CfgVars)
  | EndpointReconciler (ClusterConfig : ClusterConfig)
  | CSRApprover (ClusterConfig : ClusterConfig)

/-- Calls of `startController` on the component manager and on the packages
outside these sources, in the order they are made. -/
inductive CtlEvent where
  | initDirectory (path : String) (perm : Nat)
  | joinClientFromToken (tokenString : String)
  | addSync (c : Component)
  | add (c : Component)
  | managerInit
  | managerStart
  | createClusterReconcilers
  | reconcilersRun
  | enableControllerWorker (profile : String)
  | waitDone
  | reconcilersStop
  | managerStop

/-- The event is a call that registers, initialises, starts or stops
components. -/
def CtlEvent.onComponents : CtlEvent → Bool
  | .initDirectory _ _ => false
  | .joinClientFromToken _ => false
  | _ => true

/-- The event is a call of `token.JoinClientFromToken`. -/
def CtlEvent.isDecode : CtlEvent → Bool
  | .joinClientFromToken _ => true
  | _ => false

/-- Answers of the packages `startController` calls, with the package level
flags of the command and the constants the code names. -/
structure CtlEnv where
  /-- Error of `util.InitDirectory` on a path, if it fails there. -/
  initDirectoryErr : String → Option GoError
  /-- Result of `token.JoinClientFromToken`. -/
  joinClientFromToken : String → Except GoError token.JoinClient
  /-- Result of `Spec.Network.DNSAddress()`. -/
  dnsAddress : String × Option GoError
  /-- Result of `componentManager.Init()`. -/
  managerInit : Option GoError
  /-- Result of `componentManager.Start(ctx)`. -/
  managerStart : Option GoError
  /-- Result of `enableControllerWorker`. -/
  workerResult : Option GoError
  /-- The flag `--enable-worker`. -/
  enableWorker : Bool
  /-- The flag `--profile`. -/
  controllerWorkerProfile : String
  /-- The constant `v1beta1.KineStorageType`. -/
  KineStorageType : String
  /-- The constant `v1beta1.EtcdStorageType`. -/
  EtcdStorageType : String
  /-- The constant `constant.DataDirMode`. -/
  DataDirMode : Nat
  /-- The constant `constant.CertRootDirMode`. -/
  CertRootDirMode : Nat

/-- The method `CmdOpts.needToJoin`: "If we have got CA in place we assume the
node has already joined previously". -/
def CmdOpts.needToJoin (c : CmdOpts) (fs : FS) : Bool :=
  if util.FileExists fs (filepath.Join [c.K0sVars.CertRootDir, "ca.key"]) &&
      util.FileExists fs (filepath.Join [c.K0sVars.CertRootDir, "ca.crt"]) then
    false
  else true

/-- The block `if tokenString != "" && c.needToJoin() { ... }` of
`startController` (source lines 135 to 146).  It assigns the outer variable
`join`; the `:=` of line 137 declares `joinClient` and `err` anew inside the
block, so the `joinClient` declared at line 134 is not assigned.  The result
is the events so far and either the error returned or the value of `join`. -/
def CmdOpts.joinBlock (env : CtlEnv) (c : CmdOpts) (fs : FS) (tokenString : String)
    (join : Bool) (tr : List CtlEvent) : List CtlEvent × Except GoError Bool :=
  if tokenString ≠ "" && c.needToJoin fs then
    let join := true
    let tr := tr ++ [.joinClientFromToken tokenString]
    match env.joinClientFromToken tokenString with
    | .error err => (tr, .error (errors.Wrap err "failed to create join client"))
    | .ok joinClient => (tr ++ [.addSync (.CASyncer (some joinClient) c.K0sVars)], .ok join)
  else (tr, .ok join)

/-- The `switch c.ClusterConfig.Spec.Storage.Type` of `startController` (source
lines 162 to 179). -/
def CmdOpts.storageBackend (env : CtlEnv) (c : CmdOpts) (certificateManager : certificate.Manager)
    (join : Bool) (joinClient : Option token.JoinClient) : Except GoError StorageBackend :=
  let t := c.ClusterConfig.Spec.Storage.Type_
  if t = env.KineStorageType ∨ t = "" then
    .ok (.Kine c.ClusterConfig.Spec.Storage.Kine c.K0sVars)
  else if t = env.EtcdStorageType then
    .ok (.Etcd
      { CertManager := certificateManager,
        Config := c.ClusterConfig.Spec.Storage.Etcd,
        Join := join,
        JoinClient := joinClient,
        K0sVars := c.K0sVars,
        LogLevel := c.Logging "etcd",
        supervisor := Supervisor.zero, uid := 0, gid := 0 })
  else .error ⟨"Invalid storage type: " ++ t⟩

/-- The components added after the storage backend (source lines 186 to 251). -/
def CmdOpts.otherComponents (c : CmdOpts) (storageBackend : StorageBackend) : List Component :=
  let cfg := c.ClusterConfig
  let external : Bool := cfg.Spec.API.ExternalAddress ≠ ""
  [Component.APIServer cfg c.K0sVars (c.Logging "kube-apiserver") storageBackend]
  ++ (if external then [Component.K0sLease cfg] else [])
  ++ [ Component.Konnectivity cfg (c.Logging "konnectivity-server") c.K0sVars,
       Component.Scheduler cfg (c.Logging "kube-scheduler") c.K0sVars,
       Component.Manager cfg (c.Logging "kube-controller-manager") c.K0sVars,
       (if external then Component.LeaderElector cfg else Component.DummyLeaderElector true),
       Component.ApplierManager c.K0sVars,
       Component.K0SControlAPI c.CfgFile c.K0sVars ]
  ++ (if cfg.Telemetry.Enabled then [Component.Telemetry cfg c.K0sVars] else [])
  ++ (if external then [Component.EndpointReconciler cfg] else [])
  ++ [Component.CSRApprover cfg]

/-- The end of `startController`, from `componentManager.Init()` on (source
lines 253 to 333). -/
def CmdOpts.initAndRun (env : CtlEnv) (tr : List CtlEvent) : List CtlEvent × Option GoError :=
  let tr := tr ++ [.managerInit]
  match env.managerInit with
  | some err => (tr, some err)
  | none =>
    let tr := tr ++ [.managerStart]
    let err := env.managerStart
    let tr := tr ++ [.createClusterReconcilers]
    let tr := if err = none then tr ++ [.reconcilersRun] else tr
    if err = none ∧ env.enableWorker = true then
      let tr := tr ++ [.enableControllerWorker env.controllerWorkerProfile]
      match env.workerResult with
      | some err => (tr ++ [.managerStop], some err)
      | none => (tr ++ [.waitDone, .reconcilersStop, .managerStop], none)
    else (tr ++ [.waitDone, .reconcilersStop, .managerStop], none)

/-- The method `CmdOpts.startController`: the calls made and the error
returned. -/
def CmdOpts.startController (env : CtlEnv) (c : CmdOpts) (fs : FS) (tokenString : String) :
    List CtlEvent × Option GoError :=
  let tr := [CtlEvent.initDirectory c.K0sVars.DataDir env.DataDirMode]
  match env.initDirectoryErr c.K0sVars.DataDir with
  | some err => (tr, some err)
  | none =>
    let tr := tr ++ [.initDirectory c.K0sVars.CertRootDir env.CertRootDirMode]
    match env.initDirectoryErr c.K0sVars.CertRootDir with
    | some err => (tr, some err)
    | none =>
      let certificateManager : certificate.Manager := ⟨c.K0sVars⟩
      let join := false
      let joinClient : Option token.JoinClient := none
      match c.joinBlock env fs tokenString join tr with
      | (tr, .error err) => (tr, some err)
      | (tr, .ok join) =>
        let tr := tr ++ [.addSync (.Certificates c.ClusterConfig.Spec certificateManager c.K0sVars)]
        match env.dnsAddress with
        | (_, some err) => (tr, some err)
        | (_, none) =>
          match c.storageBackend env certificateManager join joinClient with
          | .error err => (tr, some err)
          | .ok storageBackend =>
            let tr := tr ++ [.add (.Storage storageBackend)]
            let tr := tr ++ (c.otherComponents storageBackend).map CtlEvent.add
            CmdOpts.initAndRun env tr

/-! ## Vocabulary of the statements -/

/-- The event is a call of `JoinClient.JoinEtcd`. -/
def Event.isJoin : Event → Bool
  | .joinEtcd _ => true
  | _ => false

/-- The event is a `time.Sleep`. -/
def Event.isSleep : Event → Bool
  | .sleep _ => true
  | _ => false

/-- The event is an `ioutil.WriteFile`. -/
def Event.isWrite : Event → Bool
  | .writeFile _ _ _ => true
  | _ => false

/-- The event is an `os.Chown`. -/
def Event.isChown : Event → Bool
  | .chown _ _ _ => true
  | _ => false

/-- The event is a call on the certificate manager, as made by `setupCerts`. -/
def Event.isCert : Event → Bool
  | .ensureCA _ _ => true
  | .ensureCertificate _ _ => true
  | _ => false

/-- The event is the start of the supervisor. -/
def Event.isSupervise : Event → Bool
  | .supervise _ => true
  | _ => false

/-- The events of `k` failed attempts: each a call followed by a sleep of
500ms. -/
def retryTrace (peerURL : String) : Nat → List Event
  | 0 => []
  | k + 1 => Event.joinEtcd peerURL :: Event.sleep 500 :: retryTrace peerURL k

/-- The events of a join that succeeds on call `k + 1`. -/
def joinTrace (peerURL : String) (k : Nat) : List Event :=
  retryTrace peerURL k ++ [Event.joinEtcd peerURL]

/-- The join endpoint fails on its first `k` calls and succeeds on call
`k + 1`. -/
def token.JoinClient.succeedsAfter (jc : token.JoinClient) (peerURL : String) (k : Nat) : Prop :=
  (∀ j, j < k → (jc.JoinEtcd j peerURL).2 ≠ none) ∧ (jc.JoinEtcd k peerURL).2 = none

/-- The state in which `Etcd.Run` enters the retry loop: the host name is
known, the configuration and the join client are there, `Join` is set and
there is no etcd data base file. -/
def Etcd.joins (e : Etcd) (env : Env) (w : World) (name : String) (cfg : EtcdConfig)
    (jc : token.JoinClient) : Prop :=
  env.hostname = (name, none) ∧ e.Config = some cfg ∧ e.Join = true ∧
    e.JoinClient = some jc ∧ util.FileExists w.fs e.dbFile = false

/-- The string `s` starts with `pre`. -/
def startsWith (s pre : String) : Bool :=
  pre.data.isPrefixOf s.data

/-- Two strings differ at a position both of them have. -/
def mismatch : List Char → List Char → Bool
  | c :: cs, d :: ds => c != d || mismatch cs ds
  | _, _ => false

/-- The files whose owner `Etcd.Run` sets after writing the CA (source line
159). -/
def Etcd.caFiles (e : Etcd) : List String :=
  [filepath.Dir e.etcdCaCertKey, e.etcdCaCertKey, e.etcdCaCert]

/-! ## A concrete node -/

/-- Directories of a default installation. -/
def Example.vars : CfgVars :=
  { DataDir := "/var/lib/k0s", CertRootDir := "/var/lib/k0s/pki",
    EtcdCertDir := "/var/lib/k0s/pki/etcd", EtcdDataDir := "/var/lib/k0s/etcd",
    BinDir := "/var/lib/k0s/bin", RunDir := "/run/k0s",
    AdminKubeConfigPath := "/var/lib/k0s/pki/admin.conf" }

/-- An environment in which every local call succeeds, run as root. -/
def Example.env : Env :=
  { hostname := ("node2", none), geteuid := 0,
    writeFileErr := fun _ => none, written := fun _ => none, umask := 0o022,
    chownErr := fun _ => none,
    ensureCA := fun _ _ => none, ensureCertificate := fun _ _ => none,
    goStart := fun _ => 0, goFinish := fun _ => 0,
    supervise := fun _ => none,
    binPath := fun name dir => filepath.Join [dir, name],
    CertSecureMode := 0o640, ApiserverUser := "kube-apiserver", EtcdUser := "etcd" }

/-- A node on which every `EnsureCertificate` fails with an error that names the request,
and on which the goroutine started last is the first to make its call and to return. -/
def Example.envBusy : Env :=
  { Example.env with
    ensureCertificate := fun req _ => some ⟨"failed:" ++ req.Name⟩,
    goStart := fun _ => 2, goFinish := fun _ => 2 }

/-- The answer of the join API used in the examples. -/
def Example.response : EtcdResponse :=
  { CA := { Key := [107, 101, 121], Cert := [99, 114, 116] },
    InitialCluster := ["a=https://10.0.0.1:2380", "b=https://10.0.0.2:2380"] }

/-- A join client whose endpoint refuses the first `k` calls and answers
afterwards. -/
def Example.client (k : Nat) : token.JoinClient :=
  { JoinEtcd := fun n _ =>
      if n < k then (EtcdResponse.zero, some ⟨"connection refused"⟩)
      else (Example.response, none) }

/-- A join client whose endpoint rejects every call as unauthorized. -/
def Example.rejected : token.JoinClient :=
  { JoinEtcd := fun _ _ => (EtcdResponse.zero, some ⟨"unexpected response status: 401 Unauthorized"⟩) }

/-- An etcd component that is to join through the given client. -/
def Example.etcd (jc : Option token.JoinClient) : Etcd :=
  { CertManager := ⟨Example.vars⟩, Config := some ⟨"10.0.0.3"⟩, Join := true,
    JoinClient := jc, K0sVars := Example.vars, LogLevel := "info",
    supervisor := Supervisor.zero, uid := 995, gid := 0 }

/-- A fresh node: no file yet, nothing has happened. -/
def Example.fresh : World := ⟨fun _ => none, []⟩

/-- A node that holds the given files, each with the permission bits `0600`. -/
def Example.withFiles (files : List (String × Bytes)) : World :=
  ⟨fun p => (files.find? (fun f => f.1 = p)).map (fun f => ⟨f.2, 0o600⟩), []⟩

/-- A node that already holds an etcd CA pair. -/
def Example.withCA : World :=
  Example.withFiles [("/var/lib/k0s/pki/etcd/ca.crt", [1]), ("/var/lib/k0s/pki/etcd/ca.key", [2])]

/-- A node that holds an etcd CA key and no certificate. -/
def Example.withKeyOnly : World :=
  Example.withFiles [("/var/lib/k0s/pki/etcd/ca.key", [2])]

/-- Answers of the packages around `startController` on the example node: the only token
that decodes is `"valid-token"`. -/
def Example.ctlEnv : CtlEnv :=
  { initDirectoryErr := fun _ => none,
    joinClientFromToken := fun t =>
      if t = "valid-token" then .ok (Example.client 0)
      else .error ⟨"illegal base64 data at input byte 3"⟩,
    dnsAddress := ("10.96.0.10", none),
    managerInit := none, managerStart := none, workerResult := none,
    enableWorker := false, controllerWorkerProfile := "default",
    KineStorageType := "kine", EtcdStorageType := "etcd",
    DataDirMode := 0o755, CertRootDirMode := 0o751 }

/-- Options of a controller that stores its data in etcd. -/
def Example.opts : CmdOpts :=
  { CfgFile := "/etc/k0s/k0s.yaml",
    ClusterConfig :=
      { Spec := { API := { Address := "10.0.0.3", ExternalAddress := "", SANs := ["10.0.0.3"],
                           ExtraArgs := [] },
                  Storage := { Type_ := "etcd", Kine := none, Etcd := some ⟨"10.0.0.3"⟩ } },
        Telemetry := { Enabled := false } },
    K0sVars := Example.vars,
    Logging := fun _ => "info" }

/-- The Etcd component that `startController` registers on the example node when it is
given the token `"valid-token"`. -/
def Example.registered : Etcd :=
  { CertManager := ⟨Example.vars⟩, Config := some ⟨"10.0.0.3"⟩, Join := true,
    JoinClient := none, K0sVars := Example.vars, LogLevel := "info",
    supervisor := Supervisor.zero, uid := 0, gid := 0 }

/-- The component is a storage backend. -/
def Component.isStorage : Component → Bool
  | .Storage _ => true
  | _ => false

/-- The event registers a component with `componentManager.Add`. -/
def CtlEvent.isAdd : CtlEvent → Bool
  | .add _ => true
  | _ => false

/-- The event belongs to the part of `startController` before the storage backend is chosen:
a directory is made, the token is decoded, a component is registered with `AddSync`. -/
def CtlEvent.isEarly : CtlEvent → Bool
  | .initDirectory _ _ => true
  | .joinClientFromToken _ => true
  | .addSync _ => true
  | _ => false

/-- The event is the call `componentManager.Init()`. -/
def CtlEvent.isInit : CtlEvent → Bool
  | .managerInit => true
  | _ => false

/-- The event is one of the calls `startController` makes after `componentManager.Init()`:
the start of the components, the reconcilers, the worker, the wait and the stops. -/
def CtlEvent.isAfterInit : CtlEvent → Bool
  | .managerStart => true
  | .createClusterReconcilers => true
  | .reconcilersRun => true
  | .enableControllerWorker _ => true
  | .waitDone => true
  | .reconcilersStop => true
  | .managerStop => true
  | _ => false

/-- The components handed to `componentManager.Add`, in order. -/
def addedComponents (tr : List CtlEvent) : List Component :=
  tr.filterMap (fun ev => match ev with
    | .add comp => some comp
    | _ => none)

/-- The component is the no-op elector `DummyLeaderElector` with `Leader` set. -/
def Component.isDummyLeader : Component → Bool
  | .DummyLeaderElector true => true
  | _ => false

/-- The component is the lease-backed elector made by `controller.NewLeaderElector`. -/
def Component.isLeaseElector : Component → Bool
  | .LeaderElector _ => true
  | _ => false

/-- The component is the lease component `controller.K0sLease`. -/
def Component.isK0sLease : Component → Bool
  | .K0sLease _ => true
  | _ => false

/-- The component is the endpoint reconciler. -/
def Component.isEndpointReconciler : Component → Bool
  | .EndpointReconciler _ => true
  | _ => false

/-- An environment in which `componentManager.Init()` fails. -/
def Example.ctlEnvInitFails : CtlEnv :=
  { Example.ctlEnv with managerInit := some ⟨"failed to initialize etcd"⟩ }

/-- Options of a controller that other controllers reach at `k0s.example.com`. -/
def Example.optsExternal : CmdOpts :=
  { Example.opts with
    ClusterConfig :=
      { Spec := { API := { Address := "10.0.0.3", ExternalAddress := "k0s.example.com",
                           SANs := ["10.0.0.3"], ExtraArgs := [] },
                  Storage := { Type_ := "etcd", Kine := none, Etcd := some ⟨"10.0.0.3"⟩ } },
        Telemetry := { Enabled := false } } }

/-- Calls of the `RunE` function of the controller command, in the order they are made. -/
inductive CmdEvent where
  | readFile (filename : String)
  | getYamlFromFile (cfgPath dataDir : String)
  | startController (tokenString : String)
deriving DecidableEq, Repr

/-- Package level variables of `cmd/controller` as the `RunE` function of the controller
command finds them, and the answers of the calls it makes. -/
structure CmdEnv where
  /-- The variable `controllerToken` before `RunE` runs. -/
  controllerToken : String
  /-- The variable `tokenFile`, set by the flag `--token-file`. -/
  tokenFile : String
  /-- Result of `ioutil.ReadFile`, the bytes read as a Go string. -/
  readFile : String → Except GoError String
  /-- Result of `config.GetYamlFromFile`. -/
  getYamlFromFile : String → String → Except GoError ClusterConfig
  /-- Result of `util.MapMerge(cmdLogLevels, c.DefaultLogLevels)`. -/
  mergedLogging : String → String

/-- The error of the controller command for a token given twice. -/
def NewControllerCmd.bothTokens : GoError :=
  ⟨"You can only pass one token argument either as a CLI argument \x27k0s controller [join-token]\x27 or as a flag \x27k0s controller --token-file [path]\x27"⟩

/-- The block `if len(tokenFile) > 0 { ... }` of `RunE` (source lines 82 to 88): the token
after the block, or the error returned. -/
def NewControllerCmd.readToken (env : CmdEnv) (controllerToken : String) :
    List CmdEvent × Except GoError String :=
  if env.tokenFile ≠ "" then
    match env.readFile env.tokenFile with
    | .error err => ([.readFile env.tokenFile], .error err)
    | .ok bytes => ([.readFile env.tokenFile], .ok bytes)
  else ([], .ok controllerToken)

/-- The function `RunE` of the command built by `NewControllerCmd` (source lines 74 to 98):
the calls made and the error returned. -/
def NewControllerCmd.RunE (env : CmdEnv) (cenv : CtlEnv) (c : CmdOpts) (fs : FS)
    (args : List String) : List CmdEvent × Option GoError :=
  let controllerToken :=
    match args with
    | a :: _ => a
    | [] => env.controllerToken
  if controllerToken ≠ "" ∧ env.tokenFile ≠ "" then ([], some NewControllerCmd.bothTokens)
  else
    match NewControllerCmd.readToken env controllerToken with
    | (tr, .error err) => (tr, some err)
    | (tr, .ok controllerToken) =>
      let c := { c with Logging := env.mergedLogging }
      let tr := tr ++ [.getYamlFromFile c.CfgFile c.K0sVars.DataDir]
      match env.getYamlFromFile c.CfgFile c.K0sVars.DataDir with
      | .error err => (tr, some err)
      | .ok cfg =>
        let c := { c with ClusterConfig := cfg }
        (tr ++ [.startController controllerToken],
          (c.startController cenv fs controllerToken).2)

/-- Variables and answers of a controller command started with `--token-file /run/token`,
the file holding `valid-token`. -/
def Example.cmdEnv : CmdEnv :=
  { controllerToken := "", tokenFile := "/run/token",
    readFile := fun p =>
      if p = "/run/token" then .ok "valid-token"
      else .error ⟨"open " ++ p ++ ": no such file or directory"⟩,
    getYamlFromFile := fun _ _ => .ok Example.opts.ClusterConfig,
    mergedLogging := fun _ => "info" }

/-- The method `APISpec.APIAddress`. -/
def APISpec.APIAddress (a : APISpec) : String :=
  if a.ExternalAddress ≠ "" then "https://" ++ a.ExternalAddress ++ ":6443"
  else "https://" ++ a.Address ++ ":6443"

/-- The method `APISpec.K0sControlPlaneAPIAddress`: "the controller join APIs address". -/
def APISpec.K0sControlPlaneAPIAddress (a : APISpec) : String :=
  if a.ExternalAddress ≠ "" then "https://" ++ a.ExternalAddress ++ ":9443"
  else "https://" ++ a.Address ++ ":9443"

/-- The two validations `ClusterConfig.Validate` calls; `Network.Validate` and
`WorkerProfiles.Validate` are declared outside these sources. -/
structure Validators where
  /-- Result of `Network.Validate`. -/
  network : Network → List GoError
  /-- Result of `WorkerProfiles.Validate`. -/
  workerProfiles : List WorkerProfile → List GoError

/-- The method `ClusterConfig.Validate`: the errors, or `none` when the call panics on the
nil pointer `c.Spec.Network`. -/
def ClusterConfig.Validate (v : Validators) (c : ClusterConfig) : Option (List GoError) :=
  match c.Spec.Network with
  | none => none
  | some network =>
    let errors : List GoError := []
    let errors := errors ++ v.network network
    let errors := errors ++ v.workerProfiles c.Spec.WorkerProfiles
    some errors

/-- What the default settings of `cluster.go` take from the host and from the files of the
package that are not among these sources. -/
structure Defaults where
  /-- Result of `util.AllAddresses`. -/
  AllAddresses : List String
  /-- Result of `util.FirstPublicAddress`. -/
  FirstPublicAddress : String
  /-- Result of `DefaultStorageSpec`. -/
  DefaultStorageSpec : StorageSpec
  /-- Result of `DefaultNetwork`. -/
  DefaultNetwork : Network
  /-- Result of `DefaultClusterImages`. -/
  DefaultClusterImages : ClusterImages
  /-- Result of `DefaultClusterTelemetry`. -/
  DefaultClusterTelemetry : ClusterTelemetry
  /-- The user names of `pkg/constant` that `DefaultSystemUsers` reads. -/
  SystemUsers : SystemUser

/-- The function `DefaultAPISpec` of `cluster.go`. -/
def DefaultAPISpec (d : Defaults) : APISpec :=
  { SANs := d.AllAddresses ++ [d.FirstPublicAddress], Address := d.FirstPublicAddress,
    ExternalAddress := "", ExtraArgs := [] }

/-- The function `DefaultClusterSpec`. -/
def DefaultClusterSpec (d : Defaults) : ClusterSpec :=
  { Storage := d.DefaultStorageSpec, Network := some d.DefaultNetwork, API := DefaultAPISpec d }

/-- The function `DefaultInstallSpec` of `system.go`. -/
def DefaultInstallSpec (d : Defaults) : InstallSpec :=
  { SystemUsers := some d.SystemUsers }

/-- The function `DefaultClusterConfig`. -/
def DefaultClusterConfig (d : Defaults) : ClusterConfig :=
  { APIVersion := "k0s.k0sproject.io/v1beta1", Kind := "Cluster", Name := "k0s",
    Install := some (DefaultInstallSpec d), Spec := DefaultClusterSpec d,
    Images := some d.DefaultClusterImages, Telemetry := d.DefaultClusterTelemetry }

/-- The receiver of `ClusterConfig.UnmarshalYAML` after the assignments of source lines 157
to 165, before the document is decoded. -/
def ClusterConfig.withDefaults (d : Defaults) (c : ClusterConfig) : ClusterConfig :=
  { c with Kind := "Cluster", Name := "k0s", Spec := DefaultClusterSpec d,
           Images := some d.DefaultClusterImages, Telemetry := d.DefaultClusterTelemetry }

/-- The method `ClusterConfig.UnmarshalYAML`.  The parameter `unmarshal` decodes the
document into the value it is given: it returns that value with the fields the document
sets overwritten, and the error of the decoder. -/
def ClusterConfig.UnmarshalYAML (d : Defaults)
    (unmarshal : ClusterConfig → ClusterConfig × Option GoError) (c : ClusterConfig) :
    ClusterConfig × Option GoError :=
  let c := c.withDefaults d
  match unmarshal c with
  | (yc, some err) => (yc, some err)
  | (yc, none) => (yc, none)

/-- The decoder of the document `apiVersion: k0s.k0sproject.io/v1beta1`. -/
def Example.apiVersionOnly (c : ClusterConfig) : ClusterConfig × Option GoError :=
  ({ c with APIVersion := "k0s.k0sproject.io/v1beta1" }, none)

/-- The validations as the tests of `cluster_test.go` show them: a provider other than
`calico` and `custom` is the one defect reported. -/
def Example.validators : Validators :=
  { network := fun n =>
      if n.Provider ≠ "calico" ∧ n.Provider ≠ "custom" then
        [⟨"unsupported network provider: " ++ n.Provider⟩]
      else [],
    workerProfiles := fun _ => [] }

/-- The configuration of `TestNetworkValidation_Invalid`. -/
def Example.invalidProvider : ClusterConfig :=
  { Example.opts.ClusterConfig with
    Spec := { Example.opts.ClusterConfig.Spec with Network := some ⟨"invalidProvider"⟩ } }

/-- What `config.ValidateYaml` takes from the process and from the packages outside these
sources. -/
structure YamlEnv where
  /-- Result of `isInputFromPipe`: standard input is not a character device. -/
  isInputFromPipe : Bool
  /-- Result of `v1beta1.FromYamlPipe(os.Stdin)`. -/
  FromYamlPipe : Except GoError ClusterConfig
  /-- Result of `v1beta1.FromYamlFile`. -/
  FromYamlFile : String → Except GoError ClusterConfig
  /-- The constant `v1beta1.KineStorageType`. -/
  KineStorageType : String
  /-- The function `v1beta1.DefaultKineConfig`. -/
  DefaultKineConfig : String → KineConfig
  /-- The defaults of `cluster.go`. -/
  defaults : Defaults
  /-- The validations called by `ClusterConfig.Validate`. -/
  validators : Validators
  /-- The error made by `fmt.Errorf` from a format string without operands. -/
  Errorf : String → GoError

/-- The slice `messages` of `config.ValidateYaml` (source lines 61 to 64): `make` gives it
one empty string for each error, and the messages are appended after these. -/
def ValidateYaml.messages (errors : List GoError) : List String :=
  List.replicate errors.length "" ++ errors.map (fun e => e.msg)

/-- The function `config.ValidateYaml`: the configuration or the error returned, or `none`
when the call panics. -/
def ValidateYaml (env : YamlEnv) (cfgPath dataDir : String) :
    Option (Except GoError ClusterConfig) :=
  let loaded : Except GoError ClusterConfig :=
    if cfgPath = "" then .ok (DefaultClusterConfig env.defaults)
    else if env.isInputFromPipe then env.FromYamlPipe
    else env.FromYamlFile cfgPath
  match loaded with
  | .error err => some (.error err)
  | .ok clusterConfig =>
    let clusterConfig :=
      if clusterConfig.Spec.Storage.Type_ = env.KineStorageType ∧
          clusterConfig.Spec.Storage.Kine = none then
        { clusterConfig with Spec := { clusterConfig.Spec with
            Storage := { clusterConfig.Spec.Storage with
              Kine := some (env.DefaultKineConfig dataDir) } } }
      else clusterConfig
    let clusterConfig :=
      if clusterConfig.Spec.Install = none then
        { clusterConfig with Spec := { clusterConfig.Spec with
            Install := some (DefaultInstallSpec env.defaults) } }
      else clusterConfig
    match clusterConfig.Validate env.validators with
    | none => none
    | some errors =>
      if errors.length > 0 then
        some (.error (env.Errorf (strings.Join (ValidateYaml.messages errors) "\n")))
      else some (.ok clusterConfig)

/-- The function `config.GetYamlFromFile`. -/
def GetYamlFromFile (env : YamlEnv) (cfgPath dataDir : String) :
    Option (Except GoError ClusterConfig) :=
  match ValidateYaml env cfgPath dataDir with
  | none => none
  | some (.error err) => some (.error err)
  | some (.ok cfg) => some (.ok cfg)

/-- The package level variables of `cmd` that `ConfigFromYaml` reads. -/
structure CmdGlobals where
  /-- The variable `cfgFile`, set by the flag `--config`. -/
  cfgFile : String
  /-- The variable `k0sVars`. -/
  k0sVars : CfgVars

/-- The function `cmd.ConfigFromYaml`: "returns given k0s config or default config". -/
def ConfigFromYaml (g : CmdGlobals) (env : YamlEnv) (cfgPath : String) :
    Option (Except GoError ClusterConfig) :=
  let _ := cfgPath
  match ValidateYaml env g.cfgFile g.k0sVars.DataDir with
  | none => none
  | some (.error err) => some (.error err)
  | some (.ok cfg) => some (.ok cfg)

/-- The name of the configuration a call returned, if it returned one. -/
def returnedName : Option (Except GoError ClusterConfig) → Option String
  | some (.ok cfg) => some cfg.Name
  | _ => none

/-- The defaults of a node with the one address `10.0.0.3`. -/
def Example.defaults : Defaults :=
  { AllAddresses := ["10.0.0.3"], FirstPublicAddress := "10.0.0.3",
    DefaultStorageSpec := { Type_ := "etcd", Kine := none, Etcd := some ⟨"10.0.0.3"⟩ },
    DefaultNetwork := ⟨"calico"⟩,
    DefaultClusterImages := ⟨[]⟩,
    DefaultClusterTelemetry := ⟨false⟩,
    SystemUsers := ⟨"etcd", "kube-apiserver", "konnectivity-server", "kube-apiserver",
      "kube-scheduler"⟩ }

/-- The configuration written in the file `/etc/k0s/k0s.yaml` of the example: the defaults
with the name `prod`. -/
def Example.fileConfig : ClusterConfig :=
  { DefaultClusterConfig Example.defaults with Name := "prod" }

/-- A process whose standard input is a terminal and whose only configuration file is
`/etc/k0s/k0s.yaml`. -/
def Example.yamlEnv : YamlEnv :=
  { isInputFromPipe := false,
    FromYamlPipe := .error ⟨"EOF"⟩,
    FromYamlFile := fun p =>
      if p = "/etc/k0s/k0s.yaml" then .ok Example.fileConfig
      else .error ⟨"failed to read config file at " ++ p⟩,
    KineStorageType := "kine",
    DefaultKineConfig := fun dataDir => ⟨"sqlite://" ++ dataDir ++ "/db/state.db"⟩,
    defaults := Example.defaults,
    validators := Example.validators,
    Errorf := fun s => ⟨s⟩ }

/-- The type `K0sAPISpec` of `kubebuilder/api/v1beta1/api.go`. -/
structure K0sAPISpec where
  Address : String
  Port : Int
  K0sAPIPort : Int
  ExternalAddress : String
  SANs : List String
  ExtraArgs : List (String × String)
deriving DecidableEq, Repr

/-- The method `K0sAPISpec.APIAddress`. -/
def K0sAPISpec.APIAddress (a : K0sAPISpec) : String :=
  if a.ExternalAddress ≠ "" then a.ExternalAddress else a.Address

/-- Go `IP.To4`: the four bytes of an IPv4 address, also when it is held in the sixteen byte
form `0:0:0:0:0:ffff:a.b.c.d`; nil for any other address. -/
def net.To4 (ip : List Nat) : Option (List Nat) :=
  if ip.length = 4 then some ip
  else if ip.length = 16 ∧ ip.take 10 = List.replicate 10 0 ∧ ip[10]? = some 255 ∧
      ip[11]? = some 255 then
    some (ip.drop 12)
  else none

/-- The function `IsIPv6String`: "returns if ip is IPv6".  `ParseIP` is Go `net.ParseIP`,
nil being `none`. -/
def IsIPv6String (ParseIP : String → Option (List Nat)) (ip : String) : Bool :=
  match ParseIP ip with
  | none => false
  | some netIP => (net.To4 netIP).isNone

/-- The verb `%d` of `fmt.Sprintf` on an `int`. -/
def fmt.d (n : Int) : String := toString n

/-- The method `K0sAPISpec.getExternalURIForPort`. -/
def K0sAPISpec.getExternalURIForPort (ParseIP : String → Option (List Nat)) (a : K0sAPISpec)
    (port : Int) : String :=
  let addr := if a.ExternalAddress ≠ "" then a.ExternalAddress else a.Address
  if IsIPv6String ParseIP addr then "https://[" ++ addr ++ "]:" ++ fmt.d port
  else "https://" ++ addr ++ ":" ++ fmt.d port

/-- The method `K0sAPISpec.APIAddressURL`: "returns kube-apiserver external URI". -/
def K0sAPISpec.APIAddressURL (ParseIP : String → Option (List Nat)) (a : K0sAPISpec) : String :=
  a.getExternalURIForPort ParseIP a.Port

/-- The method `K0sAPISpec.K0sControlPlaneAPIAddress`: "returns the controller join APIs
address". -/
def K0sAPISpec.K0sControlPlaneAPIAddress (ParseIP : String → Option (List Nat))
    (a : K0sAPISpec) : String :=
  a.getExternalURIForPort ParseIP a.K0sAPIPort

/-- The sixteen bytes are an IPv4-mapped address `::ffff:a.b.c.d`. -/
def isV4Mapped (ip : List Nat) : Prop :=
  ip.take 10 = List.replicate 10 0 ∧ ip[10]? = some 255 ∧ ip[11]? = some 255

/-- The statement "s is an IPv6 address" of the specification: the string is the text of an
IP address and is written in the colon notation of IPv6. -/
def Spec.isIPv6Address (ParseIP : String → Option (List Nat)) (s : String) : Prop :=
  (ParseIP s).isSome = true ∧ ':' ∈ s.data

/-- What `net.ParseIP` returns for the addresses of the examples, and nil for any other
string. -/
def Example.ParseIP (s : String) : Option (List Nat) :=
  if s = "1.2.3.4" then some [0, 0, 0, 0, 0, 0, 0, 0, 0, 0, 255, 255, 1, 2, 3, 4]
  else if s = "::ffff:1.2.3.4" then some [0, 0, 0, 0, 0, 0, 0, 0, 0, 0, 255, 255, 1, 2, 3, 4]
  else if s = "2001:db8::1" then some [32, 1, 13, 184, 0, 0, 0, 0, 0, 0, 0, 0, 0, 0, 0, 1]
  else none

/-- The non-nil errors `yaml.UnmarshalStrict` can return: a `*yaml.TypeError` with its
messages, or an error of another type. -/
inductive YamlError where
  | TypeError (Errors : List String)
  | other (err : GoError)
deriving DecidableEq, Repr

/-- Go `strings.Contains` on the characters of the two strings. -/
def containsChars (substr : List Char) : List Char → Bool
  | [] => substr.isPrefixOf []
  | c :: cs => substr.isPrefixOf (c :: cs) || containsChars substr cs

/-- Go `strings.Contains`. -/
def strings.Contains (s substr : String) : Bool :=
  containsChars substr.data s.data

/-- A match of the pattern `field ([^ ]+)` that starts at the head of the characters: the
text of its group, the longest run of characters other than a space after `field `. -/
def matchFieldAt (cs : List Char) : Option (List Char) :=
  if "field ".data.isPrefixOf cs then
    match (cs.drop 6).takeWhile (fun c => c ≠ ' ') with
    | [] => none
    | name => some name
  else none

/-- The leftmost match of the pattern `field ([^ ]+)`. -/
def findField : List Char → Option (List Char)
  | [] => none
  | c :: cs =>
    match matchFieldAt (c :: cs) with
    | some name => some name
    | none => findField cs

/-- The call `fieldNamePattern.FindStringSubmatch(fieldErr)` with the pattern
`field ([^ ]+)`: `match[1]` when there is a match, nil being `none`. -/
def fieldNamePattern.FindStringSubmatch (fieldErr : String) : Option String :=
  (findField fieldErr.data).map String.mk

/-- Modelled from the spec: `util.StringSliceContains` is declared in a file of
`internal/util` that is not among these sources; it tells whether the slice holds the
string. -/
def util.StringSliceContains (strSlice : List String) (str : String) : Bool :=
  strSlice.contains str

/-- The loop over `errYaml.Errors` of `YamlUnmarshalStrictIgnoringFields` (source lines 22
to 40), `errYaml` being the error it returns on the three ways out. -/
def util.ignoreLoop (errYaml : YamlError) (ignore : List String) : List String → Option YamlError
  | [] => none
  | fieldErr :: rest =>
    if !strings.Contains fieldErr "not found in type" then some errYaml
    else
      match fieldNamePattern.FindStringSubmatch fieldErr with
      | none => some errYaml
      | some name =>
        if util.StringSliceContains ignore name then util.ignoreLoop errYaml ignore rest
        else some errYaml

/-- The function `util.YamlUnmarshalStrictIgnoringFields`: "does UnmarshalStrict but ignores
type errors for given fields".  `unmarshalStrict` is the error of `yaml.UnmarshalStrict(in,
out)`. -/
def util.YamlUnmarshalStrictIgnoringFields (unmarshalStrict : Option YamlError)
    (ignore : List String) : Option YamlError :=
  match unmarshalStrict with
  | none => none
  | some (.other err) => some (.other err)
  | some (.TypeError errors) => util.ignoreLoop (.TypeError errors) ignore errors

/-- The message is a `field <name> not found in type` error for a name of the list: it holds
`not found in type`, and the name after its first `field ` is in the list. -/
def isIgnoredFieldError (ignore : List String) (fieldErr : String) : Bool :=
  strings.Contains fieldErr "not found in type" &&
    match fieldNamePattern.FindStringSubmatch fieldErr with
    | some name => util.StringSliceContains ignore name
    | none => false

/-! ## The command `validate config` and the flag `--config` -/

/-- The function `RunE` of the command built by `validateConfigCmd` (source lines 42 to 48):
the lines written by `fmt.Println` and the error returned, or `none` when the call panics. -/
def validateConfigCmd.RunE (env : YamlEnv) (c : CmdOpts) : Option (List String × Option GoError) :=
  match GetYamlFromFile env c.CfgFile c.K0sVars.DataDir with
  | none => none
  | some (.error err) => some ([err.msg], none)
  | some (.ok _) => some ([], none)

/-- A process whose configuration file `/etc/k0s/bad.yaml` names a network provider that
does not exist. -/
def Example.yamlEnvInvalid : YamlEnv :=
  { Example.yamlEnv with
    FromYamlFile := fun p =>
      if p = "/etc/k0s/bad.yaml" then .ok Example.invalidProvider
      else .error ⟨"failed to read config file at " ++ p⟩ }

/-- The message of the error a call returned, if it returned one. -/
def returnedError : Option (Except GoError ClusterConfig) → Option String
  | some (.error err) => some err.msg
  | _ => none

/-- The function `getPersistentFlagSet` of `cmd/root.go`, seen from the package level
variables: `StringVarP` binds the flag `--config` to `cfgFile` and stores the default of
the flag, the empty string, in it. -/
def getPersistentFlagSet (g : CmdGlobals) : CmdGlobals :=
  { g with cfgFile := "" }

/-- The function `init` of `cmd/root.go` (source lines 72 to 96): the package level
variables after it, and the value `opts` every command is built from.  `GetConfig` is
`constant.GetConfig`, called with the default of `--data-dir`.  The pointer
`ClusterConfig` of `opts` is nil and its map `Logging` is nil; `RunE` of the controller
command assigns both before they are read, and `unset` stands for the configuration not
yet loaded. -/
def cmd.init (GetConfig : String → CfgVars) (g : CmdGlobals) (unset : ClusterConfig) :
    CmdGlobals × CmdOpts :=
  let dataDir := ""
  let g := { g with k0sVars := GetConfig dataDir }
  let CfgFile := g.cfgFile
  let g := getPersistentFlagSet g
  (g, { CfgFile := CfgFile, ClusterConfig := unset, K0sVars := g.k0sVars,
        Logging := fun _ => "" })

/-- The flag `--config` parsed with the value `p`: pflag stores `p` in the variable the flag
is bound to. -/
def pflag.setConfig (g : CmdGlobals) (p : String) : CmdGlobals :=
  { g with cfgFile := p }

/-- The package level variables of `cmd` when the program starts: Go zero values. -/
def cmd.zero : CmdGlobals :=
  { cfgFile := "",
    k0sVars := { DataDir := "", CertRootDir := "", EtcdCertDir := "", EtcdDataDir := "",
                 BinDir := "", RunDir := "" } }

/-- A run of `k0s controller --config p args`: `init` builds the controller command from
`opts`, `Execute` parses the flags, and the `RunE` function of the command runs.  The
result is the package level variables at the time `RunE` runs, the calls `RunE` makes and
the error it returns. -/
def cmd.Execute (GetConfig : String → CfgVars) (env : CmdEnv) (cenv : CtlEnv) (fs : FS)
    (unset : ClusterConfig) (p : String) (args : List String) :
    CmdGlobals × List CmdEvent × Option GoError :=
  let (g, opts) := cmd.init GetConfig cmd.zero unset
  let g := pflag.setConfig g p
  (g, NewControllerCmd.RunE env cenv opts fs args)

/-- The function `constant.GetConfig` of the example node. -/
def Example.GetConfig (dataDir : String) : CfgVars :=
  if dataDir = "" then Example.vars else { Example.vars with DataDir := dataDir }

/-! ## The component `ClusterConfigCustomResource` -/

/-- State of a Go channel value. -/
inductive Chan where
  | nilChan
  | opened
  | closed
deriving DecidableEq, Repr

/-- Go `close(ch)`: an open channel becomes closed; closing a nil channel or a closed
channel panics (`none`). -/
def Chan.close : Chan → Option Chan
  | .opened => some .closed
  | .nilChan => none
  | .closed => none

/-- The interface `LeaderElector`, declared outside these sources: the answer of its method
`IsLeader`. -/
structure LeaderElector where
  IsLeader : Bool
deriving DecidableEq, Repr

/-- The component `server.ClusterConfigCustomResource`.  The client set is nil until `Init`
has run. -/
structure ClusterConfigCustomResource where
  ClusterConfig : ClusterConfig
  clientSet : Option Unit
  leaderElector : LeaderElector
  stopCh : Chan
  kubeConfig : String
deriving DecidableEq, Repr

/-- The function `NewClusterConfigCR`: the channel `stopCh` is made open. -/
def NewClusterConfigCR (c : ClusterConfig) (leaderElector : LeaderElector)
    (k0sVars : CfgVars) : ClusterConfigCustomResource :=
  { ClusterConfig := c, clientSet := none, leaderElector := leaderElector,
    stopCh := .opened, kubeConfig := k0sVars.AdminKubeConfigPath }

/-- The method `ClusterConfigCustomResource.Stop`: the component after the call and how the
call ends. -/
def ClusterConfigCustomResource.Stop (c : ClusterConfigCustomResource) :
    ClusterConfigCustomResource × Outcome :=
  match c.stopCh.close with
  | none => (c, .panicked)
  | some ch => ({ c with stopCh := ch }, .returned none)

/-! ## `K0sAPISpec.Validate` -/

/-- What `K0sAPISpec.Validate` takes from outside these sources: the functions `IsIP` and
`IsDNSName` of `govalidator`, and the verb `%q` of `fmt` on a string. -/
structure APIEnv where
  IsIP : String → Bool
  IsDNSName : String → Bool
  Quote : String → String

/-- The function `DefaultAPISpec` of `kubebuilder/api/v1beta1/api.go`: "default settings
for api". -/
def kubebuilder.DefaultAPISpec : K0sAPISpec :=
  { Port := 6443, K0sAPIPort := 9443, SANs := ["addresses"], Address := "publicAddress",
    ExternalAddress := "", ExtraArgs := [] }

/-- The method `K0sAPISpec.Sans`. -/
def K0sAPISpec.Sans (a : K0sAPISpec) : List String :=
  let sans := ["sans"]
  let sans := sans ++ [a.Address]
  let sans := sans ++ a.SANs
  if a.ExternalAddress ≠ "" then sans ++ [a.ExternalAddress] else sans

/-- The loop over `a.Sans()` of `K0sAPISpec.Validate` (source lines 102 to 110). -/
def K0sAPISpec.Validate.loop (env : APIEnv) (errors : List GoError) : List String → List GoError
  | [] => errors
  | a :: rest =>
    if env.IsIP a then loop env errors rest
    else if env.IsDNSName a then loop env errors rest
    else loop env (errors ++ [⟨a ++ " is not a valid address for sans"⟩]) rest

/-- The method `K0sAPISpec.Validate`. -/
def K0sAPISpec.Validate (env : APIEnv) (a : K0sAPISpec) : List GoError :=
  let errors := K0sAPISpec.Validate.loop env [] a.Sans
  if ¬ env.IsIP a.Address then
    errors ++ [⟨"spec.api.address: " ++ env.Quote a.Address ++ " is not IP address"⟩]
  else errors

/-- The checks of the example: an IP address is one `Example.ParseIP` knows, a DNS name is
made of letters, digits, dots and dashes, and `%q` puts double quotes around a plain
string. -/
def Example.apiEnv : APIEnv :=
  { IsIP := fun s => (Example.ParseIP s).isSome,
    IsDNSName := fun s =>
      s.data ≠ [] ∧ s.data.all (fun c => c.isAlphanum || c = '.' || c = '-'),
    Quote := fun s => "\x22" ++ s ++ "\x22" }

/-! ## `UnstructuredYamlToYamlSlice` and `YamlSliceToUnstructuredYaml` -/

/-- A Go `interface{}` value of one of the kinds a YAML scalar decodes to. -/
inductive GoValue where
  | nil
  | bool (b : Bool)
  | int (n : Int)
  | string (s : String)
deriving DecidableEq, Repr

/-- The type `yaml.MapItem`; `α` is the type of the values held. -/
structure yaml.MapItem (α : Type) where
  Key : GoValue
  Value : α
deriving DecidableEq, Repr

/-- The type `yaml.MapSlice`. -/
abbrev yaml.MapSlice (α : Type) := List (yaml.MapItem α)

/-- A Go `map[string]interface{}`: its entries, with pairwise distinct keys. -/
abbrev GoMap (α : Type) := List (String × α)

/-- Go `m[k]` with the presence flag. -/
def GoMap.get {α : Type} : GoMap α → String → Option α
  | [], _ => none
  | (k', v') :: rest, k => if k' = k then some v' else GoMap.get rest k

/-- Go `m[k] = v`. -/
def GoMap.set {α : Type} : GoMap α → String → α → GoMap α
  | [], k, v => [(k, v)]
  | (k', v') :: rest, k, v =>
    if k' = k then (k, v) :: rest else (k', v') :: GoMap.set rest k v

/-- The function `util.UnstructuredYamlToYamlSlice`.  `range` is the order in which the
runtime hands out the entries of a map in a `for ... range` loop. -/
def util.UnstructuredYamlToYamlSlice {α : Type} (range : GoMap α → List (String × α))
    (object : GoMap α) : yaml.MapSlice α :=
  (range object).foldl (fun m kv => m ++ [⟨.string kv.1, kv.2⟩]) []

/-- The loop of `util.YamlSliceToUnstructuredYaml`: the map after the loop, or `none` when
the type assertion `v.Key.(string)` panics. -/
def util.YamlSliceToUnstructuredYaml.loop {α : Type} (obj : GoMap α) :
    yaml.MapSlice α → Option (GoMap α)
  | [] => some obj
  | v :: rest =>
    match v.Key with
    | .string s => loop (obj.set s v.Value) rest
    | _ => none

/-- The function `util.YamlSliceToUnstructuredYaml`: the map returned, or `none` when the
call panics. -/
def util.YamlSliceToUnstructuredYaml {α : Type} (s : yaml.MapSlice α) : Option (GoMap α) :=
  util.YamlSliceToUnstructuredYaml.loop [] s

/-- The value of the last item of the slice whose key is the string `k`. -/
def yaml.MapSlice.lastValue {α : Type} : yaml.MapSlice α → String → Option α
  | [], _ => none
  | v :: rest, k =>
    match yaml.MapSlice.lastValue rest k with
    | some x => some x
    | none => if v.Key = .string k then some v.Value else none

/-- The key of the item is a string. -/
def yaml.MapItem.hasStringKey {α : Type} (v : yaml.MapItem α) : Bool :=
  match v.Key with
  | .string _ => true
  | _ => false

/-! ## `CreateKubeletBootstrapConfig` -/

/-- The alphabet of Go `base64.StdEncoding`. -/
def base64.encodeStd : List Char :=
  "ABCDEFGHIJKLMNOPQRSTUVWXYZabcdefghijklmnopqrstuvwxyz0123456789+/".data

/-- The character of `base64.StdEncoding` for a six bit value. -/
def base64.digit (n : Nat) : Char :=
  base64.encodeStd.getD (n % 64) 'A'

/-- Go `base64.StdEncoding.EncodeToString`, as a list of characters: three bytes give four
characters, and the last one or two bytes are padded with `=`. -/
def base64.encode : Bytes → List Char
  | [] => []
  | [a] => [base64.digit (a % 256 / 4), base64.digit (a % 4 * 16), '=', '=']
  | [a, b] =>
    [base64.digit (a % 256 / 4), base64.digit (a % 4 * 16 + b % 256 / 16),
     base64.digit (b % 16 * 4), '=']
  | a :: b :: c :: rest =>
    base64.digit (a % 256 / 4) :: base64.digit (a % 4 * 16 + b % 256 / 16) ::
      base64.digit (b % 16 * 4 + c % 256 / 64) :: base64.digit (c % 64) :: base64.encode rest

/-- Go `base64.StdEncoding.EncodeToString`. -/
def base64.StdEncoding.EncodeToString (src : Bytes) : String :=
  String.mk (base64.encode src)

/-- The table `htmlReplacementTable` of Go `html/template`: what the escaper writes for a
character. -/
def template.htmlReplacement (c : Char) : List Char :=
  if c = Char.ofNat 0 then [Char.ofNat 0xFFFD]
  else if c = Char.ofNat 34 then "&#34;".data
  else if c = '&' then "&amp;".data
  else if c = Char.ofNat 39 then "&#39;".data
  else if c = '+' then "&#43;".data
  else if c = '<' then "&lt;".data
  else if c = '>' then "&gt;".data
  else [c]

/-- The escaper `html/template` applies to a string written by an action that stands in
the text of a template. -/
def template.htmlEscaper (s : String) : String :=
  String.mk (s.data.flatMap template.htmlReplacement)

/-- The fields of the value `data` that `kubeconfigTemplate` refers to. -/
inductive kubeconfigField where
  | JoinURL
  | CACert
  | User
  | Token
deriving DecidableEq, Repr

/-- A node of a parsed template: text copied to the output, or an action that writes a
field. -/
inductive template.Node where
  | text (s : String)
  | action (field : kubeconfigField)
deriving DecidableEq, Repr

/-- The value `data` of `CreateKubeletBootstrapConfig` (source lines 69 to 78). -/
structure kubeconfigData where
  CACert : String
  Token : String
  User : String
  JoinURL : String
  APIUrl : String
deriving DecidableEq, Repr

/-- The field of `data` an action names. -/
def kubeconfigData.field (data : kubeconfigData) : kubeconfigField → String
  | .JoinURL => data.JoinURL
  | .CACert => data.CACert
  | .User => data.User
  | .Token => data.Token

/-- The variable `kubeconfigTemplate` (source lines 33 to 53), a template of
`html/template`. -/
def kubeconfigTemplate : List template.Node :=
  [.text "\napiVersion: v1\nclusters:\n- cluster:\n    server: ",
   .action .JoinURL,
   .text "\n    certificate-authority-data: ",
   .action .CACert,
   .text "\n  name: k0s\ncontexts:\n- context:\n    cluster: k0s\n    user: ",
   .action .User,
   .text "\n  name: k0s\ncurrent-context: k0s\nkind: Config\npreferences: \x7b\x7d\nusers:\n- name: ",
   .action .User,
   .text "\n  user:5\n    token: ",
   .action .Token,
   .text "\n"]

/-- The method `Execute` of a template of `html/template`, on a buffer that starts empty:
text is copied, and the value of an action is written through the escaper. -/
def template.Execute : List template.Node → kubeconfigData → String
  | [], _ => ""
  | .text s :: rest, data => s ++ template.Execute rest data
  | .action field :: rest, data =>
    template.htmlEscaper (data.field field) ++ template.Execute rest data

/-- The type `token.Manager`; its method `Create` is declared outside these sources. -/
structure token.Manager where
  Create : Int → String → Except GoError String

/-- What `CreateKubeletBootstrapConfig` takes from the node and from the code outside these
sources. -/
structure TokenEnv where
  /-- Result of `ioutil.ReadFile`. -/
  ReadFile : String → Except GoError Bytes
  /-- Result of `NewManager`. -/
  NewManager : String → Except GoError token.Manager
  /-- Result of `JoinEncode` on the text of the buffer. -/
  JoinEncode : String → String × Option GoError
  /-- The method `APISpec.APIAddressURL`, which `cluster.go` does not declare. -/
  APIAddressURL : APISpec → String
  /-- The text `fmt.Sprintf` makes of a format without operands, inside `errors.Wrapf`. -/
  Sprintf : String → String

/-- The value `data` after the choice by role (source lines 69 to 85). -/
def CreateKubeletBootstrapConfig.data (env : TokenEnv) (clusterConfig : ClusterConfig)
    (role : String) (caCert : Bytes) (tokenString : String) : kubeconfigData :=
  let data : kubeconfigData :=
    { CACert := base64.StdEncoding.EncodeToString caCert, Token := tokenString,
      User := "", JoinURL := "", APIUrl := "" }
  if role = "worker" then
    { data with User := "kubelet-bootstrap",
                JoinURL := env.APIAddressURL clusterConfig.Spec.API }
  else
    { data with User := "controller-bootstrap",
                JoinURL := clusterConfig.Spec.API.K0sControlPlaneAPIAddress }

/-- The function `CreateKubeletBootstrapConfig` up to the call of `JoinEncode` (source lines
57 to 93): the document rendered into the buffer, or the error returned. -/
def CreateKubeletBootstrapConfig.render (env : TokenEnv) (clusterConfig : ClusterConfig)
    (k0sVars : CfgVars) (role : String) (expiry : Int) : Except GoError String :=
  match env.ReadFile (filepath.Join [k0sVars.CertRootDir, "ca.crt"]) with
  | .error err =>
    let msg := "failed to read cluster ca certificate from " ++
      filepath.Join [k0sVars.CertRootDir, "ca.crt"] ++
      ". is the control plane initialized on this node?"
    .error (errors.Wrap err (env.Sprintf msg))
  | .ok caCert =>
    match env.NewManager (filepath.Join [k0sVars.AdminKubeConfigPath]) with
    | .error err => .error err
    | .ok manager =>
      match manager.Create expiry role with
      | .error err => .error err
      | .ok tokenString =>
        .ok (template.Execute kubeconfigTemplate
              (CreateKubeletBootstrapConfig.data env clusterConfig role caCert tokenString))

/-- The function `CreateKubeletBootstrapConfig`: the string and the error returned. -/
def CreateKubeletBootstrapConfig (env : TokenEnv) (clusterConfig : ClusterConfig)
    (k0sVars : CfgVars) (role : String) (expiry : Int) : String × Option GoError :=
  match CreateKubeletBootstrapConfig.render env clusterConfig k0sVars role expiry with
  | .error err => ("", some err)
  | .ok buf => env.JoinEncode buf

/-- A controller whose `ca.crt` holds the bytes `caCert`, and whose token manager hands out
the token `abcdef.0123456789abcdef`. -/
def Example.tokenEnv (caCert : Bytes) : TokenEnv :=
  { ReadFile := fun p =>
      if p = "/var/lib/k0s/pki/ca.crt" then .ok caCert
      else .error ⟨"open " ++ p ++ ": no such file or directory"⟩,
    NewManager := fun _ => .ok ⟨fun _ _ => .ok "abcdef.0123456789abcdef"⟩,
    JoinEncode := fun s => ("H4sI" ++ s, none),
    APIAddressURL := fun a => "https://" ++ a.Address ++ ":6443",
    Sprintf := fun s => s }

/-! ## The retry loop -/

/-- Closed form of the retry loop when call `k + 1` (counted from the current call) is the first
to succeed. -/
theorem joinLoop_succeeds (jc : token.JoinClient) (url : String) :
    ∀ (k remaining i : Nat) (resp : EtcdResponse) (err : Option GoError) (w : World),
      k < remaining →
      (∀ j, j < k → (jc.JoinEtcd (i + j) url).2 ≠ none) →
      (jc.JoinEtcd (i + k) url).2 = none →
      Etcd.joinLoop jc url remaining i resp err w =
        (⟨w.fs, w.trace ++ (retryTrace url k ++ [Event.joinEtcd url])⟩,
          (jc.JoinEtcd (i + k) url).1, none) := by
  intro k
  induction k with
  | zero =>
    intro remaining i resp err w hlt _ hok
    obtain ⟨r, rfl⟩ : ∃ r, remaining = r + 1 := ⟨remaining - 1, by omega⟩
    simp only [Nat.add_zero] at hok
    cases hres : jc.JoinEtcd i url with
    | mk a b =>
      rw [hres] at hok
      simp only at hok
      subst hok
      simp [Etcd.joinLoop, hres, retryTrace, World.log]
  | succ k ih =>
    intro remaining i resp err w hlt hfail hok
    obtain ⟨r, rfl⟩ : ∃ r, remaining = r + 1 := ⟨remaining - 1, by omega⟩
    have h0 := hfail 0 (by omega)
    simp only [Nat.add_zero] at h0
    cases hres : jc.JoinEtcd i url with
    | mk a b =>
      rw [hres] at h0
      cases b with
      | none => exact absurd rfl h0
      | some e0 =>
        have hfail2 : ∀ j, j < k → (jc.JoinEtcd (i + 1 + j) url).2 ≠ none := by
          intro j hj
          have := hfail (j + 1) (by omega)
          rwa [show i + (j + 1) = i + 1 + j by omega] at this
        have hok2 : (jc.JoinEtcd (i + 1 + k) url).2 = none := by
          rwa [show i + (k + 1) = i + 1 + k by omega] at hok
        have := ih r (i + 1) a (some e0) ((w.log (.joinEtcd url)).log (.sleep 500))
          (by omega) hfail2 hok2
        simp only [Etcd.joinLoop, hres]
        rw [this]
        simp [World.log, retryTrace, show i + (k + 1) = i + 1 + k by omega]

/-- Closed form of the retry loop when every remaining call fails. -/
theorem joinLoop_all_fail (jc : token.JoinClient) (url : String) :
    ∀ (remaining i : Nat) (resp : EtcdResponse) (err : Option GoError) (w : World),
      (∀ j, j < remaining + 1 → (jc.JoinEtcd (i + j) url).2 ≠ none) →
      Etcd.joinLoop jc url (remaining + 1) i resp err w =
        (⟨w.fs, w.trace ++ retryTrace url (remaining + 1)⟩,
          (jc.JoinEtcd (i + remaining) url).1, (jc.JoinEtcd (i + remaining) url).2) := by
  intro remaining
  induction remaining with
  | zero =>
    intro i resp err w hfail
    have h0 := hfail 0 (by omega)
    simp only [Nat.add_zero] at h0 ⊢
    cases hres : jc.JoinEtcd i url with
    | mk a b =>
      rw [hres] at h0
      cases b with
      | none => exact absurd rfl h0
      | some e0 => simp [Etcd.joinLoop, hres, retryTrace, World.log]
  | succ r ih =>
    intro i resp err w hfail
    have h0 := hfail 0 (by omega)
    simp only [Nat.add_zero] at h0
    cases hres : jc.JoinEtcd i url with
    | mk a b =>
      rw [hres] at h0
      cases b with
      | none => exact absurd rfl h0
      | some e0 =>
        have hfail2 : ∀ j, j < r + 1 → (jc.JoinEtcd (i + 1 + j) url).2 ≠ none := by
          intro j hj
          have := hfail (j + 1) (by omega)
          rwa [show i + (j + 1) = i + 1 + j by omega] at this
        have := ih (i + 1) a (some e0) ((w.log (.joinEtcd url)).log (.sleep 500)) hfail2
        rw [Etcd.joinLoop]
        simp only [hres]
        rw [this]
        simp [World.log, retryTrace, show i + (r + 1) = i + 1 + r by omega]

/-! ## What each part of `Etcd.Run` adds to the world -/

/-- Putting an element at a place of a list gives a list with that element added. -/
theorem insertAt_perm {α : Type} (a : α) :
    ∀ (n : Nat) (l : List α), (errgroup.insertAt a n l).Perm (a :: l) := by
  intro n
  induction n with
  | zero => intro l; exact List.Perm.refl _
  | succ n ih =>
    intro l
    cases l with
    | nil => exact List.Perm.refl _
    | cons b l =>
      exact ((ih l).cons b).trans (List.Perm.swap a b l)

/-- An order of the goroutines holds each of them once. -/
theorem order_perm {α : Type} (pick : Nat → Nat) :
    ∀ (l : List α) (i : Nat), (errgroup.order pick i l).Perm l := by
  intro l
  induction l with
  | nil => intro i; exact List.Perm.refl _
  | cons a rest ih =>
    intro i
    exact (insertAt_perm a (pick i) _).trans ((ih (i + 1)).cons a)

/-- The error group issues every request, in the order the scheduler chooses, and touches
no file. -/
theorem issueAll_world (env : Env) (reqs : List (certificate.Request × String)) (w : World) :
    (Etcd.issueAll env reqs w).1 =
      ⟨w.fs, w.trace ++ (errgroup.order env.goStart 0 reqs).map
        (fun r => Event.ensureCertificate r.1 r.2)⟩ := rfl

/-- The method `setupCerts` touches no file and only calls the certificate manager. -/
theorem setupCerts_world (env : Env) (e : Etcd) (w : World) :
    ∃ rest, (e.setupCerts env w).1 = ⟨w.fs, w.trace ++ rest⟩ ∧
      ∀ ev ∈ rest, ev.isCert = true := by
  unfold Etcd.setupCerts
  cases env.ensureCA "etcd/ca" "etcd-ca" with
  | some err => exact ⟨[.ensureCA "etcd/ca" "etcd-ca"], by simp [World.log, Event.isCert]⟩
  | none =>
    cases e.Config with
    | none => exact ⟨[.ensureCA "etcd/ca" "etcd-ca"], by simp [World.log, Event.isCert]⟩
    | some cfg =>
      refine ⟨.ensureCA "etcd/ca" "etcd-ca" ::
        (errgroup.order env.goStart 0 (e.leafRequests env cfg.PeerAddress)).map
          (fun r => Event.ensureCertificate r.1 r.2), ?_, ?_⟩
      · simp [issueAll_world, World.log]
      · intro ev hev
        simp only [List.mem_cons, List.mem_map] at hev
        rcases hev with rfl | ⟨r, _, rfl⟩ <;> rfl

/-- The last part of `Run` touches no file; it calls the certificate manager and starts the
supervisor with the arguments it was given. -/
theorem start_world (env : Env) (e : Etcd) (args : List String) (w : World) :
    ∃ rest, (e.start env args w).1 = ⟨w.fs, w.trace ++ rest⟩ ∧
      ∀ ev ∈ rest, ev.isCert = true ∨ ∃ s, ev = .supervise s ∧ s.Args = args := by
  obtain ⟨rest, hw, hall⟩ := setupCerts_world env e w
  unfold Etcd.start
  cases hres : e.setupCerts env w with
  | mk w1 out =>
    rw [hres] at hw
    simp only at hw
    subst hw
    cases out with
    | panicked => exact ⟨rest, rfl, fun ev h => Or.inl (hall ev h)⟩
    | returned err =>
      cases err with
      | some err => exact ⟨rest, rfl, fun ev h => Or.inl (hall ev h)⟩
      | none =>
        refine ⟨rest ++ [.supervise (e.newSupervisor env args)], ?_, ?_⟩
        · simp [World.log]
        · intro ev hev
          simp only [List.mem_append, List.mem_singleton] at hev
          rcases hev with h | rfl
          · exact Or.inl (hall ev h)
          · exact Or.inr ⟨_, rfl, rfl⟩

/-- The chown loop touches no file content and only calls `os.Chown`. -/
theorem chownLoop_world (env : Env) (uid gid : Int) :
    ∀ (files : List String) (w : World),
      ∃ rest, (Etcd.chownLoop env uid gid files w).1 = ⟨w.fs, w.trace ++ rest⟩ ∧
        ∀ ev ∈ rest, ev.isChown = true := by
  intro files
  induction files with
  | nil => intro w; exact ⟨[], by simp [Etcd.chownLoop]⟩
  | cons f fs ih =>
    intro w
    obtain ⟨rest, hw, hall⟩ := ih (w.log (.chown f uid gid))
    have hcons : ∀ ev ∈ Event.chown f uid gid :: rest, ev.isChown = true := by
      intro ev hev
      rcases List.mem_cons.1 hev with rfl | h
      · rfl
      · exact hall ev h
    unfold Etcd.chownLoop
    cases env.chownErr f with
    | none => exact ⟨_ :: rest, by simpa [World.log] using hw, hcons⟩
    | some err =>
      by_cases h0 : env.geteuid = 0
      · exact ⟨[.chown f uid gid], by simp [h0, World.log], by simp [Event.isChown]⟩
      · exact ⟨_ :: rest, by simpa [h0, World.log] using hw, hcons⟩


/-- Every `ioutil.WriteFile` is recorded, also a failing one. -/
theorem writeFile_world (env : Env) (filename : String) (data : Bytes) (perm : Nat) (w : World) :
    (ioutil.WriteFile env filename data perm w).1.trace =
      w.trace ++ [Event.writeFile filename data perm] := by
  unfold ioutil.WriteFile
  cases env.writeFileErr filename with
  | none => simp [World.log]
  | some err => cases env.written filename <;> simp [World.log]

/-- The CA block only writes files and changes owners. -/
theorem writeCA_world (env : Env) (e : Etcd) (resp : EtcdResponse) (w : World) :
    ∃ rest, (e.writeCA env resp w).1.trace = w.trace ++ rest ∧
      ∀ ev ∈ rest, ev.isWrite = true ∨ ev.isChown = true := by
  unfold Etcd.writeCA
  split
  · exact ⟨[], by simp⟩
  · have h1 := writeFile_world env e.etcdCaCertKey resp.CA.Key env.CertSecureMode w
    cases hk : ioutil.WriteFile env e.etcdCaCertKey resp.CA.Key env.CertSecureMode w with
    | mk w1 err1 =>
      rw [hk] at h1
      simp only at h1
      cases err1 with
      | some err =>
        exact ⟨[.writeFile e.etcdCaCertKey resp.CA.Key env.CertSecureMode], h1,
          by simp [Event.isWrite]⟩
      | none =>
        have h2 := writeFile_world env e.etcdCaCert resp.CA.Cert env.CertSecureMode w1
        cases hc : ioutil.WriteFile env e.etcdCaCert resp.CA.Cert env.CertSecureMode w1 with
        | mk w2 err2 =>
          rw [hc] at h2
          simp only at h2
          cases err2 with
          | some err =>
            exact ⟨[.writeFile e.etcdCaCertKey resp.CA.Key env.CertSecureMode,
              .writeFile e.etcdCaCert resp.CA.Cert env.CertSecureMode],
              by simp [hc, h2, h1], by simp [Event.isWrite]⟩
          | none =>
            obtain ⟨rest, hw, hall⟩ := chownLoop_world env e.uid e.gid
              [filepath.Dir e.etcdCaCertKey, e.etcdCaCertKey, e.etcdCaCert] w2
            refine ⟨[.writeFile e.etcdCaCertKey resp.CA.Key env.CertSecureMode,
              .writeFile e.etcdCaCert resp.CA.Cert env.CertSecureMode] ++ rest, ?_, ?_⟩
            · simp only [hc]
              rw [hw]
              simp [h2, h1]
            · intro ev hev
              simp only [List.mem_append, List.mem_cons, List.mem_singleton, List.not_mem_nil,
                or_false] at hev
              rcases hev with (rfl | rfl) | h
              · exact Or.inl rfl
              · exact Or.inl rfl
              · exact Or.inr (hall ev h)

/-- Events of `Run` after the retry loop. -/
theorem afterJoin_world (env : Env) (e : Etcd) (args : List String) (resp : EtcdResponse)
    (w : World) :
    ∃ rest, (e.afterJoin env args resp w).1.trace = w.trace ++ rest ∧
      ∀ ev ∈ rest, (ev.isWrite = true ∨ ev.isChown = true ∨ ev.isCert = true) ∨
        ∃ s, ev = .supervise s ∧ s.Args = args ++ Etcd.clusterArgs resp := by
  obtain ⟨r1, h1, hall1⟩ := writeCA_world env e resp w
  unfold Etcd.afterJoin
  cases hres : e.writeCA env resp w with
  | mk w1 err =>
    rw [hres] at h1
    simp only at h1
    have hl : ∀ ev ∈ r1, (ev.isWrite = true ∨ ev.isChown = true ∨ ev.isCert = true) ∨
        ∃ s, ev = .supervise s ∧ s.Args = args ++ Etcd.clusterArgs resp := by
      intro ev hev
      rcases hall1 ev hev with h | h
      · exact Or.inl (Or.inl h)
      · exact Or.inl (Or.inr (Or.inl h))
    cases err with
    | some err => exact ⟨r1, h1, hl⟩
    | none =>
      obtain ⟨r2, h2, hall2⟩ := start_world env e (args ++ Etcd.clusterArgs resp) w1
      refine ⟨r1 ++ r2, ?_, ?_⟩
      · simp only [h2, h1, List.append_assoc]
      · intro ev hev
        rcases List.mem_append.1 hev with h | h
        · exact hl ev h
        · rcases hall2 ev h with h | h
          · exact Or.inl (Or.inr (Or.inr h))
          · exact Or.inr h

/-- With a join that succeeds on call `k + 1`, `Run` is its continuation on the response of that
call. -/
theorem Run_of_joins (env : Env) (e : Etcd) (w : World) (name : String) (cfg : EtcdConfig)
    (jc : token.JoinClient) (k : Nat) (hk : k < 20) (hstate : e.joins env w name cfg jc)
    (hjoin : jc.succeedsAfter cfg.peerURL k) :
    e.Run env w =
      e.afterJoin env (e.baseArgs name cfg.peerURL) (jc.JoinEtcd k cfg.peerURL).1
        ⟨w.fs, w.trace ++ joinTrace cfg.peerURL k⟩ := by
  obtain ⟨hhost, hcfg, hj, hjc, hdb⟩ := hstate
  obtain ⟨hfail, hok⟩ := hjoin
  have hloop := joinLoop_succeeds jc cfg.peerURL k 20 0 EtcdResponse.zero none w hk
    (by simpa using hfail) (by simpa using hok)
  simp only [Nat.zero_add] at hloop
  unfold Etcd.Run
  simp only [Etcd.afterDbCheck, hhost, hcfg, hdb, hj, hjc, hloop, joinTrace, Bool.false_eq_true,
    if_false, if_true]

/-- The events of `k` failed attempts hold `k` calls of `JoinEtcd`. -/
theorem countP_isJoin_retryTrace (url : String) :
    ∀ k, (retryTrace url k).countP Event.isJoin = k := by
  intro k
  induction k with
  | zero => rfl
  | succ k ih => simp [retryTrace, Event.isJoin, ih]

/-- The events of `k` failed attempts hold `k` sleeps of 500ms. -/
theorem filter_isSleep_retryTrace (url : String) :
    ∀ k, (retryTrace url k).filter Event.isSleep = List.replicate k (Event.sleep 500) := by
  intro k
  induction k with
  | zero => rfl
  | succ k ih => simp [retryTrace, Event.isJoin, Event.isSleep, ih, List.replicate_succ]

/-- The events of failed attempts are calls of `JoinEtcd` and sleeps of 500ms only. -/
theorem mem_retryTrace (url : String) :
    ∀ (k : Nat) (ev : Event), ev ∈ retryTrace url k →
      ev = Event.joinEtcd url ∨ ev = Event.sleep 500 := by
  intro k
  induction k with
  | zero => intro ev hev; cases hev
  | succ k ih =>
    intro ev hev
    simp only [retryTrace, List.mem_cons] at hev
    rcases hev with rfl | rfl | h
    · exact Or.inl rfl
    · exact Or.inr rfl
    · exact ih ev h

/-! ## The claims -/

/-- C1: a join endpoint that fails on the first `k < 20` calls and succeeds on call `k + 1`
is called exactly `k + 1` times with exactly `k` sleeps of 500ms, one after each failed call,
and `Etcd.Run` goes on with the response of call `k + 1`. -/
theorem C1_join_succeeds_after_k_failures (env : Env) (e : Etcd) (w : World) (name : String)
    (cfg : EtcdConfig) (jc : token.JoinClient) (k : Nat) (hk : k < 20)
    (hstate : e.joins env w name cfg jc) (hjoin : jc.succeedsAfter cfg.peerURL k) :
    e.Run env w =
        e.afterJoin env (e.baseArgs name cfg.peerURL) (jc.JoinEtcd k cfg.peerURL).1
          ⟨w.fs, w.trace ++ joinTrace cfg.peerURL k⟩ ∧
      (joinTrace cfg.peerURL k).countP Event.isJoin = k + 1 ∧
      (joinTrace cfg.peerURL k).filter Event.isSleep = List.replicate k (Event.sleep 500) ∧
      ∃ rest, (e.Run env w).1.trace = w.trace ++ joinTrace cfg.peerURL k ++ rest ∧
        ∀ ev ∈ rest, ev.isJoin = false ∧ ev.isSleep = false := by
  have hrun := Run_of_joins env e w name cfg jc k hk hstate hjoin
  refine ⟨hrun, ?_, ?_, ?_⟩
  · simp [joinTrace, countP_isJoin_retryTrace, Event.isJoin]
  · simp [joinTrace, filter_isSleep_retryTrace, Event.isSleep]
  · obtain ⟨rest, hw, hall⟩ := afterJoin_world env e (e.baseArgs name cfg.peerURL)
      (jc.JoinEtcd k cfg.peerURL).1 ⟨w.fs, w.trace ++ joinTrace cfg.peerURL k⟩
    refine ⟨rest, by rw [hrun, hw], ?_⟩
    intro ev hev
    rcases hall ev hev with (h | h | h) | ⟨s, rfl, _⟩
    · cases ev <;> simp_all [Event.isJoin, Event.isSleep, Event.isWrite]
    · cases ev <;> simp_all [Event.isJoin, Event.isSleep, Event.isChown]
    · cases ev <;> simp_all [Event.isJoin, Event.isSleep, Event.isCert]
    · exact ⟨rfl, rfl⟩

/-- C1 at a node whose join endpoint refuses two calls and answers the third. -/
theorem C1_witness :
    (Example.etcd (some (Example.client 2))).joins Example.env Example.fresh "node2" ⟨"10.0.0.3"⟩
        (Example.client 2) ∧
      (Example.client 2).succeedsAfter (EtcdConfig.peerURL ⟨"10.0.0.3"⟩) 2 ∧
      (Example.etcd (some (Example.client 2))).Run Example.env Example.fresh =
        (Example.etcd (some (Example.client 2))).afterJoin Example.env
          ((Example.etcd (some (Example.client 2))).baseArgs "node2" "https://10.0.0.3:2380")
          Example.response
          ⟨Example.fresh.fs,
            [.joinEtcd "https://10.0.0.3:2380", .sleep 500, .joinEtcd "https://10.0.0.3:2380",
              .sleep 500, .joinEtcd "https://10.0.0.3:2380"]⟩ :=
  have hs : (Example.etcd (some (Example.client 2))).joins Example.env Example.fresh "node2"
      ⟨"10.0.0.3"⟩ (Example.client 2) := ⟨rfl, rfl, rfl, rfl, by decide⟩
  have hj : (Example.client 2).succeedsAfter (EtcdConfig.peerURL ⟨"10.0.0.3"⟩) 2 := by
    unfold token.JoinClient.succeedsAfter; decide
  ⟨hs, hj, (C1_join_succeeds_after_k_failures Example.env _ Example.fresh "node2" ⟨"10.0.0.3"⟩
      (Example.client 2) 2 (by decide) hs hj).1⟩

/-- C2: when every call of the join endpoint fails, `Etcd.Run` calls it exactly 20 times and
returns the error of the 20th call; no file is written, `setupCerts` is not called and the
supervisor is not started. -/
theorem C2_join_gives_up_after_twenty_failures (env : Env) (e : Etcd) (w : World) (name : String)
    (cfg : EtcdConfig) (jc : token.JoinClient) (hstate : e.joins env w name cfg jc)
    (hfail : ∀ j, j < 20 → (jc.JoinEtcd j cfg.peerURL).2 ≠ none) :
    e.Run env w =
        (⟨w.fs, w.trace ++ retryTrace cfg.peerURL 20⟩, e,
          .returned (jc.JoinEtcd 19 cfg.peerURL).2) ∧
      (jc.JoinEtcd 19 cfg.peerURL).2 ≠ none ∧
      (retryTrace cfg.peerURL 20).countP Event.isJoin = 20 ∧
      ∀ ev ∈ retryTrace cfg.peerURL 20,
        ev.isWrite = false ∧ ev.isCert = false ∧ ev.isSupervise = false := by
  obtain ⟨hhost, hcfg, hj, hjc, hdb⟩ := hstate
  have hloop := joinLoop_all_fail jc cfg.peerURL 19 0 EtcdResponse.zero none w
    (by simpa using hfail)
  simp only [Nat.zero_add] at hloop
  have h19 := hfail 19 (by decide)
  refine ⟨?_, h19, countP_isJoin_retryTrace _ 20, ?_⟩
  · unfold Etcd.Run
    simp only [Etcd.afterDbCheck, hhost, hcfg, hdb, hj, hjc, hloop, Bool.false_eq_true, if_false,
      if_true]
    cases h : (jc.JoinEtcd 19 cfg.peerURL).2 with
    | none => exact absurd h h19
    | some err => rfl
  · intro ev hev
    rcases mem_retryTrace _ _ _ hev with rfl | rfl <;> exact ⟨rfl, rfl, rfl⟩

/-- C2 at a node whose join endpoint rejects every call. -/
theorem C2_witness :
    (Example.etcd (some Example.rejected)).joins Example.env Example.fresh "node2" ⟨"10.0.0.3"⟩
        Example.rejected ∧
      (∀ j, j < 20 → (Example.rejected.JoinEtcd j (EtcdConfig.peerURL ⟨"10.0.0.3"⟩)).2 ≠ none) ∧
      (Example.etcd (some Example.rejected)).Run Example.env Example.fresh =
        (⟨Example.fresh.fs, Example.fresh.trace ++ retryTrace "https://10.0.0.3:2380" 20⟩,
          Example.etcd (some Example.rejected),
          .returned (some ⟨"unexpected response status: 401 Unauthorized"⟩)) :=
  have hs : (Example.etcd (some Example.rejected)).joins Example.env Example.fresh "node2"
      ⟨"10.0.0.3"⟩ Example.rejected := ⟨rfl, rfl, rfl, rfl, by decide⟩
  have hf : ∀ j, j < 20 →
      (Example.rejected.JoinEtcd j (EtcdConfig.peerURL ⟨"10.0.0.3"⟩)).2 ≠ none := by
    intro j _ h; cases h
  ⟨hs, hf, (C2_join_gives_up_after_twenty_failures Example.env _ Example.fresh "node2"
      ⟨"10.0.0.3"⟩ Example.rejected hs hf).1⟩

/-- The retry loop touches no file, and with an iteration left its first event is a call of
`JoinEtcd`. -/
theorem joinLoop_world (jc : token.JoinClient) (url : String) :
    ∀ (remaining i : Nat) (resp : EtcdResponse) (err : Option GoError) (w : World),
      ∃ rest, (Etcd.joinLoop jc url remaining i resp err w).1 = ⟨w.fs, w.trace ++ rest⟩ ∧
        (0 < remaining → ∃ tail, rest = Event.joinEtcd url :: tail) := by
  intro remaining
  induction remaining with
  | zero => intro i resp err w; exact ⟨[], by simp [Etcd.joinLoop], fun h => absurd h (by decide)⟩
  | succ r ih =>
    intro i resp err w
    cases hres : jc.JoinEtcd i url with
    | mk a b =>
      cases b with
      | none =>
        exact ⟨[.joinEtcd url], by simp [Etcd.joinLoop, hres, World.log], fun _ => ⟨[], rfl⟩⟩
      | some e0 =>
        obtain ⟨rest, hw, _⟩ := ih (i + 1) a (some e0) ((w.log (.joinEtcd url)).log (.sleep 500))
        refine ⟨.joinEtcd url :: .sleep 500 :: rest, ?_, fun _ => ⟨_, rfl⟩⟩
        simp only [Etcd.joinLoop, hres]
        rw [hw]
        simp [World.log]

/-- C3 (as stated, refuted): an endpoint that rejects every call as unauthorized is called 20
times by `Etcd.Run`, not once. -/
theorem C3_rejected_response_is_retried :
    (Example.rejected.JoinEtcd 0 "https://10.0.0.3:2380").2 =
        some ⟨"unexpected response status: 401 Unauthorized"⟩ ∧
      ((Example.etcd (some Example.rejected)).Run Example.env Example.fresh).1.trace.countP
        Event.isJoin = 20 ∧
      ¬ ((Example.etcd (some Example.rejected)).Run Example.env Example.fresh).1.trace.countP
        Event.isJoin = 1 := by
  decide

/-- While the calls fail the retry loop goes on: `k` failing calls are `k` rounds of a call
and a sleep, whatever the errors are. -/
theorem joinLoop_fail_prefix (jc : token.JoinClient) (url : String) :
    ∀ (k remaining i : Nat) (resp : EtcdResponse) (err : Option GoError) (w : World),
      (∀ j, j < k → (jc.JoinEtcd (i + j) url).2 ≠ none) →
      ∃ resp2 err2, Etcd.joinLoop jc url (remaining + k) i resp err w =
        Etcd.joinLoop jc url remaining (i + k) resp2 err2
          ⟨w.fs, w.trace ++ retryTrace url k⟩ := by
  intro k
  induction k with
  | zero =>
    intro remaining i resp err w _
    exact ⟨resp, err, by simp [retryTrace]⟩
  | succ k ih =>
    intro remaining i resp err w hfail
    have h0 := hfail 0 (by omega)
    simp only [Nat.add_zero] at h0
    cases hres : jc.JoinEtcd i url with
    | mk a b =>
      rw [hres] at h0
      cases b with
      | none => exact absurd rfl h0
      | some e0 =>
        have hfail2 : ∀ j, j < k → (jc.JoinEtcd (i + 1 + j) url).2 ≠ none := by
          intro j hj
          have := hfail (j + 1) (by omega)
          rwa [show i + (j + 1) = i + 1 + j by omega] at this
        obtain ⟨resp2, err2, h⟩ := ih remaining (i + 1) a (some e0)
          ((w.log (.joinEtcd url)).log (.sleep 500)) hfail2
        refine ⟨resp2, err2, ?_⟩
        rw [show remaining + (k + 1) = remaining + k + 1 by omega, Etcd.joinLoop]
        simp only [hres]
        rw [h]
        simp [World.log, retryTrace, show i + (k + 1) = i + 1 + k by omega]

/-- C3 (amended): the retry loop treats every failure alike.  When the first `k ≤ 20` calls
of `JoinEtcd` fail, whatever their errors, `Etcd.Run` makes `k` rounds of a call followed
by a sleep of 500ms.  For `k < 20` it then calls `JoinEtcd` again: no failure before the
20th ends the loop.  For `k = 20` it makes no further call and returns the error of the
20th call. -/
theorem C3_every_failure_is_retried (env : Env) (e : Etcd) (w : World) (name : String)
    (cfg : EtcdConfig) (jc : token.JoinClient) (k : Nat) (hk : k ≤ 20)
    (hstate : e.joins env w name cfg jc)
    (hfail : ∀ j, j < k → (jc.JoinEtcd j cfg.peerURL).2 ≠ none) :
    ∃ rest, (e.Run env w).1.trace = w.trace ++ retryTrace cfg.peerURL k ++ rest ∧
      (k < 20 → ∃ tail, rest = Event.joinEtcd cfg.peerURL :: tail) ∧
      (k = 20 → rest = [] ∧
        (e.Run env w).2.2 = .returned (jc.JoinEtcd 19 cfg.peerURL).2 ∧
        (jc.JoinEtcd 19 cfg.peerURL).2 ≠ none) := by
  obtain ⟨hhost, hcfg, hj, hjc, hdb⟩ := hstate
  rcases Nat.lt_or_ge k 20 with hlt | hge
  · obtain ⟨resp2, err2, hpre⟩ := joinLoop_fail_prefix jc cfg.peerURL k (20 - k) 0
      EtcdResponse.zero none w (by simpa using hfail)
    rw [show 20 - k + k = 20 by omega] at hpre
    simp only [Nat.zero_add] at hpre
    obtain ⟨rest, hw, hhead⟩ := joinLoop_world jc cfg.peerURL (20 - k) k resp2 err2
      ⟨w.fs, w.trace ++ retryTrace cfg.peerURL k⟩
    obtain ⟨tail, rfl⟩ := hhead (by omega)
    have htrace : ∃ tail2, (e.Run env w).1.trace =
        w.trace ++ retryTrace cfg.peerURL k ++ Event.joinEtcd cfg.peerURL :: tail2 := by
      unfold Etcd.Run
      simp only [Etcd.afterDbCheck, hhost, hcfg, hdb, hj, hjc, hpre, Bool.false_eq_true,
        if_false, if_true]
      cases hl : Etcd.joinLoop jc cfg.peerURL (20 - k) k resp2 err2
          ⟨w.fs, w.trace ++ retryTrace cfg.peerURL k⟩ with
      | mk w1 rest1 =>
        obtain ⟨resp, err⟩ := rest1
        rw [hl] at hw
        simp only at hw
        subst hw
        cases err with
        | some err => exact ⟨tail, rfl⟩
        | none =>
          obtain ⟨r2, h2, _⟩ := afterJoin_world env e (e.baseArgs name cfg.peerURL) resp
            ⟨w.fs, w.trace ++ retryTrace cfg.peerURL k ++ Event.joinEtcd cfg.peerURL :: tail⟩
          exact ⟨tail ++ r2, by simp only [h2]; simp⟩
    obtain ⟨tail2, ht⟩ := htrace
    exact ⟨Event.joinEtcd cfg.peerURL :: tail2, ht, fun _ => ⟨tail2, rfl⟩,
      fun h20 => absurd h20 (by omega)⟩
  · have h20 : k = 20 := by omega
    subst h20
    have hloop := joinLoop_all_fail jc cfg.peerURL 19 0 EtcdResponse.zero none w
      (by simpa using hfail)
    simp only [Nat.zero_add] at hloop
    have h19 := hfail 19 (by decide)
    have hrun : e.Run env w =
        (⟨w.fs, w.trace ++ retryTrace cfg.peerURL 20⟩, e,
          .returned (jc.JoinEtcd 19 cfg.peerURL).2) := by
      unfold Etcd.Run
      simp only [Etcd.afterDbCheck, hhost, hcfg, hdb, hj, hjc, hloop, Bool.false_eq_true,
        if_false, if_true]
      cases h : (jc.JoinEtcd 19 cfg.peerURL).2 with
      | none => exact absurd h h19
      | some err => rfl
    refine ⟨[], by rw [hrun]; simp, fun h => absurd h (by decide), fun _ => ⟨rfl, ?_, h19⟩⟩
    rw [hrun]

/-- C3 (amended) at a node whose join endpoint rejects every call as unauthorized: 20 calls,
20 sleeps, and the error of the last call. -/
theorem C3_witness :
    (Example.etcd (some Example.rejected)).joins Example.env Example.fresh "node2" ⟨"10.0.0.3"⟩
        Example.rejected ∧
      (∀ j, j < 20 → (Example.rejected.JoinEtcd j (EtcdConfig.peerURL ⟨"10.0.0.3"⟩)).2 ≠ none) ∧
      ∃ rest, ((Example.etcd (some Example.rejected)).Run Example.env Example.fresh).1.trace =
          Example.fresh.trace ++ retryTrace (EtcdConfig.peerURL ⟨"10.0.0.3"⟩) 20 ++ rest ∧
        rest = [] ∧
        ((Example.etcd (some Example.rejected)).Run Example.env Example.fresh).2.2 =
          .returned (some ⟨"unexpected response status: 401 Unauthorized"⟩) ∧
        ((Example.etcd (some Example.rejected)).Run Example.env Example.fresh).1.trace.length
          = 40 :=
  have hs : (Example.etcd (some Example.rejected)).joins Example.env Example.fresh "node2"
      ⟨"10.0.0.3"⟩ Example.rejected := ⟨rfl, rfl, rfl, rfl, by decide⟩
  have hf : ∀ j, j < 20 →
      (Example.rejected.JoinEtcd j (EtcdConfig.peerURL ⟨"10.0.0.3"⟩)).2 ≠ none := by
    intro j _ h; cases h
  let ⟨rest, ht, _, h20⟩ := C3_every_failure_is_retried Example.env _ Example.fresh "node2"
    ⟨"10.0.0.3"⟩ Example.rejected 20 (by decide) hs hf
  ⟨hs, hf, rest, ht, (h20 rfl).1, (h20 rfl).2.1, by decide⟩

/-- A list that differs from `l` at a common position starts no extension of `l`. -/
theorem isPrefixOf_append_of_mismatch :
    ∀ (p l x : List Char), mismatch p l = true → List.isPrefixOf p (l ++ x) = false := by
  intro p
  induction p with
  | nil => intro l x h; simp [mismatch] at h
  | cons c cs ih =>
    intro l x h
    cases l with
    | nil => simp [mismatch] at h
    | cons d ds =>
      simp only [mismatch, Bool.or_eq_true, bne_iff_ne, ne_eq] at h
      simp only [List.cons_append, List.isPrefixOf, Bool.and_eq_false_imp, beq_iff_eq]
      intro hcd
      rcases h with h | h
      · exact absurd hcd h
      · exact ih ds x h

/-- The string form of the previous statement. -/
theorem startsWith_append_of_mismatch (lit x pre : String)
    (h : mismatch pre.data lit.data = true) : startsWith (lit ++ x) pre = false := by
  unfold startsWith
  rw [String.data_append]
  exact isPrefixOf_append_of_mismatch _ _ _ h

/-- None of the 16 base arguments starts with `--initial-cluster`. -/
theorem baseArgs_no_cluster_flag (e : Etcd) (name peerURL : String) :
    ∀ a ∈ e.baseArgs name peerURL, startsWith a "--initial-cluster" = false := by
  intro a ha
  simp only [Etcd.baseArgs, List.mem_cons, List.not_mem_nil, or_false] at ha
  rcases ha with rfl | rfl | rfl | rfl | rfl | rfl | rfl | rfl | rfl | rfl | rfl | rfl | rfl |
    rfl | rfl | rfl
  all_goals first
    | exact startsWith_append_of_mismatch _ _ _ (by decide)
    | decide

/-- C5: when the etcd data base file exists, `Etcd.Run` makes no `JoinEtcd` call and writes no
file, whatever the `Join` field says, and no argument handed to the supervisor starts with
`--initial-cluster` (which covers `--initial-cluster-state` too). -/
theorem C5_existing_db_skips_join (env : Env) (e : Etcd) (w : World)
    (hdb : util.FileExists w.fs e.dbFile = true) :
    ∃ rest, (e.Run env w).1 = ⟨w.fs, w.trace ++ rest⟩ ∧
      ∀ ev ∈ rest, ev.isJoin = false ∧ ev.isWrite = false ∧
        ∀ s, ev = Event.supervise s → ∀ a ∈ s.Args, startsWith a "--initial-cluster" = false := by
  unfold Etcd.Run
  cases hh : env.hostname with
  | mk name herr =>
    cases herr with
    | some err => exact ⟨[], by simp, by simp⟩
    | none =>
      cases hc : e.Config with
      | none => exact ⟨[], by simp, by simp⟩
      | some cfg =>
        simp only [Etcd.afterDbCheck, hdb, if_true, Bool.false_eq_true, if_false]
        obtain ⟨rest, hw, hall⟩ := start_world env { e with Join := false }
          (e.baseArgs name cfg.peerURL) w
        refine ⟨rest, hw, ?_⟩
        intro ev hev
        rcases hall ev hev with h | ⟨s, rfl, hs⟩
        · refine ⟨?_, ?_, ?_⟩
          · cases ev <;> simp_all [Event.isJoin, Event.isCert]
          · cases ev <;> simp_all [Event.isWrite, Event.isCert]
          · intro s hs; subst hs; simp [Event.isCert] at h
        · refine ⟨rfl, rfl, ?_⟩
          intro s2 hs2
          cases hs2
          rw [hs]
          exact baseArgs_no_cluster_flag e name cfg.peerURL

/-- C5 at a node that holds an etcd data base file while `Join` is set. -/
theorem C5_witness :
    util.FileExists (Example.withFiles [("/var/lib/k0s/etcd/member/snap/db", [1])]).fs
        (Example.etcd (some (Example.client 0))).dbFile = true ∧
      ∃ rest, ((Example.etcd (some (Example.client 0))).Run Example.env
          (Example.withFiles [("/var/lib/k0s/etcd/member/snap/db", [1])])).1 =
          ⟨(Example.withFiles [("/var/lib/k0s/etcd/member/snap/db", [1])]).fs,
            (Example.withFiles [("/var/lib/k0s/etcd/member/snap/db", [1])]).trace ++ rest⟩ ∧
        ∀ ev ∈ rest, ev.isJoin = false ∧ ev.isWrite = false ∧
          ∀ s, ev = Event.supervise s → ∀ a ∈ s.Args, startsWith a "--initial-cluster" = false :=
  ⟨by decide, C5_existing_db_skips_join Example.env _ _ (by decide)⟩

/-- With both CA files in place the CA block does nothing. -/
theorem writeCA_of_present (env : Env) (e : Etcd) (resp : EtcdResponse) (w : World)
    (hcrt : util.FileExists w.fs e.etcdCaCert = true)
    (hkey : util.FileExists w.fs e.etcdCaCertKey = true) :
    e.writeCA env resp w = (w, none) := by
  simp [Etcd.writeCA, hcrt, hkey]

/-- When `setupCerts` succeeds the supervisor is started and its result returned. -/
theorem start_of_certs_ok (env : Env) (e : Etcd) (args : List String) (w : World)
    (hcerts : (e.setupCerts env w).2 = .returned none) :
    e.start env args w =
      ((e.setupCerts env w).1.log (.supervise (e.newSupervisor env args)),
        { e with supervisor := e.newSupervisor env args },
        .returned (env.supervise (e.newSupervisor env args))) := by
  unfold Etcd.start
  cases hres : e.setupCerts env w with
  | mk w1 out =>
    rw [hres] at hcerts
    simp only at hcerts
    subst hcerts
    rfl

/-- C6: after a successful join with both `ca.crt` and `ca.key` in place, `Etcd.Run` goes on
to `setupCerts` in the file system it was called in, with `--initial-cluster=` (the members
of the response joined by commas) and `--initial-cluster-state=existing` appended to the
base arguments.  It calls neither `WriteFile` nor `Chown`, so no error comes from the CA
files; and when `setupCerts` succeeds the supervisor is started with these arguments and its
result is the result of `Run`. -/
theorem C6_existing_ca_pair_is_not_written (env : Env) (e : Etcd) (w : World) (name : String)
    (cfg : EtcdConfig) (jc : token.JoinClient) (k : Nat) (hk : k < 20)
    (hstate : e.joins env w name cfg jc) (hjoin : jc.succeedsAfter cfg.peerURL k)
    (hcrt : util.FileExists w.fs e.etcdCaCert = true)
    (hkey : util.FileExists w.fs e.etcdCaCertKey = true) :
    e.Run env w =
        e.start env (e.baseArgs name cfg.peerURL ++
            ["--initial-cluster=" ++
                strings.Join (jc.JoinEtcd k cfg.peerURL).1.InitialCluster ",",
              "--initial-cluster-state=existing"])
          ⟨w.fs, w.trace ++ joinTrace cfg.peerURL k⟩ ∧
      (∃ rest, (e.Run env w).1.trace = w.trace ++ joinTrace cfg.peerURL k ++ rest ∧
        ∀ ev ∈ rest, ev.isWrite = false ∧ ev.isChown = false) ∧
      ((e.setupCerts env ⟨w.fs, w.trace ++ joinTrace cfg.peerURL k⟩).2 = .returned none →
        ∃ s, Event.supervise s ∈ (e.Run env w).1.trace ∧
          s.Args = e.baseArgs name cfg.peerURL ++
            ["--initial-cluster=" ++
                strings.Join (jc.JoinEtcd k cfg.peerURL).1.InitialCluster ",",
              "--initial-cluster-state=existing"] ∧
          (e.Run env w).2.2 = .returned (env.supervise s)) := by
  have hrun : e.Run env w =
      e.start env (e.baseArgs name cfg.peerURL ++
          ["--initial-cluster=" ++
              strings.Join (jc.JoinEtcd k cfg.peerURL).1.InitialCluster ",",
            "--initial-cluster-state=existing"])
        ⟨w.fs, w.trace ++ joinTrace cfg.peerURL k⟩ := by
    rw [Run_of_joins env e w name cfg jc k hk hstate hjoin]
    simp [Etcd.afterJoin, Etcd.writeCA, hcrt, hkey, Etcd.clusterArgs]
  refine ⟨hrun, ?_, ?_⟩
  · obtain ⟨rest, hw, hall⟩ := start_world env e
      (e.baseArgs name cfg.peerURL ++
        ["--initial-cluster=" ++ strings.Join (jc.JoinEtcd k cfg.peerURL).1.InitialCluster ",",
          "--initial-cluster-state=existing"])
      ⟨w.fs, w.trace ++ joinTrace cfg.peerURL k⟩
    refine ⟨rest, by rw [hrun, hw], ?_⟩
    intro ev hev
    rcases hall ev hev with h | ⟨s, rfl, _⟩
    · cases ev <;> simp_all [Event.isWrite, Event.isChown, Event.isCert]
    · exact ⟨rfl, rfl⟩
  · intro hcerts
    rw [hrun, start_of_certs_ok env e _ _ hcerts]
    exact ⟨_, by simp [World.log], rfl, rfl⟩

/-- C6 at a node that holds a CA pair and joins on the second call: no write, no chown, and
etcd is started with the two cluster arguments after the 16 base arguments. -/
theorem C6_witness :
    (Example.etcd (some (Example.client 1))).joins Example.env Example.withCA "node2"
        ⟨"10.0.0.3"⟩ (Example.client 1) ∧
      (Example.client 1).succeedsAfter (EtcdConfig.peerURL ⟨"10.0.0.3"⟩) 1 ∧
      util.FileExists Example.withCA.fs (Example.etcd (some (Example.client 1))).etcdCaCert = true ∧
      util.FileExists Example.withCA.fs
        (Example.etcd (some (Example.client 1))).etcdCaCertKey = true ∧
      (∃ rest, ((Example.etcd (some (Example.client 1))).Run Example.env Example.withCA).1.trace =
          Example.withCA.trace ++ joinTrace (EtcdConfig.peerURL ⟨"10.0.0.3"⟩) 1 ++ rest ∧
        ∀ ev ∈ rest, ev.isWrite = false ∧ ev.isChown = false) ∧
      ((Example.etcd (some (Example.client 1))).Run Example.env Example.withCA).1.trace.getLast? =
        some (.supervise
          { Name := "etcd", BinPath := "/var/lib/k0s/bin/etcd", RunDir := "/run/k0s",
            DataDir := "/var/lib/k0s",
            Args :=
              [ "--data-dir=/var/lib/k0s/etcd",
                "--listen-client-urls=https://127.0.0.1:2379",
                "--advertise-client-urls=https://127.0.0.1:2379",
                "--client-cert-auth=true",
                "--listen-peer-urls=https://10.0.0.3:2380",
                "--initial-advertise-peer-urls=https://10.0.0.3:2380",
                "--name=node2",
                "--trusted-ca-file=/var/lib/k0s/pki/etcd/ca.crt",
                "--cert-file=/var/lib/k0s/pki/etcd/server.crt",
                "--key-file=/var/lib/k0s/pki/etcd/server.key",
                "--peer-trusted-ca-file=/var/lib/k0s/pki/etcd/ca.crt",
                "--peer-key-file=/var/lib/k0s/pki/etcd/peer.key",
                "--peer-cert-file=/var/lib/k0s/pki/etcd/peer.crt",
                "--log-level=info",
                "--peer-client-cert-auth=true",
                "--enable-pprof=false",
                "--initial-cluster=a=https://10.0.0.1:2380,b=https://10.0.0.2:2380",
                "--initial-cluster-state=existing" ],
            UID := 995, GID := 0 }) ∧
      ((Example.etcd (some (Example.client 1))).Run Example.env Example.withCA).2.2 =
        .returned none :=
  have hs : (Example.etcd (some (Example.client 1))).joins Example.env Example.withCA "node2"
      ⟨"10.0.0.3"⟩ (Example.client 1) := ⟨rfl, rfl, rfl, rfl, by decide⟩
  have hj : (Example.client 1).succeedsAfter (EtcdConfig.peerURL ⟨"10.0.0.3"⟩) 1 := by
    unfold token.JoinClient.succeedsAfter; decide
  ⟨hs, hj, by decide, by decide,
    (C6_existing_ca_pair_is_not_written Example.env _ Example.withCA "node2" ⟨"10.0.0.3"⟩
      (Example.client 1) 1 (by decide) hs hj (by decide) (by decide)).2.1,
    by set_option maxRecDepth 100000 in decide, by decide⟩

/-- The data base check leaves the directories of the component alone. -/
theorem afterDbCheck_K0sVars (e : Etcd) (w : World) : (e.afterDbCheck w).K0sVars = e.K0sVars := by
  unfold Etcd.afterDbCheck; split <;> rfl

/-- With both CA files in place `Run` leaves the file system as it was. -/
theorem Run_fs_of_ca_present (env : Env) (e : Etcd) (w : World)
    (hcrt : util.FileExists w.fs e.etcdCaCert = true)
    (hkey : util.FileExists w.fs e.etcdCaCertKey = true) :
    (e.Run env w).1.fs = w.fs := by
  have hK := afterDbCheck_K0sVars e w
  have hcrt2 : ∀ tr, util.FileExists (World.mk w.fs tr).fs (e.afterDbCheck w).etcdCaCert = true := by
    intro tr; simpa [Etcd.etcdCaCert, hK] using hcrt
  have hkey2 : ∀ tr, util.FileExists (World.mk w.fs tr).fs (e.afterDbCheck w).etcdCaCertKey = true := by
    intro tr; simpa [Etcd.etcdCaCertKey, hK] using hkey
  unfold Etcd.Run
  cases hh : env.hostname with
  | mk name herr =>
    cases herr with
    | some err => rfl
    | none =>
      cases hc : e.Config with
      | none => rfl
      | some cfg =>
        simp only
        cases hJ : (e.afterDbCheck w).Join with
        | false =>
          obtain ⟨rest, hw, _⟩ := start_world env (e.afterDbCheck w) (e.baseArgs name cfg.peerURL) w
          simp [hw]
        | true =>
          simp only [if_true]
          cases hjc : (e.afterDbCheck w).JoinClient with
          | none => rfl
          | some jc =>
            dsimp only
            obtain ⟨r1, h1, _⟩ := joinLoop_world jc cfg.peerURL 20 0 EtcdResponse.zero none w
            cases hl : Etcd.joinLoop jc cfg.peerURL 20 0 EtcdResponse.zero none w with
            | mk w1 rest1 =>
              obtain ⟨resp, err⟩ := rest1
              rw [hl] at h1
              simp only at h1
              subst h1
              cases err with
              | some err => rfl
              | none =>
                simp only
                unfold Etcd.afterJoin
                rw [writeCA_of_present env _ resp ⟨w.fs, w.trace ++ r1⟩ (hcrt2 _) (hkey2 _)]
                obtain ⟨r2, h2, _⟩ := start_world env (e.afterDbCheck w)
                  (e.baseArgs name cfg.peerURL ++ Etcd.clusterArgs resp) ⟨w.fs, w.trace ++ r1⟩
                simp [h2]

/-- C7 (as stated, refuted): with `ca.key` present and `ca.crt` absent, a join that succeeds
replaces the bytes of the existing `ca.key` by those of the response. -/
theorem C7_lone_ca_key_is_overwritten :
    (Example.etcd (some (Example.client 0))).etcdCaCertKey = "/var/lib/k0s/pki/etcd/ca.key" ∧
      Example.withKeyOnly.fs "/var/lib/k0s/pki/etcd/ca.key" = some ⟨[2], 0o600⟩ ∧
      ((Example.etcd (some (Example.client 0))).Run Example.env Example.withKeyOnly).2.2 =
        .returned none ∧
      (((Example.etcd (some (Example.client 0))).Run Example.env Example.withKeyOnly).1.fs
        "/var/lib/k0s/pki/etcd/ca.key").map File.data = some [107, 101, 121] := by
  decide

/-- C7 (amended): in every file system state in which both `ca.key` and `ca.crt` exist, a
successful join leaves both files as they were.  `Etcd.Run` goes on to `setupCerts` in a
file system that holds the same `ca.key` and the same `ca.crt`, and in the whole of `Run`
there is no call of `WriteFile`. -/
theorem C7_existing_ca_pair_is_unchanged (env : Env) (e : Etcd) (w : World) (name : String)
    (cfg : EtcdConfig) (jc : token.JoinClient) (k : Nat) (hk : k < 20)
    (hstate : e.joins env w name cfg jc) (hjoin : jc.succeedsAfter cfg.peerURL k)
    (hcrt : util.FileExists w.fs e.etcdCaCert = true)
    (hkey : util.FileExists w.fs e.etcdCaCertKey = true) :
    (∃ args joined, e.Run env w = e.start env args joined ∧
        joined.fs e.etcdCaCertKey = w.fs e.etcdCaCertKey ∧
        joined.fs e.etcdCaCert = w.fs e.etcdCaCert) ∧
      ∃ rest, (e.Run env w).1.trace = w.trace ++ rest ∧ ∀ ev ∈ rest, ev.isWrite = false := by
  have hrun : e.Run env w =
      e.start env (e.baseArgs name cfg.peerURL ++ Etcd.clusterArgs (jc.JoinEtcd k cfg.peerURL).1)
        ⟨w.fs, w.trace ++ joinTrace cfg.peerURL k⟩ := by
    rw [Run_of_joins env e w name cfg jc k hk hstate hjoin]
    simp [Etcd.afterJoin, Etcd.writeCA, hcrt, hkey]
  refine ⟨⟨_, _, hrun, rfl, rfl⟩, ?_⟩
  obtain ⟨rest, hw, hall⟩ := start_world env e
    (e.baseArgs name cfg.peerURL ++ Etcd.clusterArgs (jc.JoinEtcd k cfg.peerURL).1)
    ⟨w.fs, w.trace ++ joinTrace cfg.peerURL k⟩
  refine ⟨joinTrace cfg.peerURL k ++ rest, by rw [hrun, hw]; simp, ?_⟩
  intro ev hev
  rcases List.mem_append.1 hev with h | h
  · simp only [joinTrace, List.mem_append, List.mem_singleton] at h
    rcases h with h | rfl
    · rcases mem_retryTrace _ _ _ h with rfl | rfl <;> rfl
    · rfl
  · rcases hall ev h with h | ⟨s, rfl, _⟩
    · cases ev <;> simp_all [Event.isWrite, Event.isCert]
    · rfl

/-- C7 (amended) at a node that holds a CA pair: the events of `Run` are the call of
`JoinEtcd`, the four calls of the certificate manager and the start of etcd. -/
theorem C7_witness :
    (Example.etcd (some (Example.client 0))).joins Example.env Example.withCA "node2"
        ⟨"10.0.0.3"⟩ (Example.client 0) ∧
      (Example.client 0).succeedsAfter (EtcdConfig.peerURL ⟨"10.0.0.3"⟩) 0 ∧
      util.FileExists Example.withCA.fs (Example.etcd (some (Example.client 0))).etcdCaCert = true ∧
      util.FileExists Example.withCA.fs
        (Example.etcd (some (Example.client 0))).etcdCaCertKey = true ∧
      ((Example.etcd (some (Example.client 0))).Run Example.env Example.withCA).1.trace.map
          Event.isWrite = [false, false, false, false, false, false] ∧
      ∃ rest, ((Example.etcd (some (Example.client 0))).Run Example.env Example.withCA).1.trace =
        Example.withCA.trace ++ rest ∧ ∀ ev ∈ rest, ev.isWrite = false :=
  have hs : (Example.etcd (some (Example.client 0))).joins Example.env Example.withCA "node2"
      ⟨"10.0.0.3"⟩ (Example.client 0) := ⟨rfl, rfl, rfl, rfl, by decide⟩
  have hj : (Example.client 0).succeedsAfter (EtcdConfig.peerURL ⟨"10.0.0.3"⟩) 0 := by
    unfold token.JoinClient.succeedsAfter; decide
  ⟨hs, hj, by decide, by decide, by decide,
    (C7_existing_ca_pair_is_unchanged Example.env _ Example.withCA "node2" ⟨"10.0.0.3"⟩
      (Example.client 0) 0 (by decide) hs hj (by decide) (by decide)).2⟩

/-- The retry loop only calls `JoinEtcd` and sleeps. -/
theorem joinLoop_events (jc : token.JoinClient) (url : String) :
    ∀ (remaining i : Nat) (resp : EtcdResponse) (err : Option GoError) (w : World),
      ∃ rest, (Etcd.joinLoop jc url remaining i resp err w).1 = ⟨w.fs, w.trace ++ rest⟩ ∧
        ∀ ev ∈ rest, ev.isJoin = true ∨ ev.isSleep = true := by
  intro remaining
  induction remaining with
  | zero => intro i resp err w; exact ⟨[], by simp [Etcd.joinLoop], by simp⟩
  | succ r ih =>
    intro i resp err w
    cases hres : jc.JoinEtcd i url with
    | mk a b =>
      cases b with
      | none =>
        exact ⟨[.joinEtcd url], by simp [Etcd.joinLoop, hres, World.log], by simp [Event.isJoin]⟩
      | some e0 =>
        obtain ⟨rest, hw, hall⟩ := ih (i + 1) a (some e0)
          ((w.log (.joinEtcd url)).log (.sleep 500))
        refine ⟨.joinEtcd url :: .sleep 500 :: rest, ?_, ?_⟩
        · simp only [Etcd.joinLoop, hres]
          rw [hw]
          simp [World.log]
        · intro ev hev
          simp only [List.mem_cons] at hev
          rcases hev with rfl | rfl | h
          · exact Or.inl rfl
          · exact Or.inr rfl
          · exact hall ev h

/-- Every supervisor start of `Run` has the base arguments, alone or followed by the cluster
arguments of some response. -/
theorem Run_world (env : Env) (e : Etcd) (w : World) :
    ∃ rest, (e.Run env w).1.trace = w.trace ++ rest ∧
      ∀ s, Event.supervise s ∈ rest →
        ∃ name url, s.Args = e.baseArgs name url ∨
          ∃ resp, s.Args = e.baseArgs name url ++ Etcd.clusterArgs resp := by
  unfold Etcd.Run
  cases hh : env.hostname with
  | mk name herr =>
    cases herr with
    | some err => exact ⟨[], by simp, by simp⟩
    | none =>
      cases hc : e.Config with
      | none => exact ⟨[], by simp, by simp⟩
      | some cfg =>
        simp only
        cases hJ : (e.afterDbCheck w).Join with
        | false =>
          obtain ⟨rest, hw, hall⟩ := start_world env (e.afterDbCheck w)
            (e.baseArgs name cfg.peerURL) w
          refine ⟨rest, by simp [hw], ?_⟩
          intro s hs
          rcases hall _ hs with h | ⟨s2, h2, hargs⟩
          · simp [Event.isCert] at h
          · cases h2
            exact ⟨name, cfg.peerURL, Or.inl hargs⟩
        | true =>
          simp only [if_true]
          cases hjc : (e.afterDbCheck w).JoinClient with
          | none => exact ⟨[], by simp, by simp⟩
          | some jc =>
            dsimp only
            obtain ⟨r1, h1, hall1⟩ := joinLoop_events jc cfg.peerURL 20 0 EtcdResponse.zero none w
            have hno : ∀ s, Event.supervise s ∉ r1 := by
              intro s hs
              rcases hall1 _ hs with h | h <;> simp [Event.isJoin, Event.isSleep] at h
            cases hl : Etcd.joinLoop jc cfg.peerURL 20 0 EtcdResponse.zero none w with
            | mk w1 rest1 =>
              obtain ⟨resp, err⟩ := rest1
              rw [hl] at h1
              simp only at h1
              subst h1
              cases err with
              | some err => exact ⟨r1, rfl, fun s hs => absurd hs (hno s)⟩
              | none =>
                obtain ⟨r2, h2, hall2⟩ := afterJoin_world env (e.afterDbCheck w)
                  (e.baseArgs name cfg.peerURL) resp ⟨w.fs, w.trace ++ r1⟩
                refine ⟨r1 ++ r2, by simp [h2], ?_⟩
                intro s hs
                rcases List.mem_append.1 hs with h | h
                · exact absurd h (hno s)
                · rcases hall2 _ h with (h | h | h) | ⟨s2, h2, hargs⟩
                  · simp [Event.isWrite] at h
                  · simp [Event.isChown] at h
                  · simp [Event.isCert] at h
                  · cases h2
                    exact ⟨name, cfg.peerURL, Or.inr ⟨resp, hargs⟩⟩

/-- A continuation that returns nil has ended with the supervisor start. -/
theorem afterJoin_returned_none (env : Env) (e : Etcd) (args : List String) (resp : EtcdResponse)
    (w : World) (hret : (e.afterJoin env args resp w).2.2 = .returned none) :
    ∃ pre, (e.afterJoin env args resp w).1.trace =
      w.trace ++ (pre ++ [Event.supervise (e.newSupervisor env (args ++ Etcd.clusterArgs resp))]) := by
  obtain ⟨r1, h1, _⟩ := writeCA_world env e resp w
  unfold Etcd.afterJoin at hret ⊢
  cases hres : e.writeCA env resp w with
  | mk w1 err =>
    rw [hres] at h1 hret
    simp only at h1
    cases err with
    | some err => simp at hret
    | none =>
      simp only at hret ⊢
      obtain ⟨r2, h2, _⟩ := setupCerts_world env e w1
      unfold Etcd.start at hret ⊢
      cases hs : e.setupCerts env w1 with
      | mk w2 out =>
        rw [hs] at h2 hret
        simp only at h2
        subst h2
        cases out with
        | panicked => simp at hret
        | returned err2 =>
          cases err2 with
          | some err2 => simp at hret
          | none => exact ⟨r1 ++ r2, by simp [World.log, h1]⟩

/-- Two strings of which only one starts with `pre` are different. -/
theorem ne_of_startsWith (a b pre : String) (ha : startsWith a pre = false)
    (hb : startsWith b pre = true) : a ≠ b := by
  intro h
  rw [h, hb] at ha
  cases ha

/-- The argument `--initial-cluster-state=new` is in no argument list `Run` builds. -/
theorem new_cluster_flag_not_in_args (e : Etcd) (name url : String) (resp : EtcdResponse) :
    "--initial-cluster-state=new" ∉ e.baseArgs name url ∧
      "--initial-cluster-state=new" ∉ e.baseArgs name url ++ Etcd.clusterArgs resp := by
  have hbase : "--initial-cluster-state=new" ∉ e.baseArgs name url := by
    intro hmem
    exact ne_of_startsWith _ _ "--initial-cluster" (baseArgs_no_cluster_flag e name url _ hmem)
      (by decide) rfl
  refine ⟨hbase, ?_⟩
  intro hmem
  rcases List.mem_append.1 hmem with h | h
  · exact hbase h
  · simp only [Etcd.clusterArgs, List.mem_cons, List.not_mem_nil, or_false] at h
    rcases h with h | h
    · exact ne_of_startsWith _ _ "--initial-cluster-"
        (startsWith_append_of_mismatch "--initial-cluster=" _ "--initial-cluster-" (by decide))
        (by decide) h.symm
    · exact absurd h (by decide)

/-- C8: after a successful join that returned the member list `L`, the arguments of every
supervisor start are the 16 base arguments, then `--initial-cluster=` followed by `L` joined
with commas in the received order, then `--initial-cluster-state=existing`, and a `Run` that
returns nil has started the supervisor.  For every input, no supervisor start of `Etcd.Run`
has the argument `--initial-cluster-state=new`.  The two members of the example give
`--initial-cluster=a=https://10.0.0.1:2380,b=https://10.0.0.2:2380`. -/
theorem C8_supervisor_gets_existing_cluster_args (env : Env) (e : Etcd) (w : World) :
    (∀ (name : String) (cfg : EtcdConfig) (jc : token.JoinClient) (k : Nat), k < 20 →
        e.joins env w name cfg jc → jc.succeedsAfter cfg.peerURL k →
        (e.baseArgs name cfg.peerURL).length = 16 ∧
        ∃ rest, (e.Run env w).1.trace = w.trace ++ rest ∧
          (∀ s, Event.supervise s ∈ rest →
            s.Args = e.baseArgs name cfg.peerURL ++
              ["--initial-cluster=" ++
                  strings.Join (jc.JoinEtcd k cfg.peerURL).1.InitialCluster ",",
                "--initial-cluster-state=existing"]) ∧
          ((e.Run env w).2.2 = .returned none → ∃ s, Event.supervise s ∈ rest)) ∧
      (∃ rest, (e.Run env w).1.trace = w.trace ++ rest ∧
        ∀ s, Event.supervise s ∈ rest → "--initial-cluster-state=new" ∉ s.Args) ∧
      ∀ ca : CAResponse,
        Etcd.clusterArgs ⟨ca, ["a=https://10.0.0.1:2380", "b=https://10.0.0.2:2380"]⟩ =
          ["--initial-cluster=a=https://10.0.0.1:2380,b=https://10.0.0.2:2380",
            "--initial-cluster-state=existing"] := by
  refine ⟨?_, ?_, fun ca => rfl⟩
  · intro name cfg jc k hk hstate hjoin
    have hrun := Run_of_joins env e w name cfg jc k hk hstate hjoin
    obtain ⟨r2, h2, hall2⟩ := afterJoin_world env e (e.baseArgs name cfg.peerURL)
      (jc.JoinEtcd k cfg.peerURL).1 ⟨w.fs, w.trace ++ joinTrace cfg.peerURL k⟩
    refine ⟨rfl, joinTrace cfg.peerURL k ++ r2, ?_, ?_, ?_⟩
    · rw [hrun, h2, List.append_assoc]
    · intro s hs
      rcases List.mem_append.1 hs with h | h
      · simp only [joinTrace, List.mem_append, List.mem_singleton] at h
        rcases h with h | h
        · rcases mem_retryTrace _ _ _ h with h | h <;> cases h
        · cases h
      · rcases hall2 _ h with (h | h | h) | ⟨s2, h2, hargs⟩
        · simp [Event.isWrite] at h
        · simp [Event.isChown] at h
        · simp [Event.isCert] at h
        · cases h2
          exact hargs
    · intro hret
      rw [hrun] at hret
      obtain ⟨pre, hpre⟩ := afterJoin_returned_none env e _ _ _ hret
      rw [h2] at hpre
      have hr2 := List.append_cancel_left hpre
      exact ⟨e.newSupervisor env
        (e.baseArgs name cfg.peerURL ++ Etcd.clusterArgs (jc.JoinEtcd k cfg.peerURL).1),
        List.mem_append_right _ (by rw [hr2]; simp)⟩
  · obtain ⟨rest, hw, hall⟩ := Run_world env e w
    refine ⟨rest, hw, ?_⟩
    intro s hs
    obtain ⟨name, url, h | ⟨resp, h⟩⟩ := hall s hs
    · rw [h]; exact (new_cluster_flag_not_in_args e name url EtcdResponse.zero).1
    · rw [h]; exact (new_cluster_flag_not_in_args e name url resp).2

/-- C8 at a fresh node whose join endpoint answers the first call with two members. -/
theorem C8_witness :
    (Example.etcd (some (Example.client 0))).joins Example.env Example.fresh "node2" ⟨"10.0.0.3"⟩
        (Example.client 0) ∧
      (Example.client 0).succeedsAfter (EtcdConfig.peerURL ⟨"10.0.0.3"⟩) 0 ∧
      ((Example.etcd (some (Example.client 0))).Run Example.env Example.fresh).2.2 =
        .returned none ∧
      ∃ rest, ((Example.etcd (some (Example.client 0))).Run Example.env Example.fresh).1.trace =
          Example.fresh.trace ++ rest ∧
        (∀ s, Event.supervise s ∈ rest →
          s.Args = (Example.etcd (some (Example.client 0))).baseArgs "node2"
              (EtcdConfig.peerURL ⟨"10.0.0.3"⟩) ++
            ["--initial-cluster=" ++ strings.Join
                ((Example.client 0).JoinEtcd 0 (EtcdConfig.peerURL ⟨"10.0.0.3"⟩)).1.InitialCluster ",",
              "--initial-cluster-state=existing"]) ∧
        (((Example.etcd (some (Example.client 0))).Run Example.env Example.fresh).2.2 =
          .returned none → ∃ s, Event.supervise s ∈ rest) :=
  have hs : (Example.etcd (some (Example.client 0))).joins Example.env Example.fresh "node2"
      ⟨"10.0.0.3"⟩ (Example.client 0) := ⟨rfl, rfl, rfl, rfl, by decide⟩
  have hj : (Example.client 0).succeedsAfter (EtcdConfig.peerURL ⟨"10.0.0.3"⟩) 0 := by
    unfold token.JoinClient.succeedsAfter; decide
  ⟨hs, hj, by decide,
    ((C8_supervisor_gets_existing_cluster_args Example.env _ Example.fresh).1 "node2"
      ⟨"10.0.0.3"⟩ (Example.client 0) 0 (by decide) hs hj).2⟩

/-- Without root rights, or without a failing chown, the loop changes the owner of every file and
returns nil. -/
theorem chownLoop_all (env : Env) (uid gid : Int) :
    ∀ (files : List String) (w : World),
      (env.geteuid ≠ 0 ∨ files.findSome? env.chownErr = none) →
      Etcd.chownLoop env uid gid files w =
        (⟨w.fs, w.trace ++ files.map (fun f => Event.chown f uid gid)⟩, none) := by
  intro files
  induction files with
  | nil => intro w _; simp [Etcd.chownLoop]
  | cons f rest ih =>
    intro w h
    unfold Etcd.chownLoop
    cases hf : env.chownErr f with
    | none =>
      have h2 : env.geteuid ≠ 0 ∨ rest.findSome? env.chownErr = none := by
        rcases h with h | h
        · exact Or.inl h
        · right; simpa [List.findSome?, hf] using h
      simp only
      rw [ih _ h2]
      simp [World.log]
    | some err =>
      rcases h with h | h
      · simp only [h, if_false]
        rw [ih _ (Or.inl h)]
        simp [World.log]
      · simp [List.findSome?, hf] at h

/-- As root the loop returns the error of the first failing chown. -/
theorem chownLoop_root (env : Env) (uid gid : Int) (hroot : env.geteuid = 0) :
    ∀ (files : List String) (w : World),
      (Etcd.chownLoop env uid gid files w).2 = files.findSome? env.chownErr := by
  intro files
  induction files with
  | nil => intro w; rfl
  | cons f rest ih =>
    intro w
    unfold Etcd.chownLoop
    cases hf : env.chownErr f with
    | none => simp only [List.findSome?, hf]; exact ih _
    | some err => simp [List.findSome?, hf, hroot]

/-- C9 (as stated, refuted): a `ca.key` that is there with the permission bits `0600`, the
certificate being absent, is written with the bytes of the response and keeps the bits
`0600`; only the certificate, which is created, gets the bits of `constant.CertSecureMode`,
here `0640`. -/
theorem C9_existing_key_keeps_its_mode :
    Example.withKeyOnly.fs "/var/lib/k0s/pki/etcd/ca.key" = some ⟨[2], 0o600⟩ ∧
      Example.withKeyOnly.fs "/var/lib/k0s/pki/etcd/ca.crt" = none ∧
      Example.env.CertSecureMode = 0o640 ∧
      ((Example.etcd (some (Example.client 0))).Run Example.env Example.withKeyOnly).2.2 =
        .returned none ∧
      ((Example.etcd (some (Example.client 0))).Run Example.env Example.withKeyOnly).1.fs
        "/var/lib/k0s/pki/etcd/ca.key" = some ⟨[107, 101, 121], 0o600⟩ ∧
      ((Example.etcd (some (Example.client 0))).Run Example.env Example.withKeyOnly).1.fs
        "/var/lib/k0s/pki/etcd/ca.crt" = some ⟨[99, 114, 116], 0o640⟩ := by
  decide

/-- C9 (amended): when a successful join does not find both `ca.crt` and `ca.key`, `Etcd.Run`
calls `WriteFile` for `ca.key` with the bytes of `CA.Key` and then for `ca.crt` with the
bytes of `CA.Cert`, both with `constant.CertSecureMode`.  After the two writes each file
holds exactly these bytes; a file that was not there has the bits of `CertSecureMode` less
those of the umask, a file that was there keeps its bits.  `Run` then changes the owner of
the certificate directory and of both files to `e.uid`, `e.gid`.  A failing write ends `Run`
with its error, the file being untouched when it could not be opened and holding the bytes
written before the error otherwise; a failing chown ends `Run` with its error when the
effective user is root, and is passed over otherwise. -/
theorem C9_ca_is_written_key_first (env : Env) (e : Etcd) (w : World) (name : String)
    (cfg : EtcdConfig) (jc : token.JoinClient) (k : Nat) (hk : k < 20)
    (hstate : e.joins env w name cfg jc) (hjoin : jc.succeedsAfter cfg.peerURL k)
    (hnot : ¬ (util.FileExists w.fs e.etcdCaCert = true ∧
      util.FileExists w.fs e.etcdCaCertKey = true)) :
    let resp := (jc.JoinEtcd k cfg.peerURL).1
    let writeKey := Event.writeFile e.etcdCaCertKey resp.CA.Key env.CertSecureMode
    let writeCrt := Event.writeFile e.etcdCaCert resp.CA.Cert env.CertSecureMode
    let tr := w.trace ++ joinTrace cfg.peerURL k
    let mode := env.CertSecureMode - (env.CertSecureMode &&& env.umask)
    let fs1 := FS.write w.fs e.etcdCaCertKey resp.CA.Key mode
    let fs2 := FS.write fs1 e.etcdCaCert resp.CA.Cert mode
    (∀ err, env.writeFileErr e.etcdCaCertKey = some err →
        e.Run env w =
          (⟨match env.written e.etcdCaCertKey with
            | none => w.fs
            | some n => FS.write w.fs e.etcdCaCertKey (resp.CA.Key.take n) mode,
            tr ++ [writeKey]⟩, e, .returned (some err))) ∧
      (∀ err, env.writeFileErr e.etcdCaCertKey = none →
        env.writeFileErr e.etcdCaCert = some err →
        e.Run env w =
          (⟨match env.written e.etcdCaCert with
            | none => fs1
            | some n => FS.write fs1 e.etcdCaCert (resp.CA.Cert.take n) mode,
            tr ++ [writeKey, writeCrt]⟩, e, .returned (some err))) ∧
      (env.writeFileErr e.etcdCaCertKey = none → env.writeFileErr e.etcdCaCert = none →
        (∀ err, env.geteuid = 0 → e.caFiles.findSome? env.chownErr = some err →
          (e.Run env w).2.2 = .returned (some err) ∧
          ∃ chowns, (e.Run env w).1 = ⟨fs2, tr ++ [writeKey, writeCrt] ++ chowns⟩ ∧
            ∀ ev ∈ chowns, ev.isChown = true) ∧
        ((env.geteuid ≠ 0 ∨ e.caFiles.findSome? env.chownErr = none) →
          e.Run env w =
            e.start env (e.baseArgs name cfg.peerURL ++ Etcd.clusterArgs resp)
              ⟨fs2, tr ++ [writeKey, writeCrt] ++
                e.caFiles.map (fun f => Event.chown f e.uid e.gid)⟩)) ∧
      (e.etcdCaCertKey ≠ e.etcdCaCert →
        fs2 e.etcdCaCertKey =
          some ⟨resp.CA.Key, match w.fs e.etcdCaCertKey with
                             | some f => f.mode
                             | none => mode⟩ ∧
        fs2 e.etcdCaCert =
          some ⟨resp.CA.Cert, match w.fs e.etcdCaCert with
                              | some f => f.mode
                              | none => mode⟩ ∧
        ∀ p, p ≠ e.etcdCaCertKey → p ≠ e.etcdCaCert → fs2 p = w.fs p) := by
  intro resp writeKey writeCrt tr mode fs1 fs2
  have hrun := Run_of_joins env e w name cfg jc k hk hstate hjoin
  have hcond : (util.FileExists w.fs e.etcdCaCert && util.FileExists w.fs e.etcdCaCertKey) =
      false := by
    cases h1 : util.FileExists w.fs e.etcdCaCert <;>
      cases h2 : util.FileExists w.fs e.etcdCaCertKey <;> simp_all
  refine ⟨?_, ?_, ?_, ?_⟩
  · intro err hkeyErr
    rw [hrun]
    cases hn : env.written e.etcdCaCertKey <;>
      simp [Etcd.afterJoin, Etcd.writeCA, hcond, ioutil.WriteFile, hkeyErr, hn, World.log, tr,
        writeKey, resp, mode, syscall.createMode]
  · intro err hkeyOk hcrtErr
    rw [hrun]
    cases hn : env.written e.etcdCaCert <;>
      simp [Etcd.afterJoin, Etcd.writeCA, hcond, ioutil.WriteFile, hkeyOk, hcrtErr, hn,
        World.log, tr, writeKey, writeCrt, resp, mode, fs1, syscall.createMode]
  · intro hkeyOk hcrtOk
    have hwrite : e.writeCA env resp ⟨w.fs, tr⟩ =
        Etcd.chownLoop env e.uid e.gid e.caFiles ⟨fs2, tr ++ [writeKey, writeCrt]⟩ := by
      simp [Etcd.writeCA, hcond, ioutil.WriteFile, hkeyOk, hcrtOk, World.log, Etcd.caFiles, fs2,
        fs1, mode, writeKey, writeCrt, syscall.createMode]
    refine ⟨?_, ?_⟩
    · intro err hroot hfail
      obtain ⟨chowns, hw, hall⟩ := chownLoop_world env e.uid e.gid e.caFiles
        ⟨fs2, tr ++ [writeKey, writeCrt]⟩
      have herr := chownLoop_root env e.uid e.gid hroot e.caFiles
        ⟨fs2, tr ++ [writeKey, writeCrt]⟩
      rw [hfail] at herr
      rw [hrun]
      unfold Etcd.afterJoin
      rw [hwrite]
      cases hl : Etcd.chownLoop env e.uid e.gid e.caFiles ⟨fs2, tr ++ [writeKey, writeCrt]⟩ with
      | mk w3 err3 =>
        rw [hl] at hw herr
        simp only at hw herr
        subst hw herr
        exact ⟨rfl, chowns, rfl, hall⟩
    · intro hpass
      rw [hrun]
      unfold Etcd.afterJoin
      rw [hwrite, chownLoop_all env e.uid e.gid e.caFiles _ hpass]
  · intro hne
    have hne2 : ¬ e.etcdCaCert = e.etcdCaCertKey := fun h => hne h.symm
    refine ⟨?_, ?_, ?_⟩
    · simp [fs2, fs1, FS.write, hne]
    · simp [fs2, fs1, FS.write, hne2]
    · intro p hp1 hp2
      simp [fs2, fs1, FS.write, hp1, hp2]

/-- C9 (amended) at a fresh node: key, certificate, then the three chowns, then the start of
etcd, and both files are created with the bits `0640`. -/
theorem C9_witness :
    (Example.etcd (some (Example.client 0))).joins Example.env Example.fresh "node2" ⟨"10.0.0.3"⟩
        (Example.client 0) ∧
      (Example.client 0).succeedsAfter (EtcdConfig.peerURL ⟨"10.0.0.3"⟩) 0 ∧
      ¬ (util.FileExists Example.fresh.fs (Example.etcd (some (Example.client 0))).etcdCaCert = true ∧
        util.FileExists Example.fresh.fs
          (Example.etcd (some (Example.client 0))).etcdCaCertKey = true) ∧
      (Example.etcd (some (Example.client 0))).Run Example.env Example.fresh =
        (Example.etcd (some (Example.client 0))).start Example.env
          ((Example.etcd (some (Example.client 0))).baseArgs "node2" "https://10.0.0.3:2380" ++
            Etcd.clusterArgs Example.response)
          ⟨FS.write (FS.write Example.fresh.fs "/var/lib/k0s/pki/etcd/ca.key" [107, 101, 121]
                0o640)
              "/var/lib/k0s/pki/etcd/ca.crt" [99, 114, 116] 0o640,
            [.joinEtcd "https://10.0.0.3:2380",
              .writeFile "/var/lib/k0s/pki/etcd/ca.key" [107, 101, 121] 0o640,
              .writeFile "/var/lib/k0s/pki/etcd/ca.crt" [99, 114, 116] 0o640,
              .chown "/var/lib/k0s/pki/etcd" 995 0,
              .chown "/var/lib/k0s/pki/etcd/ca.key" 995 0,
              .chown "/var/lib/k0s/pki/etcd/ca.crt" 995 0]⟩ ∧
      ((Example.etcd (some (Example.client 0))).Run Example.env Example.fresh).1.fs
        "/var/lib/k0s/pki/etcd/ca.key" = some ⟨[107, 101, 121], 0o640⟩ ∧
      ((Example.etcd (some (Example.client 0))).Run Example.env Example.fresh).1.fs
        "/var/lib/k0s/pki/etcd/ca.crt" = some ⟨[99, 114, 116], 0o640⟩ ∧
      (Example.etcd (some (Example.client 0))).etcdCaCertKey ≠
        (Example.etcd (some (Example.client 0))).etcdCaCert ∧
      FS.write (FS.write Example.fresh.fs "/var/lib/k0s/pki/etcd/ca.key" [107, 101, 121] 0o640)
          "/var/lib/k0s/pki/etcd/ca.crt" [99, 114, 116] 0o640 "/var/lib/k0s/pki/etcd/ca.key" =
        some ⟨[107, 101, 121], 0o640⟩ :=
  have hs : (Example.etcd (some (Example.client 0))).joins Example.env Example.fresh "node2"
      ⟨"10.0.0.3"⟩ (Example.client 0) := ⟨rfl, rfl, rfl, rfl, by decide⟩
  have hj : (Example.client 0).succeedsAfter (EtcdConfig.peerURL ⟨"10.0.0.3"⟩) 0 := by
    unfold token.JoinClient.succeedsAfter; decide
  have hn : ¬ (util.FileExists Example.fresh.fs
        (Example.etcd (some (Example.client 0))).etcdCaCert = true ∧
      util.FileExists Example.fresh.fs
        (Example.etcd (some (Example.client 0))).etcdCaCertKey = true) := by decide
  ⟨hs, hj, hn,
    ((C9_ca_is_written_key_first Example.env _ Example.fresh "node2" ⟨"10.0.0.3"⟩
      (Example.client 0) 0 (by decide) hs hj hn).2.2.1 rfl rfl).2 (Or.inr rfl),
    by decide, by decide, by decide,
    ((C9_ca_is_written_key_first Example.env _ Example.fresh "node2" ⟨"10.0.0.3"⟩
      (Example.client 0) 0 (by decide) hs hj hn).2.2.2 (by decide)).1⟩

/-! ## `startController` -/

/-- With a token that does not decode the `if` block makes one decode call and returns the wrapped
error. -/
theorem joinBlock_of_bad_token (env : CtlEnv) (c : CmdOpts) (fs : FS) (tokenString : String)
    (err : GoError) (join : Bool) (tr : List CtlEvent) (htoken : tokenString ≠ "")
    (hneed : ¬ (util.FileExists fs (filepath.Join [c.K0sVars.CertRootDir, "ca.key"]) = true ∧
      util.FileExists fs (filepath.Join [c.K0sVars.CertRootDir, "ca.crt"]) = true))
    (hdecode : env.joinClientFromToken tokenString = .error err) :
    c.joinBlock env fs tokenString join tr =
      (tr ++ [.joinClientFromToken tokenString],
        .error (errors.Wrap err "failed to create join client")) := by
  have hn : c.needToJoin fs = true := by
    unfold CmdOpts.needToJoin
    cases h1 : util.FileExists fs (filepath.Join [c.K0sVars.CertRootDir, "ca.key"]) <;>
      cases h2 : util.FileExists fs (filepath.Join [c.K0sVars.CertRootDir, "ca.crt"]) <;>
      simp_all
  simp [CmdOpts.joinBlock, htoken, hn, hdecode]

/-- C4: a non-empty token that `token.JoinClientFromToken` cannot decode, on a node that
needs to join, makes `startController` return an error after at most one decode attempt and
without any call that registers, initialises or starts a component; once the two directories
are there, the calls made are exactly the two `InitDirectory` and one decode, and the error
is the decode error wrapped in "failed to create join client". -/
theorem C4_undecodable_token_fails_at_once (env : CtlEnv) (c : CmdOpts) (fs : FS)
    (tokenString : String) (err : GoError) (htoken : tokenString ≠ "")
    (hneed : ¬ (util.FileExists fs (filepath.Join [c.K0sVars.CertRootDir, "ca.key"]) = true ∧
      util.FileExists fs (filepath.Join [c.K0sVars.CertRootDir, "ca.crt"]) = true))
    (hdecode : env.joinClientFromToken tokenString = .error err) :
    (c.startController env fs tokenString).2 ≠ none ∧
      (c.startController env fs tokenString).1.countP CtlEvent.isDecode ≤ 1 ∧
      (∀ ev ∈ (c.startController env fs tokenString).1, ev.onComponents = false) ∧
      (env.initDirectoryErr c.K0sVars.DataDir = none →
        env.initDirectoryErr c.K0sVars.CertRootDir = none →
        c.startController env fs tokenString =
          ([.initDirectory c.K0sVars.DataDir env.DataDirMode,
            .initDirectory c.K0sVars.CertRootDir env.CertRootDirMode,
            .joinClientFromToken tokenString],
            some (errors.Wrap err "failed to create join client"))) := by
  unfold CmdOpts.startController
  cases h1 : env.initDirectoryErr c.K0sVars.DataDir with
  | some e1 => simp [CtlEvent.isDecode, CtlEvent.onComponents]
  | none =>
    cases h2 : env.initDirectoryErr c.K0sVars.CertRootDir with
    | some e2 => simp [CtlEvent.isDecode, CtlEvent.onComponents]
    | none =>
      simp only [joinBlock_of_bad_token env c fs tokenString err _ _ htoken hneed hdecode]
      simp [CtlEvent.isDecode, CtlEvent.onComponents]

/-- C4 at a fresh node given the token `"not-a-token"`. -/
theorem C4_witness :
    ("not-a-token" : String) ≠ "" ∧
      ¬ (util.FileExists Example.fresh.fs
          (filepath.Join [Example.opts.K0sVars.CertRootDir, "ca.key"]) = true ∧
        util.FileExists Example.fresh.fs
          (filepath.Join [Example.opts.K0sVars.CertRootDir, "ca.crt"]) = true) ∧
      Example.ctlEnv.joinClientFromToken "not-a-token" =
        .error ⟨"illegal base64 data at input byte 3"⟩ ∧
      Example.opts.startController Example.ctlEnv Example.fresh.fs "not-a-token" =
        ([.initDirectory "/var/lib/k0s" 0o755, .initDirectory "/var/lib/k0s/pki" 0o751,
          .joinClientFromToken "not-a-token"],
          some ⟨"failed to create join client: illegal base64 data at input byte 3"⟩) :=
  ⟨by decide, by decide, rfl,
    (C4_undecodable_token_fails_at_once Example.ctlEnv Example.opts Example.fresh.fs
      "not-a-token" ⟨"illegal base64 data at input byte 3"⟩ (by decide) (by decide) rfl).2.2.2
      rfl rfl⟩

/-- The end of `startController` registers no component. -/
theorem initAndRun_events (env : CtlEnv) (tr : List CtlEvent) :
    ∃ extra, (CmdOpts.initAndRun env tr).1 = tr ++ extra ∧
      ∀ ev ∈ extra, ev.isAdd = false := by
  unfold CmdOpts.initAndRun
  cases env.managerInit with
  | some err => exact ⟨[.managerInit], by simp, by simp [CtlEvent.isAdd]⟩
  | none =>
    cases env.managerStart with
    | some err =>
      exact ⟨[.managerInit, .managerStart, .createClusterReconcilers, .waitDone,
        .reconcilersStop, .managerStop], by simp, by simp [CtlEvent.isAdd]⟩
    | none =>
      cases env.enableWorker with
      | false =>
        exact ⟨[.managerInit, .managerStart, .createClusterReconcilers, .reconcilersRun,
          .waitDone, .reconcilersStop, .managerStop], by simp, by simp [CtlEvent.isAdd]⟩
      | true =>
        cases env.workerResult with
        | some err =>
          exact ⟨[.managerInit, .managerStart, .createClusterReconcilers, .reconcilersRun,
            .enableControllerWorker env.controllerWorkerProfile, .managerStop], by simp,
            by simp [CtlEvent.isAdd]⟩
        | none =>
          exact ⟨[.managerInit, .managerStart, .createClusterReconcilers, .reconcilersRun,
            .enableControllerWorker env.controllerWorkerProfile, .waitDone, .reconcilersStop,
            .managerStop], by simp, by simp [CtlEvent.isAdd]⟩

/-- None of the components added after the storage backend is a storage backend. -/
theorem otherComponents_not_storage (c : CmdOpts) (sb : StorageBackend) :
    ∀ comp ∈ c.otherComponents sb, comp.isStorage = false := by
  have hall : (c.otherComponents sb).all (fun x => !x.isStorage) = true := by
    unfold CmdOpts.otherComponents
    by_cases hext : c.ClusterConfig.Spec.API.ExternalAddress = "" <;>
      cases hT : c.ClusterConfig.Telemetry.Enabled <;>
      simp [hext, hT, Component.isStorage]
  intro comp hcomp
  simpa using List.all_eq_true.1 hall comp hcomp

/-- The `if` block registers components with `AddSync` only. -/
theorem joinBlock_events (env : CtlEnv) (c : CmdOpts) (fs : FS) (tokenString : String)
    (join : Bool) (tr : List CtlEvent) :
    ∃ extra, (c.joinBlock env fs tokenString join tr).1 = tr ++ extra ∧
      ∀ ev ∈ extra, ev.isAdd = false := by
  unfold CmdOpts.joinBlock
  split
  · cases env.joinClientFromToken tokenString with
    | error err => exact ⟨[.joinClientFromToken tokenString], by simp, by simp [CtlEvent.isAdd]⟩
    | ok jc =>
      exact ⟨[.joinClientFromToken tokenString, .addSync (.CASyncer (some jc) c.K0sVars)],
        by simp, by simp [CtlEvent.isAdd]⟩
  · exact ⟨[], by simp, by simp⟩

/-- The Etcd backend built by the `switch` carries the `join` and `joinClient` it is given. -/
theorem storageBackend_etcd (env : CtlEnv) (c : CmdOpts) (cm : certificate.Manager)
    (join : Bool) (joinClient : Option token.JoinClient) (e : Etcd)
    (h : c.storageBackend env cm join joinClient = .ok (.Etcd e)) :
    e.Join = join ∧ e.JoinClient = joinClient := by
  unfold CmdOpts.storageBackend at h
  dsimp only at h
  split_ifs at h
  · cases h
  · injection h with h
    injection h with h
    subst h
    exact ⟨rfl, rfl⟩

/-- C10 (what the code does): every Etcd storage backend that `startController` registers
has a nil `JoinClient`, whatever the token and also when `Join` is true: the client decoded
inside the `if` block is a variable of that block and the outer `joinClient` stays nil. -/
theorem C10_etcd_backend_has_nil_join_client (env : CtlEnv) (c : CmdOpts) (fs : FS)
    (tokenString : String) (e : Etcd)
    (hadd : CtlEvent.add (.Storage (.Etcd e)) ∈ (c.startController env fs tokenString).1) :
    e.JoinClient = none := by
  unfold CmdOpts.startController at hadd
  cases h1 : env.initDirectoryErr c.K0sVars.DataDir with
  | some e1 => simp [h1] at hadd
  | none =>
    cases h2 : env.initDirectoryErr c.K0sVars.CertRootDir with
    | some e2 => simp [h1, h2] at hadd
    | none =>
      simp only [h1, h2] at hadd
      obtain ⟨x1, hx1, hall1⟩ := joinBlock_events env c fs tokenString false
        [.initDirectory c.K0sVars.DataDir env.DataDirMode,
          .initDirectory c.K0sVars.CertRootDir env.CertRootDirMode]
      have hno1 : ∀ comp, CtlEvent.add comp ∉ x1 := by
        intro comp hm; have := hall1 _ hm; simp [CtlEvent.isAdd] at this
      cases hjb : c.joinBlock env fs tokenString false
          ([.initDirectory c.K0sVars.DataDir env.DataDirMode] ++
            [.initDirectory c.K0sVars.CertRootDir env.CertRootDirMode]) with
      | mk tr res =>
        simp only [List.singleton_append] at hjb
        rw [hjb] at hx1
        simp only at hx1
        subst hx1
        simp only [List.singleton_append, hjb] at hadd
        cases res with
        | error err =>
          simp only [List.mem_append, List.mem_cons, List.not_mem_nil, or_false] at hadd
          rcases hadd with (h | h) | h
          · cases h
          · cases h
          · exact absurd h (hno1 _)
        | ok join =>
          simp only at hadd
          cases hd : env.dnsAddress with
          | mk addr derr =>
            rw [hd] at hadd
            cases derr with
            | some err =>
              simp only [List.mem_append, List.mem_cons, List.not_mem_nil, or_false] at hadd
              rcases hadd with ((h | h) | h) | h
              · cases h
              · cases h
              · exact absurd h (hno1 _)
              · cases h
            | none =>
              simp only at hadd
              cases hsb : c.storageBackend env ⟨c.K0sVars⟩ join none with
              | error err =>
                rw [hsb] at hadd
                simp only [List.mem_append, List.mem_cons, List.not_mem_nil, or_false] at hadd
                rcases hadd with ((h | h) | h) | h
                · cases h
                · cases h
                · exact absurd h (hno1 _)
                · cases h
              | ok sb =>
                rw [hsb] at hadd
                simp only at hadd
                obtain ⟨x2, hx2, hall2⟩ := initAndRun_events env
                  ([.initDirectory c.K0sVars.DataDir env.DataDirMode,
                    .initDirectory c.K0sVars.CertRootDir env.CertRootDirMode] ++ x1 ++
                    [.addSync (.Certificates c.ClusterConfig.Spec ⟨c.K0sVars⟩ c.K0sVars)] ++
                    [.add (.Storage sb)] ++ (c.otherComponents sb).map CtlEvent.add)
                rw [hx2] at hadd
                simp only [List.mem_append, List.mem_cons, List.not_mem_nil, or_false,
                  List.mem_map] at hadd
                rcases hadd with (((((h | h) | h) | h) | h) | ⟨comp, hcomp, h⟩) | h
                · cases h
                · cases h
                · exact absurd h (hno1 _)
                · cases h
                · have hsb2 : sb = .Etcd e := by injection h with h; injection h with h; exact h.symm
                  subst hsb2
                  exact (storageBackend_etcd env c _ join none e hsb).2
                · have := otherComponents_not_storage c sb comp hcomp
                  injection h with h
                  rw [h] at this
                  simp [Component.isStorage] at this
                · have := hall2 _ h
                  simp [CtlEvent.isAdd] at this

/-- C10 at a fresh node given a token that decodes: the registered Etcd backend has `Join` set and
a nil `JoinClient`, and its `Run` panics. -/
theorem C10_witness :
    CtlEvent.add (.Storage (.Etcd Example.registered)) ∈
        (Example.opts.startController Example.ctlEnv Example.fresh.fs "valid-token").1 ∧
      Example.registered.Join = true ∧
      Example.registered.JoinClient = none ∧
      (Example.registered.Run Example.env Example.fresh).2.2 = .panicked :=
  have hadd : CtlEvent.add (.Storage (.Etcd Example.registered)) ∈
      (Example.opts.startController Example.ctlEnv Example.fresh.fs "valid-token").1 := by
    simp [CmdOpts.startController, CmdOpts.joinBlock, CmdOpts.needToJoin, CmdOpts.storageBackend,
      Example.opts, Example.ctlEnv, Example.fresh, util.FileExists, CmdOpts.initAndRun,
      Example.registered]
  ⟨hadd, rfl, C10_etcd_backend_has_nil_join_client Example.ctlEnv Example.opts Example.fresh.fs
      "valid-token" _ hadd, by decide⟩

/-- The `if` block of `startController` only decodes the token and registers with `AddSync`. -/
theorem joinBlock_early (env : CtlEnv) (c : CmdOpts) (fs : FS) (tokenString : String)
    (join : Bool) (tr : List CtlEvent) :
    ∃ extra, (c.joinBlock env fs tokenString join tr).1 = tr ++ extra ∧
      ∀ ev ∈ extra, ev.isEarly = true := by
  unfold CmdOpts.joinBlock
  split
  · cases env.joinClientFromToken tokenString with
    | error err => exact ⟨[.joinClientFromToken tokenString], by simp, by simp [CtlEvent.isEarly]⟩
    | ok jc =>
      exact ⟨[.joinClientFromToken tokenString, .addSync (.CASyncer (some jc) c.K0sVars)],
        by simp, by simp [CtlEvent.isEarly]⟩
  · exact ⟨[], by simp, by simp⟩

/-- The two ways through `startController`: an error before the storage backend is registered, or
the registration of the storage backend and of the other components followed by the part from
`componentManager.Init()` on. -/
theorem startController_cases (env : CtlEnv) (c : CmdOpts) (fs : FS) (tokenString : String) :
    (∃ tr err, c.startController env fs tokenString = (tr, some err) ∧
        ∀ ev ∈ tr, ev.isEarly = true) ∨
      ∃ pre sb, (∀ ev ∈ pre, ev.isEarly = true) ∧
        c.startController env fs tokenString =
          CmdOpts.initAndRun env
            (pre ++ CtlEvent.add (.Storage sb) :: (c.otherComponents sb).map CtlEvent.add) := by
  unfold CmdOpts.startController
  cases h1 : env.initDirectoryErr c.K0sVars.DataDir with
  | some e1 => exact Or.inl ⟨_, e1, rfl, by simp [CtlEvent.isEarly]⟩
  | none =>
    cases h2 : env.initDirectoryErr c.K0sVars.CertRootDir with
    | some e2 => exact Or.inl ⟨_, e2, rfl, by simp [CtlEvent.isEarly]⟩
    | none =>
      obtain ⟨x1, hx1, hall1⟩ := joinBlock_early env c fs tokenString false
        [.initDirectory c.K0sVars.DataDir env.DataDirMode,
          .initDirectory c.K0sVars.CertRootDir env.CertRootDirMode]
      simp only [List.singleton_append]
      cases hjb : c.joinBlock env fs tokenString false
          [.initDirectory c.K0sVars.DataDir env.DataDirMode,
            .initDirectory c.K0sVars.CertRootDir env.CertRootDirMode] with
      | mk tr res =>
        rw [hjb] at hx1
        simp only at hx1
        subst hx1
        have hpre : ∀ ev ∈ CtlEvent.initDirectory c.K0sVars.DataDir env.DataDirMode ::
            CtlEvent.initDirectory c.K0sVars.CertRootDir env.CertRootDirMode :: x1,
            ev.isEarly = true := by
          intro ev hev
          simp only [List.mem_cons] at hev
          rcases hev with rfl | rfl | h
          · rfl
          · rfl
          · exact hall1 ev h
        cases res with
        | error err => exact Or.inl ⟨_, err, rfl, by simpa using hpre⟩
        | ok join =>
          have hpre2 : ∀ ev ∈ CtlEvent.initDirectory c.K0sVars.DataDir env.DataDirMode ::
              CtlEvent.initDirectory c.K0sVars.CertRootDir env.CertRootDirMode :: x1 ++
              [.addSync (.Certificates c.ClusterConfig.Spec ⟨c.K0sVars⟩ c.K0sVars)],
              ev.isEarly = true := by
            intro ev hev
            rcases List.mem_append.1 hev with h | h
            · exact hpre ev h
            · simp only [List.mem_singleton] at h; subst h; rfl
          simp only
          cases hd : env.dnsAddress with
          | mk addr derr =>
            cases derr with
            | some err => exact Or.inl ⟨_, err, rfl, by simpa using hpre2⟩
            | none =>
              simp only
              cases hsb : c.storageBackend env ⟨c.K0sVars⟩ join none with
              | error err => exact Or.inl ⟨_, err, rfl, by simpa using hpre2⟩
              | ok sb =>
                refine Or.inr ⟨_, sb, hpre2, ?_⟩
                simp

/-- C13: when `componentManager.Init()` returns an error, `startController` returns that
same error, and its calls hold neither `componentManager.Start` nor the run of a reconciler
nor the start of the worker (nor any other call made after `Init`). -/
theorem C13_init_error_ends_startup (env : CtlEnv) (c : CmdOpts) (fs : FS) (tokenString : String)
    (err : GoError) (hinit : env.managerInit = some err) :
    ((c.startController env fs tokenString).1.any CtlEvent.isInit = true →
        (c.startController env fs tokenString).2 = some err) ∧
      ∀ ev ∈ (c.startController env fs tokenString).1, ev.isAfterInit = false := by
  have hearly : ∀ ev : CtlEvent, ev.isEarly = true → ev.isAfterInit = false ∧ ev.isInit = false := by
    intro ev h; cases ev <;> simp_all [CtlEvent.isEarly, CtlEvent.isAfterInit, CtlEvent.isInit]
  rcases startController_cases env c fs tokenString with ⟨tr, e0, hrun, hall⟩ | ⟨pre, sb, hall, hrun⟩
  · rw [hrun]
    refine ⟨?_, fun ev hev => (hearly ev (hall ev hev)).1⟩
    intro hany
    simp only [List.any_eq_true] at hany
    obtain ⟨ev, hev, hi⟩ := hany
    rw [(hearly ev (hall ev hev)).2] at hi
    cases hi
  · have hres : ∀ tr, CmdOpts.initAndRun env tr = (tr ++ [CtlEvent.managerInit], some err) := by
      intro tr; simp [CmdOpts.initAndRun, hinit]
    rw [hrun, hres]
    refine ⟨fun _ => rfl, ?_⟩
    intro ev hev
    simp only [List.mem_append, List.mem_cons, List.mem_map, List.mem_singleton,
      List.not_mem_nil, or_false] at hev
    rcases hev with (h | rfl | ⟨comp, _, rfl⟩) | rfl
    · exact (hearly ev (hall ev h)).1
    · rfl
    · rfl
    · rfl

/-- C13 at a node on which `componentManager.Init()` fails. -/
theorem C13_witness :
    Example.ctlEnvInitFails.managerInit = some ⟨"failed to initialize etcd"⟩ ∧
      (Example.opts.startController Example.ctlEnvInitFails Example.fresh.fs "").1.any
        CtlEvent.isInit = true ∧
      (Example.opts.startController Example.ctlEnvInitFails Example.fresh.fs "").2 =
        some ⟨"failed to initialize etcd"⟩ :=
  ⟨rfl, by decide,
    (C13_init_error_ends_startup Example.ctlEnvInitFails Example.opts Example.fresh.fs ""
      ⟨"failed to initialize etcd"⟩ rfl).1 (by decide)⟩

/-- The components added by two runs of events, one after the other. -/
theorem addedComponents_append (a b : List CtlEvent) :
    addedComponents (a ++ b) = addedComponents a ++ addedComponents b := by
  simp [addedComponents, List.filterMap_append]

/-- Events other than `Add` add no component. -/
theorem addedComponents_of_not_add (tr : List CtlEvent) (h : ∀ ev ∈ tr, ev.isAdd = false) :
    addedComponents tr = [] := by
  induction tr with
  | nil => rfl
  | cons ev rest ih =>
    have h1 := h ev (List.mem_cons_self _ _)
    have h2 := ih (fun x hx => h x (List.mem_cons_of_mem _ hx))
    cases ev <;> simp_all [addedComponents, CtlEvent.isAdd]

/-- A run of `Add` calls adds its components in order. -/
theorem addedComponents_map_add (comps : List Component) :
    addedComponents (comps.map CtlEvent.add) = comps := by
  induction comps with
  | nil => rfl
  | cons x rest ih => simp_all [addedComponents]

/-- Once `componentManager.Init()` is called, the components added are the storage backend and
then the other components. -/
theorem addedComponents_startController (env : CtlEnv) (c : CmdOpts) (fs : FS)
    (tokenString : String)
    (hinit : (c.startController env fs tokenString).1.any CtlEvent.isInit = true) :
    ∃ sb, addedComponents (c.startController env fs tokenString).1 =
      Component.Storage sb :: c.otherComponents sb := by
  have hearly : ∀ ev : CtlEvent, ev.isEarly = true → ev.isAdd = false ∧ ev.isInit = false := by
    intro ev h; cases ev <;> simp_all [CtlEvent.isEarly, CtlEvent.isAdd, CtlEvent.isInit]
  rcases startController_cases env c fs tokenString with ⟨tr, e0, hrun, hall⟩ | ⟨pre, sb, hall, hrun⟩
  · rw [hrun] at hinit
    simp only [List.any_eq_true] at hinit
    obtain ⟨ev, hev, hi⟩ := hinit
    rw [(hearly ev (hall ev hev)).2] at hi
    cases hi
  · obtain ⟨extra, hx, hextra⟩ := initAndRun_events env
      (pre ++ CtlEvent.add (.Storage sb) :: (c.otherComponents sb).map CtlEvent.add)
    refine ⟨sb, ?_⟩
    rw [hrun, hx, addedComponents_append, addedComponents_append,
      addedComponents_of_not_add pre (fun ev h => (hearly ev (hall ev h)).1),
      addedComponents_of_not_add extra hextra]
    have := addedComponents_map_add (Component.Storage sb :: c.otherComponents sb)
    simpa using this

/-- C12: once `startController` has registered its components, `DummyLeaderElector` with
`Leader = true` is registered exactly when `Spec.API.ExternalAddress` is empty and the
lease-backed elector of `NewLeaderElector` otherwise, one of the two and once; `K0sLease` and
the endpoint reconciler are registered, once each, exactly when `ExternalAddress` is not
empty. -/
theorem C12_leader_elector_follows_external_address (env : CtlEnv) (c : CmdOpts) (fs : FS)
    (tokenString : String)
    (hinit : (c.startController env fs tokenString).1.any CtlEvent.isInit = true) :
    (c.ClusterConfig.Spec.API.ExternalAddress = "" →
        (addedComponents (c.startController env fs tokenString).1).countP
            Component.isDummyLeader = 1 ∧
          (addedComponents (c.startController env fs tokenString).1).countP
            Component.isLeaseElector = 0 ∧
          (addedComponents (c.startController env fs tokenString).1).countP
            Component.isK0sLease = 0 ∧
          (addedComponents (c.startController env fs tokenString).1).countP
            Component.isEndpointReconciler = 0) ∧
      (c.ClusterConfig.Spec.API.ExternalAddress ≠ "" →
        (addedComponents (c.startController env fs tokenString).1).countP
            Component.isDummyLeader = 0 ∧
          (addedComponents (c.startController env fs tokenString).1).countP
            Component.isLeaseElector = 1 ∧
          (addedComponents (c.startController env fs tokenString).1).countP
            Component.isK0sLease = 1 ∧
          (addedComponents (c.startController env fs tokenString).1).countP
            Component.isEndpointReconciler = 1) := by
  obtain ⟨sb, hadded⟩ := addedComponents_startController env c fs tokenString hinit
  rw [hadded]
  constructor
  · intro hext
    cases hT : c.ClusterConfig.Telemetry.Enabled <;>
      simp [CmdOpts.otherComponents, hext, hT, Component.isDummyLeader,
        Component.isLeaseElector, Component.isK0sLease, Component.isEndpointReconciler]
  · intro hext
    cases hT : c.ClusterConfig.Telemetry.Enabled <;>
      simp [CmdOpts.otherComponents, hext, hT, Component.isDummyLeader,
        Component.isLeaseElector, Component.isK0sLease, Component.isEndpointReconciler]

/-- C12 at a controller with the external address `k0s.example.com` and at one without an external
address. -/
theorem C12_witness :
    (Example.optsExternal.startController Example.ctlEnv Example.fresh.fs "").1.any
        CtlEvent.isInit = true ∧
      (addedComponents (Example.optsExternal.startController Example.ctlEnv
        Example.fresh.fs "").1).countP Component.isLeaseElector = 1 ∧
      (Example.opts.startController Example.ctlEnv Example.fresh.fs "").1.any
        CtlEvent.isInit = true ∧
      (addedComponents (Example.opts.startController Example.ctlEnv
        Example.fresh.fs "").1).countP Component.isDummyLeader = 1 :=
  ⟨by decide,
    ((C12_leader_elector_follows_external_address Example.ctlEnv Example.optsExternal
      Example.fresh.fs "" (by decide)).2 (by decide)).2.1,
    by decide,
    ((C12_leader_elector_follows_external_address Example.ctlEnv Example.opts
      Example.fresh.fs "" (by decide)).1 rfl).1⟩

/-- C14: `Etcd.setupCerts` calls `EnsureCA("etcd/ca", "etcd-ca")` first and everything after
it is an `EnsureCertificate` call whose request names `ca.crt` and `ca.key` of the etcd
certificate directory.  When `EnsureCA` fails there is no such call and `setupCerts` returns
the wrapped error.  When it succeeds the three requests `apiserver-etcd-client`,
`etcd/server` and `etcd/peer` are issued, each once and in the order the scheduler gives
their goroutines; `setupCerts` returns nil exactly when the three calls succeed, and an
error it returns is the error of one of them. -/
theorem C14_ca_before_leaf_certificates (env : Env) (e : Etcd) (w : World) :
    ∃ leafs, (e.setupCerts env w).1.trace =
        w.trace ++ Event.ensureCA "etcd/ca" "etcd-ca" :: leafs ∧
      (∀ ev ∈ leafs, ∃ req u, ev = Event.ensureCertificate req u ∧
        req.CACert = filepath.Join [e.K0sVars.EtcdCertDir, "ca.crt"] ∧
        req.CAKey = filepath.Join [e.K0sVars.EtcdCertDir, "ca.key"]) ∧
      (∀ err, env.ensureCA "etcd/ca" "etcd-ca" = some err →
        leafs = [] ∧
        (e.setupCerts env w).2 =
          .returned (some (errors.Wrap err "failed to create etcd ca"))) ∧
      (∀ cfg, env.ensureCA "etcd/ca" "etcd-ca" = none → e.Config = some cfg →
        leafs.Perm
          [ Event.ensureCertificate
              ⟨"apiserver-etcd-client", "apiserver-etcd-client", "apiserver-etcd-client",
                filepath.Join [e.K0sVars.EtcdCertDir, "ca.crt"],
                filepath.Join [e.K0sVars.EtcdCertDir, "ca.key"], ["127.0.0.1", "localhost"]⟩
              env.ApiserverUser,
            Event.ensureCertificate
              ⟨"etcd/server", "etcd-server", "etcd-server",
                filepath.Join [e.K0sVars.EtcdCertDir, "ca.crt"],
                filepath.Join [e.K0sVars.EtcdCertDir, "ca.key"], ["127.0.0.1", "localhost"]⟩
              env.EtcdUser,
            Event.ensureCertificate
              ⟨"etcd/peer", cfg.PeerAddress, "etcd-peer",
                filepath.Join [e.K0sVars.EtcdCertDir, "ca.crt"],
                filepath.Join [e.K0sVars.EtcdCertDir, "ca.key"], [cfg.PeerAddress]⟩
              env.EtcdUser ] ∧
        ((e.setupCerts env w).2 = .returned none ↔
          ∀ r ∈ e.leafRequests env cfg.PeerAddress, env.ensureCertificate r.1 r.2 = none) ∧
        (∀ err, (e.setupCerts env w).2 = .returned (some err) →
          ∃ r ∈ e.leafRequests env cfg.PeerAddress,
            env.ensureCertificate r.1 r.2 = some err)) := by
  unfold Etcd.setupCerts
  cases hca : env.ensureCA "etcd/ca" "etcd-ca" with
  | some err =>
    refine ⟨[], by simp [World.log], by simp, ?_, by simp⟩
    intro err2 h
    cases h
    exact ⟨rfl, rfl⟩
  | none =>
    cases hc : e.Config with
    | none => exact ⟨[], by simp [World.log], by simp, by simp, by simp⟩
    | some cfg =>
      have hstart := order_perm env.goStart (e.leafRequests env cfg.PeerAddress) 0
      have hfin := order_perm env.goFinish (e.leafRequests env cfg.PeerAddress) 0
      refine ⟨(errgroup.order env.goStart 0 (e.leafRequests env cfg.PeerAddress)).map
        (fun r => Event.ensureCertificate r.1 r.2), ?_, ?_, by simp, ?_⟩
      · simp [Etcd.issueAll, World.log]
      · intro ev hev
        obtain ⟨r, hr, rfl⟩ := List.mem_map.1 hev
        have hr2 := hstart.mem_iff.1 hr
        simp only [Etcd.leafRequests, List.mem_cons, List.not_mem_nil, or_false] at hr2
        rcases hr2 with rfl | rfl | rfl <;> exact ⟨_, _, rfl, rfl, rfl⟩
      · intro cfg2 _ h
        cases h
        refine ⟨hstart.map _, ?_, ?_⟩
        · simp only [Etcd.issueAll, Outcome.returned.injEq, List.findSome?_eq_none_iff]
          constructor
          · intro h r hr
            exact h r (hfin.mem_iff.2 hr)
          · intro h r hr
            exact h r (hfin.mem_iff.1 hr)
        · intro err herr
          simp only [Etcd.issueAll, Outcome.returned.injEq] at herr
          obtain ⟨r, hr, hre⟩ := List.exists_of_findSome?_eq_some herr
          exact ⟨r, hfin.mem_iff.1 hr, hre⟩

/-- C14 on a node where the goroutine of the peer certificate runs first and every request
fails: the order of the calls is peer, server, client, and the error returned is that of
the peer certificate. -/
theorem C14_witness :
    Example.envBusy.ensureCA "etcd/ca" "etcd-ca" = none ∧
      (Example.etcd none).Config = some ⟨"10.0.0.3"⟩ ∧
      (((Example.etcd none).setupCerts Example.envBusy Example.fresh).1.trace.map
        (fun ev => match ev with
          | .ensureCertificate req _ => req.Name
          | .ensureCA name _ => name
          | _ => "")) = ["etcd/ca", "etcd/peer", "etcd/server", "apiserver-etcd-client"] ∧
      ((Example.etcd none).setupCerts Example.envBusy Example.fresh).2 =
        .returned (some ⟨"failed:etcd/peer"⟩) ∧
      ∃ r ∈ (Example.etcd none).leafRequests Example.envBusy "10.0.0.3",
        Example.envBusy.ensureCertificate r.1 r.2 = some ⟨"failed:etcd/peer"⟩ :=
  ⟨rfl, rfl, by decide, by decide,
    let ⟨_, _, _, _, h⟩ := C14_ca_before_leaf_certificates Example.envBusy (Example.etcd none)
      Example.fresh
    (h ⟨"10.0.0.3"⟩ rfl rfl).2.2 ⟨"failed:etcd/peer"⟩ (by decide)⟩

/-- C11: the controller command takes the join token from the positional argument or from
`--token-file`, not from both.  With both non-empty `RunE` returns an error without any
call.  With only `--token-file`, a failure to read the file is the error returned, and
otherwise every call of `startController` gets the content of the file as its token; when
the configuration loads, that call is made and its error is the error of the command. -/
theorem C11_token_from_argument_or_file (env : CmdEnv) (cenv : CtlEnv) (c : CmdOpts) (fs : FS) :
    (∀ (a : String) (rest : List String), a ≠ "" → env.tokenFile ≠ "" →
        NewControllerCmd.RunE env cenv c fs (a :: rest) =
          ([], some NewControllerCmd.bothTokens)) ∧
      (env.controllerToken = "" → env.tokenFile ≠ "" →
        (∀ err, env.readFile env.tokenFile = .error err →
          NewControllerCmd.RunE env cenv c fs [] = ([.readFile env.tokenFile], some err)) ∧
        (∀ content, env.readFile env.tokenFile = .ok content →
          (∀ t, CmdEvent.startController t ∈ (NewControllerCmd.RunE env cenv c fs []).1 →
            t = content) ∧
          (∀ cfg, env.getYamlFromFile c.CfgFile c.K0sVars.DataDir = .ok cfg →
            NewControllerCmd.RunE env cenv c fs [] =
              ([.readFile env.tokenFile, .getYamlFromFile c.CfgFile c.K0sVars.DataDir,
                  .startController content],
                (CmdOpts.startController cenv
                  { c with Logging := env.mergedLogging, ClusterConfig := cfg } fs
                  content).2)))) := by
  refine ⟨?_, ?_⟩
  · intro a rest ha hfile
    simp [NewControllerCmd.RunE, ha, hfile]
  · intro htoken hfile
    refine ⟨?_, ?_⟩
    · intro err hread
      simp [NewControllerCmd.RunE, NewControllerCmd.readToken, htoken, hfile, hread]
    · intro content hread
      refine ⟨?_, ?_⟩
      · intro t ht
        cases hcfg : env.getYamlFromFile c.CfgFile c.K0sVars.DataDir with
        | error err =>
          simp [NewControllerCmd.RunE, NewControllerCmd.readToken, htoken, hfile, hread,
            hcfg] at ht
        | ok cfg =>
          simp [NewControllerCmd.RunE, NewControllerCmd.readToken, htoken, hfile, hread,
            hcfg] at ht
          exact ht
      · intro cfg hcfg
        simp [NewControllerCmd.RunE, NewControllerCmd.readToken, htoken, hfile, hread, hcfg]

/-- C11 at a command started with `--token-file /run/token`, with and without a positional token.
-/
theorem C11_witness :
    NewControllerCmd.RunE Example.cmdEnv Example.ctlEnv Example.opts Example.fresh.fs
        ["valid-token"] = ([], some NewControllerCmd.bothTokens) ∧
      NewControllerCmd.RunE Example.cmdEnv Example.ctlEnv Example.opts Example.fresh.fs [] =
        ([.readFile "/run/token", .getYamlFromFile "/etc/k0s/k0s.yaml" "/var/lib/k0s",
            .startController "valid-token"],
          none) :=
  ⟨(C11_token_from_argument_or_file Example.cmdEnv Example.ctlEnv Example.opts
      Example.fresh.fs).1 "valid-token" [] (by decide) (by decide),
    ((C11_token_from_argument_or_file Example.cmdEnv Example.ctlEnv Example.opts
      Example.fresh.fs).2 rfl (by decide)).2 "valid-token" rfl |>.2 Example.opts.ClusterConfig rfl⟩

/-- C15: `APIAddress()` is `https://h:6443` and `K0sControlPlaneAPIAddress()` is
`https://h:9443`, with `h` the external address when there is one and the address otherwise;
the values of the two tests of `cluster_test.go`. -/
theorem C15_api_addresses (a : APISpec) :
    a.APIAddress =
        "https://" ++ (if a.ExternalAddress ≠ "" then a.ExternalAddress else a.Address)
          ++ ":6443" ∧
      a.K0sControlPlaneAPIAddress =
        "https://" ++ (if a.ExternalAddress ≠ "" then a.ExternalAddress else a.Address)
          ++ ":9443" ∧
      (a.Address = "1.2.3.4" → a.ExternalAddress = "foo.bar.com" →
        a.APIAddress = "https://foo.bar.com:6443" ∧
        a.K0sControlPlaneAPIAddress = "https://foo.bar.com:9443") ∧
      (a.Address = "1.2.3.4" → a.ExternalAddress = "" →
        a.APIAddress = "https://1.2.3.4:6443" ∧
        a.K0sControlPlaneAPIAddress = "https://1.2.3.4:9443") := by
  refine ⟨?_, ?_, ?_, ?_⟩
  · unfold APISpec.APIAddress; split <;> rfl
  · unfold APISpec.K0sControlPlaneAPIAddress; split <;> rfl
  · intro h1 h2
    simp only [APISpec.APIAddress, APISpec.K0sControlPlaneAPIAddress, h1, h2]
    decide
  · intro h1 h2
    simp only [APISpec.APIAddress, APISpec.K0sControlPlaneAPIAddress, h1, h2]
    decide

/-- C15 at the two configurations of `TestApiExternalAddress` and `TestApiNoExternalAddress`. -/
theorem C15_witness :
    (APISpec.mk "1.2.3.4" "foo.bar.com" [] []).APIAddress = "https://foo.bar.com:6443" ∧
      (APISpec.mk "1.2.3.4" "foo.bar.com" [] []).K0sControlPlaneAPIAddress =
        "https://foo.bar.com:9443" ∧
      (APISpec.mk "1.2.3.4" "" [] []).APIAddress = "https://1.2.3.4:6443" ∧
      (APISpec.mk "1.2.3.4" "" [] []).K0sControlPlaneAPIAddress = "https://1.2.3.4:9443" :=
  ⟨((C15_api_addresses (APISpec.mk "1.2.3.4" "foo.bar.com" [] [])).2.2.1 rfl rfl).1,
    ((C15_api_addresses (APISpec.mk "1.2.3.4" "foo.bar.com" [] [])).2.2.1 rfl rfl).2,
    ((C15_api_addresses (APISpec.mk "1.2.3.4" "" [] [])).2.2.2 rfl rfl).1,
    ((C15_api_addresses (APISpec.mk "1.2.3.4" "" [] [])).2.2.2 rfl rfl).2⟩

/-- C17: with `Spec.Network` set, `Validate()` returns the errors of `Network.Validate()`
followed by those of `WorkerProfiles.Validate()` and nothing else: one error when the network
validation reports one and the worker profiles none, no error when both report none. -/
theorem C17_validate_concatenates (v : Validators) (c : ClusterConfig) (n : Network)
    (hnet : c.Spec.Network = some n) :
    c.Validate v = some (v.network n ++ v.workerProfiles c.Spec.WorkerProfiles) ∧
      (∀ e1, v.network n = [e1] → v.workerProfiles c.Spec.WorkerProfiles = [] →
        c.Validate v = some [e1]) ∧
      (v.network n = [] → v.workerProfiles c.Spec.WorkerProfiles = [] →
        c.Validate v = some []) := by
  have h : c.Validate v = some (v.network n ++ v.workerProfiles c.Spec.WorkerProfiles) := by
    simp [ClusterConfig.Validate, hnet]
  refine ⟨h, ?_, ?_⟩
  · intro e1 h1 h2; rw [h, h1, h2]; rfl
  · intro h1 h2; rw [h, h1, h2]; rfl

/-- C17 at the configuration of `TestNetworkValidation_Invalid`. -/
theorem C17_witness :
    Example.invalidProvider.Spec.Network = some ⟨"invalidProvider"⟩ ∧
      Example.invalidProvider.Validate Example.validators =
        some [⟨"unsupported network provider: invalidProvider"⟩] :=
  ⟨rfl, (C17_validate_concatenates Example.validators Example.invalidProvider
    ⟨"invalidProvider"⟩ rfl).2.1 ⟨"unsupported network provider: invalidProvider"⟩
      (by decide) rfl⟩

/-- C16: `UnmarshalYAML` sets the defaults and then decodes.  The error of the decoder is
returned as it is, and each of `Kind`, the name, `Spec`, `Images` and `Telemetry` that the
decoder leaves alone has its default after the call.  The document that holds only the
`apiVersion` line gives the name `k0s` and the default storage specification. -/
theorem C16_unmarshal_keeps_defaults (d : Defaults)
    (unmarshal : ClusterConfig → ClusterConfig × Option GoError) (c : ClusterConfig) :
    (c.UnmarshalYAML d unmarshal).2 = (unmarshal (c.withDefaults d)).2 ∧
      ((∀ x, (unmarshal x).1.Kind = x.Kind) → (c.UnmarshalYAML d unmarshal).1.Kind = "Cluster") ∧
      ((∀ x, (unmarshal x).1.Name = x.Name) → (c.UnmarshalYAML d unmarshal).1.Name = "k0s") ∧
      ((∀ x, (unmarshal x).1.Spec = x.Spec) →
        (c.UnmarshalYAML d unmarshal).1.Spec = DefaultClusterSpec d) ∧
      ((∀ x, (unmarshal x).1.Images = x.Images) →
        (c.UnmarshalYAML d unmarshal).1.Images = some d.DefaultClusterImages) ∧
      ((∀ x, (unmarshal x).1.Telemetry = x.Telemetry) →
        (c.UnmarshalYAML d unmarshal).1.Telemetry = d.DefaultClusterTelemetry) ∧
      (c.UnmarshalYAML d Example.apiVersionOnly).2 = none ∧
      (c.UnmarshalYAML d Example.apiVersionOnly).1.Name = "k0s" ∧
      (c.UnmarshalYAML d Example.apiVersionOnly).1.Spec.Storage = d.DefaultStorageSpec := by
  have hrun : c.UnmarshalYAML d unmarshal = unmarshal (c.withDefaults d) := by
    unfold ClusterConfig.UnmarshalYAML
    cases h : unmarshal (c.withDefaults d) with
    | mk yc err => cases err <;> simp [h]
  refine ⟨by rw [hrun], ?_, ?_, ?_, ?_, ?_, rfl, rfl, rfl⟩
  · intro h; rw [hrun, h]; rfl
  · intro h; rw [hrun, h]; rfl
  · intro h; rw [hrun, h]; rfl
  · intro h; rw [hrun, h]; rfl
  · intro h; rw [hrun, h]; rfl

/-- The function `ConfigFromYaml` does not read its parameter: whatever path it is given, it
returns the result of `ValidateYaml` for the package variable `cfgFile`. -/
theorem ConfigFromYaml_ignores_cfgPath (g : CmdGlobals) (env : YamlEnv)
    (cfgPath : String) :
    ConfigFromYaml g env cfgPath = ValidateYaml env g.cfgFile g.k0sVars.DataDir ∧
      ConfigFromYaml g env cfgPath = ConfigFromYaml g env "" := by
  have h : ∀ p, ConfigFromYaml g env p = ValidateYaml env g.cfgFile g.k0sVars.DataDir := by
    intro p
    unfold ConfigFromYaml
    cases hv : ValidateYaml env g.cfgFile g.k0sVars.DataDir with
    | none => rfl
    | some r => cases r <;> rfl
  exact ⟨h cfgPath, by rw [h cfgPath, h ""]⟩

/-- C18 at a failing input: with `--config` not given, `ConfigFromYaml("/etc/k0s/k0s.yaml")`
returns the default configuration, named `k0s`, and not the configuration of the file, named
`prod`, that `ValidateYaml` returns for that path. -/
theorem C18_default_returned_for_given_path :
    returnedName (ConfigFromYaml ⟨"", Example.vars⟩ Example.yamlEnv "/etc/k0s/k0s.yaml") =
        some "k0s" ∧
      returnedName (ValidateYaml Example.yamlEnv "/etc/k0s/k0s.yaml" "/var/lib/k0s") =
        some "prod" ∧
      ConfigFromYaml ⟨"", Example.vars⟩ Example.yamlEnv "/etc/k0s/k0s.yaml" ≠
        ValidateYaml Example.yamlEnv "/etc/k0s/k0s.yaml" "/var/lib/k0s" := by
  have h1 : returnedName
      (ConfigFromYaml ⟨"", Example.vars⟩ Example.yamlEnv "/etc/k0s/k0s.yaml") = some "k0s" := by
    decide
  have h2 : returnedName
      (ValidateYaml Example.yamlEnv "/etc/k0s/k0s.yaml" "/var/lib/k0s") = some "prod" := by
    decide
  refine ⟨h1, h2, fun h => ?_⟩
  rw [h, h2] at h1
  exact absurd h1 (by decide)

/-- For sixteen bytes `To4` is nil exactly when they are not an IPv4-mapped address. -/
theorem To4_eq_none_iff (ip : List Nat) (hlen : ip.length = 16) :
    net.To4 ip = none ↔ ¬ isV4Mapped ip := by
  unfold net.To4 isV4Mapped
  have h4 : ip.length ≠ 4 := by omega
  simp only [h4, if_false, hlen, true_and]
  split <;> simp_all

/-- Claim C19.  The claim asks that the host of the URL is put in brackets when it is an IPv6
address, and that `IsIPv6String` is true exactly for the IPv6 addresses.  The text
`::ffff:1.2.3.4` is an IPv6 address; `net.ParseIP` gives its sixteen bytes, `To4` is not nil
for them, so `IsIPv6String` is false and `APIAddressURL()` returns
`https://::ffff:1.2.3.4:6443`, which has no brackets and is not a URI. -/
theorem C19_mapped_address_is_not_bracketed :
    Spec.isIPv6Address Example.ParseIP "::ffff:1.2.3.4" ∧
      IsIPv6String Example.ParseIP "::ffff:1.2.3.4" = false ∧
      K0sAPISpec.APIAddressURL Example.ParseIP ⟨"::ffff:1.2.3.4", 6443, 9443, "", [], []⟩ =
        "https://::ffff:1.2.3.4:6443" ∧
      K0sAPISpec.K0sControlPlaneAPIAddress Example.ParseIP
          ⟨"::ffff:1.2.3.4", 6443, 9443, "", [], []⟩ =
        "https://::ffff:1.2.3.4:9443" :=
  ⟨⟨by decide, by decide⟩, by decide, by decide, by decide⟩

/-- Closed form of `APIAddressURL()` and `K0sControlPlaneAPIAddress()`: they return
`https://H:port` for `Port` and `K0sAPIPort`, where `h` is the value of `APIAddress()` and
`H` is `[h]` when `IsIPv6String(h)` and `h` otherwise; and, `net.ParseIP` returning sixteen
bytes with the IPv4-mapped form for the dotted notation, `IsIPv6String(s)` is true exactly
when `s` is an IPv6 address that is not an IPv4-mapped one. -/
theorem getExternalURIForPort_closed_form (ParseIP : String → Option (List Nat))
    (a : K0sAPISpec)
    (hparse : ∀ s ip, ParseIP s = some ip →
      ip.length = 16 ∧ (':' ∉ s.data → isV4Mapped ip)) :
    a.APIAddressURL ParseIP =
        "https://" ++ (if IsIPv6String ParseIP a.APIAddress then "[" ++ a.APIAddress ++ "]"
          else a.APIAddress) ++ ":" ++ fmt.d a.Port ∧
      a.K0sControlPlaneAPIAddress ParseIP =
        "https://" ++ (if IsIPv6String ParseIP a.APIAddress then "[" ++ a.APIAddress ++ "]"
          else a.APIAddress) ++ ":" ++ fmt.d a.K0sAPIPort ∧
      ∀ s, IsIPv6String ParseIP s = true ↔
        Spec.isIPv6Address ParseIP s ∧ ∀ ip, ParseIP s = some ip → ¬ isV4Mapped ip := by
  have huri : ∀ port, a.getExternalURIForPort ParseIP port =
      "https://" ++ (if IsIPv6String ParseIP a.APIAddress then "[" ++ a.APIAddress ++ "]"
        else a.APIAddress) ++ ":" ++ fmt.d port := by
    intro port
    unfold K0sAPISpec.getExternalURIForPort K0sAPISpec.APIAddress
    have hlit1 : ("https://[" : String) = "https://" ++ "[" := by decide
    have hlit2 : ("]:" : String) = "]" ++ ":" := by decide
    dsimp only
    generalize (if a.ExternalAddress ≠ "" then a.ExternalAddress else a.Address) = addr
    by_cases h6 : IsIPv6String ParseIP addr = true
    · simp only [h6, if_true, hlit1, hlit2, String.append_assoc]
    · simp only [h6, if_false, String.append_assoc, Bool.false_eq_true]
  refine ⟨huri _, huri _, ?_⟩
  intro s
  unfold IsIPv6String Spec.isIPv6Address
  cases hp : ParseIP s with
  | none => simp
  | some ip =>
    obtain ⟨hlen, hdot⟩ := hparse s ip hp
    simp only [Option.isNone_iff_eq_none, To4_eq_none_iff ip hlen, Option.isSome_some,
      true_and, Option.some.injEq]
    constructor
    · intro hnot
      refine ⟨?_, ?_⟩
      · by_contra hcolon
        exact hnot (hdot hcolon)
      · intro ip2 h2; subst h2; exact hnot
    · intro h
      exact h.2 ip rfl

/-- The URL of an API whose external address is `2001:db8::1` has the brackets. -/
theorem getExternalURIForPort_bracketed :
    (∀ s ip, Example.ParseIP s = some ip →
        ip.length = 16 ∧ (':' ∉ s.data → isV4Mapped ip)) ∧
      K0sAPISpec.APIAddressURL Example.ParseIP ⟨"10.0.0.3", 6443, 9443, "2001:db8::1", [], []⟩ =
        "https://" ++ (if IsIPv6String Example.ParseIP "2001:db8::1" then
          "[" ++ "2001:db8::1" ++ "]" else "2001:db8::1") ++ ":" ++ fmt.d 6443 ∧
      K0sAPISpec.APIAddressURL Example.ParseIP ⟨"10.0.0.3", 6443, 9443, "2001:db8::1", [], []⟩ =
        "https://[2001:db8::1]:6443" :=
  have hp : ∀ s ip, Example.ParseIP s = some ip →
      ip.length = 16 ∧ (':' ∉ s.data → isV4Mapped ip) := by
    intro s ip h
    unfold Example.ParseIP at h
    split_ifs at h with h1 h2 h3
    · cases h; exact ⟨rfl, fun _ => by unfold isV4Mapped; decide⟩
    · cases h; exact ⟨rfl, fun _ => by unfold isV4Mapped; decide⟩
    · cases h; subst h3; exact ⟨rfl, fun hc => absurd (by decide) hc⟩
  ⟨hp,
    (getExternalURIForPort_closed_form Example.ParseIP
      ⟨"10.0.0.3", 6443, 9443, "2001:db8::1", [], []⟩ hp).1,
    by decide⟩

/-- The loop returns nil exactly when every message passes the three tests of its body. -/
theorem ignoreLoop_eq_none_iff (errYaml : YamlError) (ignore : List String) :
    ∀ errors : List String,
      util.ignoreLoop errYaml ignore errors = none ↔
        ∀ fieldErr ∈ errors, isIgnoredFieldError ignore fieldErr = true := by
  intro errors
  induction errors with
  | nil => simp [util.ignoreLoop]
  | cons fieldErr rest ih =>
    unfold util.ignoreLoop
    simp only [List.mem_cons, forall_eq_or_imp]
    cases hc : strings.Contains fieldErr "not found in type" with
    | false => simp [isIgnoredFieldError, hc]
    | true =>
      cases hm : fieldNamePattern.FindStringSubmatch fieldErr with
      | none => simp [isIgnoredFieldError, hc, hm]
      | some name =>
        cases hi : util.StringSliceContains ignore name with
        | false => simp [isIgnoredFieldError, hc, hm, hi]
        | true => simpa [isIgnoredFieldError, hc, hm, hi] using ih

/-- An error returned by the loop is the `TypeError` it was given. -/
theorem ignoreLoop_eq_some (errYaml : YamlError) (ignore : List String) :
    ∀ (errors : List String) (r : YamlError),
      util.ignoreLoop errYaml ignore errors = some r → r = errYaml := by
  intro errors
  induction errors with
  | nil => intro r h; simp [util.ignoreLoop] at h
  | cons fieldErr rest ih =>
    intro r h
    unfold util.ignoreLoop at h
    split at h
    · cases h; rfl
    · split at h
      · cases h; rfl
      · split at h
        · exact ih r h
        · cases h; rfl

/-- What the function does: it returns nil exactly when the strict unmarshal returns nil or a
`yaml.TypeError` of which every message holds `not found in type` and has a name of the
ignore list after its first `field `; an error of another type is returned as it is, and a
`TypeError` with any other message is returned itself. -/
theorem YamlUnmarshalStrictIgnoringFields_cases (unmarshalStrict : Option YamlError)
    (ignore : List String) :
    (util.YamlUnmarshalStrictIgnoringFields unmarshalStrict ignore = none ↔
        unmarshalStrict = none ∨
          ∃ errors, unmarshalStrict = some (.TypeError errors) ∧
            ∀ fieldErr ∈ errors, isIgnoredFieldError ignore fieldErr = true) ∧
      (∀ err, unmarshalStrict = some (.other err) →
        util.YamlUnmarshalStrictIgnoringFields unmarshalStrict ignore = some (.other err)) ∧
      (∀ errors, unmarshalStrict = some (.TypeError errors) →
        (∃ fieldErr ∈ errors, isIgnoredFieldError ignore fieldErr = false) →
        util.YamlUnmarshalStrictIgnoringFields unmarshalStrict ignore =
          some (.TypeError errors)) := by
  refine ⟨?_, ?_, ?_⟩
  · cases unmarshalStrict with
    | none => simp [util.YamlUnmarshalStrictIgnoringFields]
    | some e =>
      cases e with
      | other err => simp [util.YamlUnmarshalStrictIgnoringFields]
      | TypeError errors =>
        simp [util.YamlUnmarshalStrictIgnoringFields, ignoreLoop_eq_none_iff]
  · intro err h; subst h; rfl
  · intro errors h hex
    subst h
    simp only [util.YamlUnmarshalStrictIgnoringFields]
    cases hl : util.ignoreLoop (.TypeError errors) ignore errors with
    | none =>
      obtain ⟨fieldErr, hmem, hf⟩ := hex
      have := (ignoreLoop_eq_none_iff _ ignore errors).1 hl fieldErr hmem
      rw [hf] at this
      cases this
    | some r => rw [ignoreLoop_eq_some _ ignore errors r hl]

/-- C20 at a failing input: the document has the one unknown key `images x` and the ignore
list is `images`.  The strict unmarshal reports `field images x not found in type`, the
pattern `field ([^ ]+)` reads the name `images` out of it, and the function returns nil
although `images x` is not a field of the list; with `images x` itself in the list the error
is returned. -/
theorem C20_field_name_with_space_is_cut :
    fieldNamePattern.FindStringSubmatch
        "line 1: field images x not found in type v1beta1.ClusterConfig" = some "images" ∧
      util.YamlUnmarshalStrictIgnoringFields
        (some (.TypeError ["line 1: field images x not found in type v1beta1.ClusterConfig"]))
        ["images"] = none ∧
      util.YamlUnmarshalStrictIgnoringFields
        (some (.TypeError ["line 1: field images x not found in type v1beta1.ClusterConfig"]))
        ["images x"] =
        some (.TypeError ["line 1: field images x not found in type v1beta1.ClusterConfig"]) ∧
      util.YamlUnmarshalStrictIgnoringFields
        (some (.TypeError ["line 1: field images not found in type v1beta1.ClusterConfig"]))
        ["images"] = none := by
  decide

/-! ## The command `validate config` -/

/-- Claim C22.  The claim asks that `RunE` of `k0s validate config` returns a non-nil error
whenever `config.GetYamlFromFile` returns one.  The code prints the error and returns nil:
for every error `err` of `GetYamlFromFile`, `RunE` writes the message of `err` to standard
output and its result is nil. -/
theorem C22_validate_config_returns_nil (env : YamlEnv) (c : CmdOpts) (err : GoError)
    (h : GetYamlFromFile env c.CfgFile c.K0sVars.DataDir = some (.error err)) :
    validateConfigCmd.RunE env c = some ([err.msg], none) := by
  simp [validateConfigCmd.RunE, h]

/-- A configuration file with an unknown network provider: `GetYamlFromFile` returns the
validation error, and `RunE` of `validate config` returns nil. -/
theorem C22_witness :
    returnedError (GetYamlFromFile Example.yamlEnvInvalid
        { Example.opts with CfgFile := "/etc/k0s/bad.yaml" }.CfgFile
        { Example.opts with CfgFile := "/etc/k0s/bad.yaml" }.K0sVars.DataDir)
      = some "\nunsupported network provider: invalidProvider" ∧
    validateConfigCmd.RunE Example.yamlEnvInvalid
        { Example.opts with CfgFile := "/etc/k0s/bad.yaml" }
      = some (["\nunsupported network provider: invalidProvider"], none) :=
  ⟨by decide,
   C22_validate_config_returns_nil Example.yamlEnvInvalid
     { Example.opts with CfgFile := "/etc/k0s/bad.yaml" }
     ⟨"\nunsupported network provider: invalidProvider"⟩ (by rfl)⟩

/-- Claim C26.  The claim asks that the error of `ValidateYaml` is the messages of the
validation errors joined by single newlines, with no leading empty line.  The code builds
`messages` with `make([]string, len(errors))` and appends to it, so the joined text starts
with one empty line for each error: for the configuration with the one validation error
`unsupported network provider: invalidProvider`, the message returned starts with a
newline. -/
theorem C26_validation_message_starts_with_empty_line :
    Example.invalidProvider.Validate Example.validators
      = some [⟨"unsupported network provider: invalidProvider"⟩] ∧
    ValidateYaml.messages [⟨"unsupported network provider: invalidProvider"⟩]
      = ["", "unsupported network provider: invalidProvider"] ∧
    returnedError (ValidateYaml Example.yamlEnvInvalid "/etc/k0s/bad.yaml" "/var/lib/k0s")
      = some "\nunsupported network provider: invalidProvider" := by
  refine ⟨by decide, by decide, by decide⟩

/-! ## The flag `--config` -/

/-- Every call of `config.GetYamlFromFile` made by `RunE` of the controller command is for
the path `c.CfgFile`. -/
theorem RunE_loads_CfgFile (env : CmdEnv) (cenv : CtlEnv) (c : CmdOpts) (fs : FS)
    (args : List String) (path d : String)
    (h : CmdEvent.getYamlFromFile path d ∈ (NewControllerCmd.RunE env cenv c fs args).1) :
    path = c.CfgFile ∧ d = c.K0sVars.DataDir := by
  unfold NewControllerCmd.RunE at h
  dsimp only at h
  split_ifs at h with hb
  · simp at h
  · unfold NewControllerCmd.readToken at h
    split_ifs at h with hf
    · cases hr : env.readFile env.tokenFile with
      | error err => simp [hr] at h
      | ok bytes =>
        simp only [hr] at h
        cases hy : env.getYamlFromFile c.CfgFile c.K0sVars.DataDir with
        | error err => simp [hy] at h; exact h
        | ok cfg => simp [hy] at h; exact h
    · cases hy : env.getYamlFromFile c.CfgFile c.K0sVars.DataDir with
      | error err => simp [hy] at h; exact h
      | ok cfg => simp [hy] at h; exact h

/-- Without a token file the first call of `RunE` of the controller command is the call of
`config.GetYamlFromFile`. -/
theorem RunE_head (env : CmdEnv) (cenv : CtlEnv) (c : CmdOpts) (fs : FS)
    (args : List String) (hfile : env.tokenFile = "") :
    (NewControllerCmd.RunE env cenv c fs args).1.head?
      = some (.getYamlFromFile c.CfgFile c.K0sVars.DataDir) := by
  unfold NewControllerCmd.RunE NewControllerCmd.readToken
  simp only [hfile, ne_eq, not_true_eq_false, and_false, if_false]
  cases hy : env.getYamlFromFile c.CfgFile c.K0sVars.DataDir with
  | error err => simp
  | ok cfg => simp

/-- Claim C30.  The claim asks that `RunE` of the controller command loads the path given
with `--config`.  In the code `init` copies the variable `cfgFile` into `opts.CfgFile`
before the flags are parsed, and the command keeps that copy: in a run of
`k0s controller --config p` without a token file, the variable `cfgFile` holds `p` when
`RunE` runs, the first call of `RunE` is `GetYamlFromFile("", dataDir)`, and every call of
`GetYamlFromFile` it makes is for the empty path. -/
theorem C30_config_flag_is_not_loaded (GetConfig : String → CfgVars) (env : CmdEnv)
    (cenv : CtlEnv) (fs : FS) (unset : ClusterConfig) (p : String) (args : List String)
    (hfile : env.tokenFile = "") :
    (cmd.Execute GetConfig env cenv fs unset p args).1.cfgFile = p ∧
    (cmd.Execute GetConfig env cenv fs unset p args).2.1.head?
      = some (.getYamlFromFile "" (GetConfig "").DataDir) ∧
    ∀ path d, CmdEvent.getYamlFromFile path d
        ∈ (cmd.Execute GetConfig env cenv fs unset p args).2.1 → path = "" := by
  refine ⟨rfl, ?_, ?_⟩
  · exact RunE_head env cenv _ fs args hfile
  · intro path d h
    exact (RunE_loads_CfgFile env cenv _ fs args path d h).1

/-- The run `k0s controller --config /etc/k0s/k0s.yaml` on the example node: the path
loaded is the empty one. -/
theorem C30_witness :
    ({ Example.cmdEnv with tokenFile := "" } : CmdEnv).tokenFile = "" ∧
    (cmd.Execute Example.GetConfig { Example.cmdEnv with tokenFile := "" } Example.ctlEnv
        Example.fresh.fs Example.opts.ClusterConfig "/etc/k0s/k0s.yaml" []).1.cfgFile
      = "/etc/k0s/k0s.yaml" ∧
    (cmd.Execute Example.GetConfig { Example.cmdEnv with tokenFile := "" } Example.ctlEnv
        Example.fresh.fs Example.opts.ClusterConfig "/etc/k0s/k0s.yaml" []).2.1.head?
      = some (.getYamlFromFile "" "/var/lib/k0s") :=
  ⟨rfl,
   (C30_config_flag_is_not_loaded Example.GetConfig { Example.cmdEnv with tokenFile := "" }
      Example.ctlEnv Example.fresh.fs Example.opts.ClusterConfig "/etc/k0s/k0s.yaml" []
      rfl).1,
   (C30_config_flag_is_not_loaded Example.GetConfig { Example.cmdEnv with tokenFile := "" }
      Example.ctlEnv Example.fresh.fs Example.opts.ClusterConfig "/etc/k0s/k0s.yaml" []
      rfl).2.1⟩

/-! ## The component `ClusterConfigCustomResource` -/

/-- Claim C25.  The claim asks that `Stop` can be called twice on a component built by
`NewClusterConfigCR`.  `Stop` closes the channel `stopCh` on every call: the first call
returns nil and the second call panics on the closed channel. -/
theorem C25_second_stop_panics (c : ClusterConfig) (leaderElector : LeaderElector)
    (k0sVars : CfgVars) :
    (NewClusterConfigCR c leaderElector k0sVars).Stop.2 = .returned none ∧
    (NewClusterConfigCR c leaderElector k0sVars).Stop.1.Stop.2 = .panicked :=
  ⟨rfl, rfl⟩

/-! ## `K0sAPISpec.Validate` -/

/-- The loop of `K0sAPISpec.Validate` keeps the errors it starts with and adds one for each
entry that is neither an IP address nor a DNS name. -/
theorem Validate_loop_eq (env : APIEnv) (sans : List String) (errors : List GoError) :
    K0sAPISpec.Validate.loop env errors sans
      = errors ++ (sans.filter (fun a => !env.IsIP a && !env.IsDNSName a)).map
          (fun a => ⟨a ++ " is not a valid address for sans"⟩) := by
  induction sans generalizing errors with
  | nil => simp [K0sAPISpec.Validate.loop]
  | cons a rest ih =>
    unfold K0sAPISpec.Validate.loop
    by_cases h1 : env.IsIP a = true
    · simp [h1, ih]
    · by_cases h2 : env.IsDNSName a = true
      · simp [h1, h2, ih]
      · simp [h1, h2, ih]

/-- The method `K0sAPISpec.Validate` returns no error exactly when the address is an IP
address and every entry of `Sans()` is an IP address or a DNS name. -/
theorem Validate_eq_nil_iff (env : APIEnv) (a : K0sAPISpec) :
    a.Validate env = [] ↔
      env.IsIP a.Address = true ∧ ∀ s ∈ a.Sans, env.IsIP s = true ∨ env.IsDNSName s = true := by
  unfold K0sAPISpec.Validate
  rw [Validate_loop_eq]
  by_cases h : env.IsIP a.Address = true
  · simp only [h, not_true_eq_false, if_false, List.nil_append, List.map_eq_nil_iff,
      List.filter_eq_nil_iff, true_and]
    constructor
    · intro hs s hmem
      have := hs s hmem
      by_cases h1 : env.IsIP s = true
      · exact Or.inl h1
      · right
        simpa [h1] using this
    · intro hs s hmem
      rcases hs s hmem with h1 | h2
      · simp [h1]
      · simp [h2]
  · simp [h]

/-- Claim C27.  The claim asks that `Validate` returns no error for `DefaultAPISpec()`.  The
address of `DefaultAPISpec()` in `kubebuilder/api/v1beta1/api.go` is the text
`publicAddress`, which is not an IP address, so `Validate` returns the error of the
address check for it. -/
theorem C27_default_address_is_rejected (env : APIEnv)
    (h : env.IsIP "publicAddress" = false) :
    (⟨"spec.api.address: " ++ env.Quote "publicAddress" ++ " is not IP address"⟩ : GoError)
      ∈ kubebuilder.DefaultAPISpec.Validate env := by
  unfold K0sAPISpec.Validate
  simp [kubebuilder.DefaultAPISpec, h]

/-- With the checks of the example the default settings get exactly one error. -/
theorem C27_witness :
    Example.apiEnv.IsIP "publicAddress" = false ∧
    kubebuilder.DefaultAPISpec.Validate Example.apiEnv
      = [⟨"spec.api.address: \x22publicAddress\x22 is not IP address"⟩] ∧
    (⟨"spec.api.address: " ++ Example.apiEnv.Quote "publicAddress" ++ " is not IP address"⟩
        : GoError) ∈ kubebuilder.DefaultAPISpec.Validate Example.apiEnv :=
  ⟨by decide, by decide, C27_default_address_is_rejected Example.apiEnv (by decide)⟩

/-! ## Maps and map slices -/

/-- Reading a key after an assignment. -/
theorem GoMap.get_set {α : Type} (m : GoMap α) (k : String) (v : α) (k' : String) :
    (m.set k v).get k' = if k = k' then some v else m.get k' := by
  induction m with
  | nil => simp [GoMap.set, GoMap.get]
  | cons e rest ih =>
    obtain ⟨k0, v0⟩ := e
    by_cases h0 : k0 = k
    · subst h0
      by_cases h1 : k0 = k'
      · simp [GoMap.set, GoMap.get, h1]
      · simp [GoMap.set, GoMap.get, h1]
    · by_cases h1 : k0 = k'
      · subst h1
        have : ¬ k = k0 := fun h => h0 h.symm
        simp [GoMap.set, GoMap.get, h0, this]
      · simp [GoMap.set, GoMap.get, h0, h1, ih]

/-- An assignment to a key the map does not hold adds the entry at the end. -/
theorem GoMap.set_of_not_mem {α : Type} (m : GoMap α) (k : String) (v : α)
    (h : k ∉ m.map Prod.fst) : m.set k v = m ++ [(k, v)] := by
  induction m with
  | nil => rfl
  | cons e rest ih =>
    obtain ⟨k0, v0⟩ := e
    simp only [List.map_cons, List.mem_cons, not_or] at h
    have h0 : ¬ k0 = k := fun h' => h.1 h'.symm
    simp [GoMap.set, h0, ih h.2]

/-- The keys of a map after an assignment. -/
theorem GoMap.keys_set {α : Type} (m : GoMap α) (k : String) (v : α) :
    (m.set k v).map Prod.fst
      = if k ∈ m.map Prod.fst then m.map Prod.fst else m.map Prod.fst ++ [k] := by
  induction m with
  | nil => simp [GoMap.set]
  | cons e rest ih =>
    obtain ⟨k0, v0⟩ := e
    by_cases h0 : k0 = k
    · subst h0
      simp [GoMap.set]
    · have h0' : ¬ k = k0 := fun h => h0 h.symm
      simp only [GoMap.set, h0, if_false, List.map_cons, ih, List.mem_cons, h0', false_or]
      split_ifs <;> simp

/-- An assignment keeps the keys pairwise distinct. -/
theorem GoMap.nodup_set {α : Type} (m : GoMap α) (k : String) (v : α)
    (h : (m.map Prod.fst).Nodup) : ((m.set k v).map Prod.fst).Nodup := by
  rw [GoMap.keys_set]
  split_ifs with hk
  · exact h
  · exact List.Nodup.append h (List.nodup_singleton k) (by simpa using hk)

/-- A key reads as the value of the entry that holds it. -/
theorem GoMap.get_eq_some_iff {α : Type} (m : GoMap α) (h : (m.map Prod.fst).Nodup)
    (k : String) (v : α) : m.get k = some v ↔ (k, v) ∈ m := by
  induction m with
  | nil => simp [GoMap.get]
  | cons e rest ih =>
    obtain ⟨k0, v0⟩ := e
    simp only [List.map_cons, List.nodup_cons] at h
    by_cases h0 : k0 = k
    · subst h0
      simp only [GoMap.get, if_true, Option.some.injEq, List.mem_cons, Prod.mk.injEq, true_and]
      constructor
      · exact fun hv => Or.inl hv.symm
      · rintro (hv | hmem)
        · exact hv.symm
        · exact absurd (List.mem_map_of_mem Prod.fst hmem) h.1
    · have h0' : ¬ k = k0 := fun h' => h0 h'.symm
      simp [GoMap.get, h0, h0', ih h.2]

/-- Two maps with the same entries read the same at every key. -/
theorem GoMap.get_of_perm {α : Type} (m m' : GoMap α) (h : (m.map Prod.fst).Nodup)
    (hp : m'.Perm m) (k : String) : m'.get k = m.get k := by
  have h' : (m'.map Prod.fst).Nodup := (hp.map Prod.fst).nodup_iff.mpr h
  apply Option.ext
  intro v
  simp only [Option.mem_def]
  rw [GoMap.get_eq_some_iff m' h', GoMap.get_eq_some_iff m h]
  exact hp.mem_iff

/-- The slice built by `UnstructuredYamlToYamlSlice` has one item for each entry handed out
by the loop, in that order. -/
theorem UnstructuredYamlToYamlSlice_eq_map {α : Type} (range : GoMap α → List (String × α))
    (object : GoMap α) :
    util.UnstructuredYamlToYamlSlice range object
      = (range object).map (fun kv => ⟨.string kv.1, kv.2⟩) := by
  unfold util.UnstructuredYamlToYamlSlice
  have : ∀ (l : List (String × α)) (acc : yaml.MapSlice α),
      l.foldl (fun m kv => m ++ [⟨.string kv.1, kv.2⟩]) acc
        = acc ++ l.map (fun kv => ⟨.string kv.1, kv.2⟩) := by
    intro l
    induction l with
    | nil => simp
    | cons e rest ih => intro acc; simp [ih]
  simpa using this (range object) []

/-- On items made from entries with new, pairwise distinct keys the loop of
`YamlSliceToUnstructuredYaml` adds the entries at the end of the map. -/
theorem loop_of_entries {α : Type} (l : List (String × α)) (obj : GoMap α)
    (h : ((obj ++ l).map Prod.fst).Nodup) :
    util.YamlSliceToUnstructuredYaml.loop obj
        (l.map (fun kv => (⟨.string kv.1, kv.2⟩ : yaml.MapItem α)))
      = some (obj ++ l) := by
  induction l generalizing obj with
  | nil => simp [util.YamlSliceToUnstructuredYaml.loop]
  | cons e rest ih =>
    obtain ⟨k, v⟩ := e
    have hk : k ∉ obj.map Prod.fst := by
      simp only [List.map_append, List.map_cons] at h
      have := (List.nodup_append.mp h).2.2
      intro hmem
      exact this hmem (List.mem_cons_self _ _)
    simp only [List.map_cons, util.YamlSliceToUnstructuredYaml.loop]
    rw [GoMap.set_of_not_mem obj k v hk, ih (obj ++ [(k, v)]) (by simpa using h)]
    simp

/-- What the loop of `YamlSliceToUnstructuredYaml` returns on a slice whose keys are all
strings. -/
theorem loop_of_string_keys {α : Type} (s : yaml.MapSlice α) (obj : GoMap α)
    (hs : ∀ item ∈ s, item.hasStringKey = true) (hobj : (obj.map Prod.fst).Nodup) :
    ∃ out, util.YamlSliceToUnstructuredYaml.loop obj s = some out ∧
      (out.map Prod.fst).Nodup ∧
      (∀ k, out.get k = (match s.lastValue k with
                          | some x => some x
                          | none => obj.get k)) ∧
      out.length ≤ obj.length + s.length := by
  induction s generalizing obj with
  | nil => exact ⟨obj, rfl, hobj, fun k => rfl, by simp⟩
  | cons v rest ih =>
    have hv := hs v (List.mem_cons_self _ _)
    have hrest : ∀ item ∈ rest, item.hasStringKey = true :=
      fun item hmem => hs item (List.mem_cons_of_mem _ hmem)
    obtain ⟨key, value⟩ := v
    cases key with
    | string k0 =>
      obtain ⟨out, hout, hnd, hget, hlen⟩ :=
        ih (obj.set k0 value) hrest (GoMap.nodup_set obj k0 value hobj)
      refine ⟨out, by simpa [util.YamlSliceToUnstructuredYaml.loop] using hout, hnd, ?_, ?_⟩
      · intro k
        rw [hget k]
        simp only [yaml.MapSlice.lastValue]
        cases hl : yaml.MapSlice.lastValue rest k with
        | some x => rfl
        | none =>
          simp only [GoMap.get_set]
          by_cases hk : k0 = k
          · simp [hk]
          · simp [hk]
      · have hset : (obj.set k0 value).length ≤ obj.length + 1 := by
          have := congrArg List.length (GoMap.keys_set obj k0 value)
          simp only [List.length_map] at this
          rw [this]
          split_ifs <;> simp
        simp only [List.length_cons]
        omega
    | nil => simp [yaml.MapItem.hasStringKey] at hv
    | bool b => simp [yaml.MapItem.hasStringKey] at hv
    | int n => simp [yaml.MapItem.hasStringKey] at hv

/-- The loop of `YamlSliceToUnstructuredYaml` panics on a slice that holds an item whose key
is not a string. -/
theorem loop_of_other_key {α : Type} (s : yaml.MapSlice α) (obj : GoMap α)
    (item : yaml.MapItem α) (hmem : item ∈ s) (hitem : item.hasStringKey = false) :
    util.YamlSliceToUnstructuredYaml.loop obj s = none := by
  induction s generalizing obj with
  | nil => simp at hmem
  | cons v rest ih =>
    obtain ⟨key, value⟩ := v
    cases key with
    | string k0 =>
      have : item ∈ rest := by
        rcases List.mem_cons.mp hmem with h | h
        · subst h; simp [yaml.MapItem.hasStringKey] at hitem
        · exact h
      simpa [util.YamlSliceToUnstructuredYaml.loop] using ih _ this
    | nil => rfl
    | bool b => rfl
    | int n => rfl

/-- Claim C28.  For every map `m` (its keys pairwise distinct) and every order in which the
runtime hands out its entries, `YamlSliceToUnstructuredYaml(UnstructuredYamlToYamlSlice(m))`
returns a map with the entries of `m`, reading like `m` at every key, and the slice has
`len(m)` items with pairwise distinct keys, each item holding a key of `m` with the value
of `m` for it. -/
theorem C28_map_slice_round_trip {α : Type} (range : GoMap α → List (String × α))
    (m : GoMap α) (hm : (m.map Prod.fst).Nodup) (hrange : (range m).Perm m) :
    (∃ obj, util.YamlSliceToUnstructuredYaml (util.UnstructuredYamlToYamlSlice range m)
          = some obj ∧ obj.Perm m ∧ ∀ k, obj.get k = m.get k) ∧
    (util.UnstructuredYamlToYamlSlice range m).length = m.length ∧
    ((util.UnstructuredYamlToYamlSlice range m).map (fun item => item.Key)).Nodup ∧
    ∀ item ∈ util.UnstructuredYamlToYamlSlice range m,
      ∃ k, item.Key = .string k ∧ m.get k = some item.Value := by
  have hnd : ((range m).map Prod.fst).Nodup := (hrange.map Prod.fst).nodup_iff.mpr hm
  rw [UnstructuredYamlToYamlSlice_eq_map]
  refine ⟨⟨range m, ?_, hrange, fun k => GoMap.get_of_perm m (range m) hm hrange k⟩,
    ?_, ?_, ?_⟩
  · unfold util.YamlSliceToUnstructuredYaml
    simpa using loop_of_entries (range m) [] (by simpa using hnd)
  · simpa using hrange.length_eq
  · rw [List.map_map]
    have : ((fun item : yaml.MapItem α => item.Key) ∘ fun kv : String × α =>
        (⟨.string kv.1, kv.2⟩ : yaml.MapItem α)) = GoValue.string ∘ Prod.fst := rfl
    rw [this, ← List.map_map]
    exact hnd.map (fun a b hab => by cases hab; rfl)
  · intro item hmem
    obtain ⟨kv, hkv, rfl⟩ := List.mem_map.mp hmem
    refine ⟨kv.1, rfl, ?_⟩
    exact (GoMap.get_eq_some_iff m hm kv.1 kv.2).mpr (hrange.mem_iff.mp hkv)

/-- The map with the two entries `a: 1` and `b: 2`, handed out in the order `b`, `a`: the
round trip returns the two entries. -/
theorem C28_witness :
    (([("a", 1), ("b", 2)] : GoMap Nat).map Prod.fst).Nodup ∧
    (([("b", 2), ("a", 1)] : GoMap Nat)).Perm [("a", 1), ("b", 2)] ∧
    util.YamlSliceToUnstructuredYaml
        (util.UnstructuredYamlToYamlSlice (fun _ => [("b", 2), ("a", 1)])
          ([("a", 1), ("b", 2)] : GoMap Nat))
      = some [("b", 2), ("a", 1)] ∧
    (∃ obj, util.YamlSliceToUnstructuredYaml
          (util.UnstructuredYamlToYamlSlice (fun _ => [("b", 2), ("a", 1)])
            ([("a", 1), ("b", 2)] : GoMap Nat)) = some obj ∧
        obj.Perm [("a", 1), ("b", 2)] ∧
        ∀ k, obj.get k = GoMap.get ([("a", 1), ("b", 2)] : GoMap Nat) k) :=
  ⟨by decide, List.Perm.swap _ _ _, by decide,
   (C28_map_slice_round_trip (fun _ => [("b", 2), ("a", 1)]) [("a", 1), ("b", 2)]
      (by decide) (List.Perm.swap _ _ _)).1⟩

/-- Claim C29, as written, fails.  On a slice with the integer key `1` the call
`YamlSliceToUnstructuredYaml` panics, and on a slice with two items of key `a` the map
returned has one entry, not two. -/
theorem C29_integer_key_panics :
    util.YamlSliceToUnstructuredYaml ([⟨.int 1, "x"⟩] : yaml.MapSlice String) = none ∧
    util.YamlSliceToUnstructuredYaml
        ([⟨.string "a", "x"⟩, ⟨.string "a", "y"⟩] : yaml.MapSlice String)
      = some [("a", "y")] := by
  constructor <;> decide

/-- A key is in the map exactly when reading it gives a value. -/
theorem GoMap.get_isSome_iff {α : Type} (m : GoMap α) (k : String) :
    (m.get k).isSome = true ↔ k ∈ m.map Prod.fst := by
  induction m with
  | nil => simp [GoMap.get]
  | cons e rest ih =>
    obtain ⟨k0, v0⟩ := e
    by_cases h0 : k0 = k
    · simp [GoMap.get, h0]
    · have h0' : ¬ k = k0 := fun h => h0 h.symm
      simp [GoMap.get, h0, h0', ih]

/-- The slice has a last value for a string exactly when the string is one of its keys. -/
theorem lastValue_isSome_iff {α : Type} (s : yaml.MapSlice α) (k : String) :
    (s.lastValue k).isSome = true ↔ GoValue.string k ∈ s.map (fun item => item.Key) := by
  induction s with
  | nil => simp [yaml.MapSlice.lastValue]
  | cons v rest ih =>
    simp only [yaml.MapSlice.lastValue, List.map_cons, List.mem_cons]
    cases hl : yaml.MapSlice.lastValue rest k with
    | some x =>
      have : GoValue.string k ∈ rest.map (fun item => item.Key) := ih.1 (by simp [hl])
      simp [this]
    | none =>
      have hnot : GoValue.string k ∉ rest.map (fun item => item.Key) := by
        intro hmem
        have := ih.2 hmem
        simp [hl] at this
      by_cases hv : v.Key = GoValue.string k
      · simp [hv]
      · have hv' : ¬ GoValue.string k = v.Key := fun h => hv h.symm
        simp [hv, hv', hnot]

/-- Claim C29, amended.  `YamlSliceToUnstructuredYaml` returns a map exactly for the slices
whose keys are all strings.  On such a slice the keys of the map are pairwise distinct and
are the keys of the slice, each key reads as the value of the last item that has it, and the
map has at most as many entries as the slice has items.  On a slice that holds an item
whose key is not a string the call panics. -/
theorem C29_total_exactly_on_string_keys {α : Type} (s : yaml.MapSlice α) :
    ((∀ item ∈ s, item.hasStringKey = true) →
      ∃ obj, util.YamlSliceToUnstructuredYaml s = some obj ∧
        (obj.map Prod.fst).Nodup ∧
        (∀ k, obj.get k = s.lastValue k) ∧
        (∀ k, k ∈ obj.map Prod.fst ↔ GoValue.string k ∈ s.map (fun item => item.Key)) ∧
        obj.length ≤ s.length) ∧
      ((∃ item ∈ s, item.hasStringKey = false) →
        util.YamlSliceToUnstructuredYaml s = none) := by
  constructor
  · intro hs
    obtain ⟨out, hout, hnd, hget, hlen⟩ := loop_of_string_keys s [] hs (by simp)
    have hget2 : ∀ k, out.get k = s.lastValue k := by
      intro k
      rw [hget k]
      cases yaml.MapSlice.lastValue s k <;> rfl
    refine ⟨out, hout, hnd, hget2, ?_, by simpa using hlen⟩
    intro k
    rw [← GoMap.get_isSome_iff, hget2 k, lastValue_isSome_iff]
  · rintro ⟨item, hmem, hitem⟩
    unfold util.YamlSliceToUnstructuredYaml
    generalize ([] : GoMap α) = obj
    induction s generalizing obj with
    | nil => simp at hmem
    | cons v rest ih =>
      obtain ⟨key, value⟩ := v
      cases key with
      | string k0 =>
        have hrest : item ∈ rest := by
          rcases List.mem_cons.mp hmem with h | h
          · subst h; simp [yaml.MapItem.hasStringKey] at hitem
          · exact h
        simpa [util.YamlSliceToUnstructuredYaml.loop] using ih hrest _
      | nil => rfl
      | bool b => rfl
      | int n => rfl

/-- The slice with two items of key `a` and one of key `b` gives the map `a: y`, `b: z`, and
the slice with a string key and the integer key `1` makes the call panic. -/
theorem C29_witness :
    (∀ item ∈ ([⟨.string "a", "x"⟩, ⟨.string "b", "z"⟩, ⟨.string "a", "y"⟩]
        : yaml.MapSlice String), item.hasStringKey = true) ∧
    util.YamlSliceToUnstructuredYaml
        ([⟨.string "a", "x"⟩, ⟨.string "b", "z"⟩, ⟨.string "a", "y"⟩] : yaml.MapSlice String)
      = some [("a", "y"), ("b", "z")] ∧
    (∃ obj, util.YamlSliceToUnstructuredYaml
          ([⟨.string "a", "x"⟩, ⟨.string "b", "z"⟩, ⟨.string "a", "y"⟩]
            : yaml.MapSlice String) = some obj ∧
        (obj.map Prod.fst).Nodup ∧
        (∀ k, obj.get k = yaml.MapSlice.lastValue
          ([⟨.string "a", "x"⟩, ⟨.string "b", "z"⟩, ⟨.string "a", "y"⟩]
            : yaml.MapSlice String) k) ∧
        (∀ k, k ∈ obj.map Prod.fst ↔ GoValue.string k ∈
          ([⟨.string "a", "x"⟩, ⟨.string "b", "z"⟩, ⟨.string "a", "y"⟩]
            : yaml.MapSlice String).map (fun item => item.Key)) ∧
        obj.length ≤ ([⟨.string "a", "x"⟩, ⟨.string "b", "z"⟩, ⟨.string "a", "y"⟩]
            : yaml.MapSlice String).length) ∧
    (∃ item ∈ ([⟨.string "a", "x"⟩, ⟨.int 1, "y"⟩] : yaml.MapSlice String),
      item.hasStringKey = false) ∧
    util.YamlSliceToUnstructuredYaml
        ([⟨.string "a", "x"⟩, ⟨.int 1, "y"⟩] : yaml.MapSlice String) = none ∧
    (util.YamlSliceToUnstructuredYaml
        ([⟨.string "a", "x"⟩, ⟨.bool true, "y"⟩, ⟨.string "b", "z"⟩] : yaml.MapSlice String)
      ).isNone = true :=
  ⟨by decide, by decide,
   (C29_total_exactly_on_string_keys
     ([⟨.string "a", "x"⟩, ⟨.string "b", "z"⟩, ⟨.string "a", "y"⟩] : yaml.MapSlice String)).1
     (by decide),
   ⟨⟨.int 1, "y"⟩, by decide, rfl⟩,
   (C29_total_exactly_on_string_keys
     ([⟨.string "a", "x"⟩, ⟨.int 1, "y"⟩] : yaml.MapSlice String)).2
     ⟨⟨.int 1, "y"⟩, by decide, rfl⟩,
   by decide⟩

/-! ## The bootstrap configuration -/

/-- Claim C21.  The claim asks that the line before the token line of the rendered document
is exactly the key `user:`.  In `kubeconfigTemplate` that line is `  user:5`: for every
value of `data` the document ends with the lines `  user:5` and `    token: ` followed by
the escaped token, and the document rendered on the example node for the role `worker`
(the CA certificate being the three bytes `1, 2, 3`) is the one shown. -/
theorem C21_user_key_line_reads_user_5 (data : kubeconfigData) :
    (∃ pre, template.Execute kubeconfigTemplate data
        = pre ++ ("\n  user:5\n    token: " ++ (template.htmlEscaper data.Token ++ "\n"))) ∧
    (CreateKubeletBootstrapConfig.render (Example.tokenEnv [1, 2, 3])
        Example.opts.ClusterConfig Example.vars "worker" 60000000000).toOption
      = some "\napiVersion: v1\nclusters:\n- cluster:\n    server: https://10.0.0.3:6443\n    certificate-authority-data: AQID\n  name: k0s\ncontexts:\n- context:\n    cluster: k0s\n    user: kubelet-bootstrap\n  name: k0s\ncurrent-context: k0s\nkind: Config\npreferences: \x7b\x7d\nusers:\n- name: kubelet-bootstrap\n  user:5\n    token: abcdef.0123456789abcdef\n" := by
  refine ⟨⟨template.Execute (kubeconfigTemplate.take 8) data, ?_⟩,
    by set_option maxRecDepth 100000 in decide⟩
  simp [kubeconfigTemplate, template.Execute, kubeconfigData.field, String.append_assoc]

/-- Claim C23.  The claim asks that `certificate-authority-data` is the standard base64
text of `ca.crt` for every content of the file.  The template is one of `html/template`,
whose escaper writes `&#43;` for the base64 character `+`: for a `ca.crt` that holds the
one byte `0xFB` the base64 text is `+w==`, and the field of the rendered document reads
`&#43;w==`. -/
theorem C23_plus_sign_is_escaped :
    base64.StdEncoding.EncodeToString [0xFB] = "+w==" ∧
    template.htmlEscaper "+w==" = "&#43;w==" ∧
    (CreateKubeletBootstrapConfig.render (Example.tokenEnv [0xFB])
        Example.opts.ClusterConfig Example.vars "worker" 60000000000).toOption
      = some "\napiVersion: v1\nclusters:\n- cluster:\n    server: https://10.0.0.3:6443\n    certificate-authority-data: &#43;w==\n  name: k0s\ncontexts:\n- context:\n    cluster: k0s\n    user: kubelet-bootstrap\n  name: k0s\ncurrent-context: k0s\nkind: Config\npreferences: \x7b\x7d\nusers:\n- name: kubelet-bootstrap\n  user:5\n    token: abcdef.0123456789abcdef\n" := by
  refine ⟨by decide, by decide, by set_option maxRecDepth 100000 in decide⟩

/-- Claim C24.  When `ca.crt` is read, the token manager is made and the token is created,
`CreateKubeletBootstrapConfig` renders the template with the user `kubelet-bootstrap` and
the server `Spec.API.APIAddressURL()` for the role `worker`, and with the user
`controller-bootstrap` and the server `Spec.API.K0sControlPlaneAPIAddress()` for every other
role, and returns what `JoinEncode` makes of the document.  When one of the three steps
fails it returns the empty string and an error. -/
theorem C24_role_chooses_user_and_server (env : TokenEnv) (clusterConfig : ClusterConfig)
    (k0sVars : CfgVars) (role : String) (expiry : Int) :
    (∀ caCert manager tokenString,
      env.ReadFile (filepath.Join [k0sVars.CertRootDir, "ca.crt"]) = .ok caCert →
      env.NewManager (filepath.Join [k0sVars.AdminKubeConfigPath]) = .ok manager →
      manager.Create expiry role = .ok tokenString →
      CreateKubeletBootstrapConfig env clusterConfig k0sVars role expiry
        = env.JoinEncode (template.Execute kubeconfigTemplate
            { CACert := base64.StdEncoding.EncodeToString caCert,
              Token := tokenString,
              User := if role = "worker" then "kubelet-bootstrap" else "controller-bootstrap",
              JoinURL := if role = "worker" then env.APIAddressURL clusterConfig.Spec.API
                         else clusterConfig.Spec.API.K0sControlPlaneAPIAddress,
              APIUrl := "" })) ∧
    (((∃ err, env.ReadFile (filepath.Join [k0sVars.CertRootDir, "ca.crt"]) = .error err) ∨
      (∃ caCert err,
        env.ReadFile (filepath.Join [k0sVars.CertRootDir, "ca.crt"]) = .ok caCert ∧
        env.NewManager (filepath.Join [k0sVars.AdminKubeConfigPath]) = .error err) ∨
      (∃ caCert manager err,
        env.ReadFile (filepath.Join [k0sVars.CertRootDir, "ca.crt"]) = .ok caCert ∧
        env.NewManager (filepath.Join [k0sVars.AdminKubeConfigPath]) = .ok manager ∧
        manager.Create expiry role = .error err)) →
      (CreateKubeletBootstrapConfig env clusterConfig k0sVars role expiry).1 = "" ∧
      (CreateKubeletBootstrapConfig env clusterConfig k0sVars role expiry).2 ≠ none) := by
  constructor
  · intro caCert manager tokenString hread hman htok
    unfold CreateKubeletBootstrapConfig CreateKubeletBootstrapConfig.render
    simp only [hread, hman, htok, CreateKubeletBootstrapConfig.data]
    by_cases hrole : role = "worker"
    · simp [hrole]
    · simp [hrole]
  · rintro (⟨err, hread⟩ | ⟨caCert, err, hread, hman⟩ | ⟨caCert, manager, err, hread, hman, htok⟩)
    · simp [CreateKubeletBootstrapConfig, CreateKubeletBootstrapConfig.render, hread]
    · simp [CreateKubeletBootstrapConfig, CreateKubeletBootstrapConfig.render, hread, hman]
    · simp [CreateKubeletBootstrapConfig, CreateKubeletBootstrapConfig.render, hread, hman,
        htok]

/-- On the example node the role `controller` gets the user `controller-bootstrap` and the
join address of the controller, and a node without `ca.crt` gets the empty string and an
error. -/
theorem C24_witness :
    CreateKubeletBootstrapConfig (Example.tokenEnv [1, 2, 3]) Example.opts.ClusterConfig
        Example.vars "controller" 60000000000
      = (Example.tokenEnv [1, 2, 3]).JoinEncode (template.Execute kubeconfigTemplate
          { CACert := "AQID", Token := "abcdef.0123456789abcdef",
            User := "controller-bootstrap", JoinURL := "https://10.0.0.3:9443",
            APIUrl := "" }) ∧
    (CreateKubeletBootstrapConfig (Example.tokenEnv [1, 2, 3]) Example.opts.ClusterConfig
        { Example.vars with CertRootDir := "/tmp/empty" } "worker" 60000000000).1 = "" ∧
    (CreateKubeletBootstrapConfig (Example.tokenEnv [1, 2, 3]) Example.opts.ClusterConfig
        { Example.vars with CertRootDir := "/tmp/empty" } "worker" 60000000000).2 ≠ none :=
  ⟨(C24_role_chooses_user_and_server (Example.tokenEnv [1, 2, 3]) Example.opts.ClusterConfig
      Example.vars "controller" 60000000000).1 [1, 2, 3]
      ⟨fun _ _ => .ok "abcdef.0123456789abcdef"⟩ "abcdef.0123456789abcdef" rfl rfl rfl,
   (C24_role_chooses_user_and_server (Example.tokenEnv [1, 2, 3]) Example.opts.ClusterConfig
      { Example.vars with CertRootDir := "/tmp/empty" } "worker" 60000000000).2
      (Or.inl ⟨⟨"open /tmp/empty/ca.crt: no such file or directory"⟩, rfl⟩)⟩

end K0s
